import Mathlib

/-! Verification of `cucumber_cpp/library/engine/TestRunner.cpp`.

A shallow embedding of the traversal engine (Run → Feature → Rule → Scenario → Step),
the two run policies and the per-step instrumentation, followed by theorems about it.

Conventions of the embedding.

* Every function of the source becomes a pure function from the state it can touch
  (`World`) to a result, the new state and the list of events it caused, in order
  (`Ran`).  Events are both the calls made on the report handler and the calls made
  on the other collaborators (hook registry, user bodies, gtest capture, context
  scopes), so that "is never invoked" is a statement about the event list.
* C++ exceptions are values: a function that may throw returns `Option Raised`.
* Scoped objects (`ScopedContextLock`, `ExecuteHookOnDescruction`, the two shims) are
  unfolded into what their constructor does at the declaration and what their
  destructor does at the end of the enclosing block, in reverse order of declaration.
* Durations are wall-clock readings and are left out of the events.
-/

namespace cucumber_cpp.engine

/-! ## Data model -/

/-- Modelled from the spec: `Result.hpp` is not among the sources. §3 "Outcome: one of
`passed, failed, pending, undefined, ambiguous, skipped`". -/
inductive Result where
  | passed
  | failed
  | pending
  | undefined
  | ambiguous
  | skipped
  deriving DecidableEq, Repr

/-- Modelled from the spec: `HookRegistry.hpp` is not among the sources. §3 "Hook lifecycle
point: one of `beforeAll, beforeFeature, before, beforeStep, afterStep, after,
afterFeature, afterAll`". -/
inductive HookType where
  | beforeAll
  | beforeFeature
  | before
  | beforeStep
  | afterStep
  | after
  | afterFeature
  | afterAll
  deriving DecidableEq, Repr

/-- The tag set `std::set<std::string, std::less<>>` of a feature or scenario. -/
abbrev Tags := List String

/-- The exceptions that the catch clauses of the step dispatcher (lines 191-210) tell apart:
the three named exception types, any other `std::exception`, and anything else. -/
inductive Raised where
  | PendingException
  | StepNotFoundException
  | AmbiguousStepException
  | stdException
  | other
  deriving DecidableEq, Repr

/-- The part of gtest's `testing::TestPartResult` that line 74 reads. -/
structure TestPartResult where
  message : String
  file_name : String
  line_number : Nat
  deriving DecidableEq, Repr

/-- What running a user-supplied body (a step definition or a hook) does, as far as the
engine can observe it: the test part results it reports to gtest, the text it writes to
the two standard streams, and the exception it ends with, if any. -/
structure Body where
  failures : List TestPartResult := []
  out : String := ""
  err : String := ""
  thrown : Option Raised := none
  deriving DecidableEq, Repr

/-- Modelled from the spec: `StepRegistry.hpp` is not among the sources. §3 "SingleMatch
(executable factory + captured arguments)"; the factory and the arguments are
represented by the behaviour of the body they produce. -/
structure StepMatch where
  id : Nat
  body : Body := {}
  deriving DecidableEq, Repr

/-- Modelled from the spec: `HookRegistry.hpp` is not among the sources. §6 "`Query` →
ordered sequence of (factory, tags)"; the factory is represented by the behaviour of
the body it produces. -/
structure HookMatch where
  id : Nat
  body : Body := {}
  deriving DecidableEq, Repr

/-- The three alternatives of the variant returned by `stepInfo.StepMatch()`, dispatched on
by the overloads of lines 158-174: `std::monostate`, `StepMatch`,
`std::vector<StepMatch>`. -/
inductive StepMatchVariant where
  | monostate
  | single (stepMatch : StepMatch)
  | multiple (stepMatches : List StepMatch)
  deriving DecidableEq, Repr

/-- Modelled from the spec: `StepInfo.hpp` is not among the sources. §3 scope node "Step"
with its pre-resolved match. -/
structure StepInfo where
  text : String
  StepMatch : StepMatchVariant
  deriving DecidableEq, Repr

/-- Modelled from the spec: `ScenarioInfo` is not among the sources. §3: a scenario holds
steps and a set of tags. -/
structure ScenarioInfo where
  title : String
  Tags : Tags := []
  Children : List StepInfo := []
  deriving DecidableEq, Repr

/-- Modelled from the spec: `RuleInfo.hpp` is not among the sources. §3: a rule holds
scenarios. -/
structure RuleInfo where
  title : String
  Scenarios : List ScenarioInfo := []
  deriving DecidableEq, Repr

/-- Modelled from the spec: `FeatureInfo.hpp` is not among the sources. §3: a feature holds
rules and scenarios and a set of tags. -/
structure FeatureInfo where
  title : String
  Tags : Tags := []
  Rules : List RuleInfo := []
  Scenarios : List ScenarioInfo := []
  deriving DecidableEq, Repr

/-- The four kinds of node a scope can be entered for (the four overloads of `StartScope`
used at lines 227, 254, 273 and 288). -/
inductive ScopeKind where
  | feature
  | rule
  | scenario
  | step
  deriving DecidableEq, Repr

/-- Everything the engine does that is visible from outside, in the order it happens. -/
inductive Event where
  /- calls on `report::ReportHandlerV2` -/
  | FeatureStart (feature : FeatureInfo)
  | FeatureEnd (result : Result) (feature : FeatureInfo)
  | RuleStart (rule : RuleInfo)
  | RuleEnd (result : Result) (rule : RuleInfo)
  | ScenarioStart (scenario : ScenarioInfo)
  | ScenarioEnd (result : Result) (scenario : ScenarioInfo)
  | StepStart (step : StepInfo)
  | StepEnd (result : Result) (step : StepInfo)
  | StepSkipped (step : StepInfo)
  | Failure (message : String) (file_name : String) (line_number : Nat)
  | Trace (text : String)
  | Summary
  /- calls on the run policy -/
  | PolicyExecuteHook (hook : HookType) (tags : Tags)
  | PolicyExecuteStep (step : StepInfo) (stepMatch : StepMatch)
  /- calls made by `RunTestPolicy` -/
  | HookQuery (hook : HookType) (tags : Tags)
  | HookBody (hookMatch : HookMatch)
  | StepBody (step : StepInfo) (stepMatch : StepMatch)
  /- construction and destruction of the two shims of `WrapExecuteStep` -/
  | CollectorStart
  | CollectorStop
  | CaptureStart
  | CaptureStop
  /- `contextManager.StartScope` and the release of the `ScopedContextLock` -/
  | StartScope (kind : ScopeKind)
  | EndScope (kind : ScopeKind)
  deriving DecidableEq, Repr

/-! ## The context stack -/

/-- Modelled from the spec: the execution record of `ContextManager.hpp`, which is not among
the sources. §3 "Execution record: per-entered-scope mutable state: current outcome
(default `passed` until changed)"; the kind of scope it was pushed for is kept with it. -/
structure Frame where
  kind : ScopeKind
  ExecutionStatus : Result := Result.passed
  deriving DecidableEq, Repr

/-- Modelled from the spec: `ContextManager.hpp` is not among the sources. §2 and §6: "a
stack of per-scope execution records (status, duration) pushed on scope entry and popped
on exit; supplies 'current' and 'innermost step' records", below which sits the record
of the run itself (line 311 reads it when no scope is entered). §3: a record's outcome
is "`passed` until changed". `frames` has the innermost scope first. -/
structure ContextManager where
  programContext : Result := Result.passed
  frames : List Frame := []
  deriving DecidableEq, Repr

/-- Modelled from the spec: reading the "current" record of the context stack
(`ContextManager.hpp` is not among the sources): the outcome of the innermost record
that is not a step record, the run's own record when there is none. -/
def currentStatusIn (program : Result) : List Frame → Result
  | [] => program
  | f :: fs => if f.kind = ScopeKind.step then currentStatusIn program fs else f.ExecutionStatus

/-- Modelled from the spec: writing the "current" record of the context stack
(`ContextManager.hpp` is not among the sources): the outcome of the innermost record
that is not a step record is assigned; the records around it are left alone (§3 "never
shared across scopes"). -/
def setCurrentIn (r : Result) (program : Result) : List Frame → Result × List Frame
  | [] => (r, [])
  | f :: fs =>
    if f.kind = ScopeKind.step then ((setCurrentIn r program fs).1, f :: (setCurrentIn r program fs).2)
    else (program, { f with ExecutionStatus := r } :: fs)

/-- Modelled from the spec: reading the "innermost step" record of the context stack
(`ContextManager.hpp` is not among the sources); `passed` when no step scope is
entered. -/
def stepStatusIn : List Frame → Result
  | [] => Result.passed
  | f :: fs => if f.kind = ScopeKind.step then f.ExecutionStatus else stepStatusIn fs

/-- Modelled from the spec: writing the "innermost step" record of the context stack
(`ContextManager.hpp` is not among the sources): the step record takes the outcome, and
a non-`passed` outcome marks the enclosing scope `failed` (§3 aggregation rule). Only
the record of the enclosing scope is written; §7 has a failing step mark "its scope and
all ancestors as `failed` (via aggregation)", and the records further out are left to
the aggregation of line 266. Whether the absent setter writes them too is not decided
by the sources. -/
def setStepIn (r : Result) (program : Result) : List Frame → Result × List Frame
  | [] => (program, [])
  | f :: fs =>
    if f.kind = ScopeKind.step then
      if r = Result.passed then (program, { f with ExecutionStatus := r } :: fs)
      else ((setCurrentIn Result.failed program fs).1,
            { f with ExecutionStatus := r } :: (setCurrentIn Result.failed program fs).2)
    else ((setStepIn r program fs).1, f :: (setStepIn r program fs).2)

namespace ContextManager

/-- Modelled from the spec: `ContextManager::StartScope` is not among the sources. §6
"`EnterScope(node)` → scoped handle (releases on destruction, pushing/popping a stack
frame)"; the new record starts `passed` (§3). -/
def StartScope (kind : ScopeKind) (cm : ContextManager) : ContextManager :=
  { cm with frames := { kind := kind } :: cm.frames }

/-- Modelled from the spec: the destructor of `ContextManager::ScopedContextLock` is not
among the sources. §6: releasing the handle pops the frame. -/
def EndScope (cm : ContextManager) : ContextManager :=
  { cm with frames := cm.frames.tail }

/-- Modelled from the spec: `ContextManager::CurrentContext` is not among the sources. §6
"`Current()` → execution record (mutable outcome + duration for the innermost active
scope)"; inside a step scope it is the record of "the enclosing scenario" (§4.1,
`ManageExecuteStep`: the test of line 229, made after the step scope is entered, reads
"the enclosing scenario's current outcome"), the step's own record being the one
supplied by `StepContext`. This is the getter `CurrentContext().ExecutionStatus()`. -/
def CurrentContext_ExecutionStatus (cm : ContextManager) : Result :=
  currentStatusIn cm.programContext cm.frames

/-- Modelled from the spec: the setter `CurrentContext().ExecutionStatus(result)` is not
among the sources. §4.1 `RunScenarios`: "the parent scope's outcome is set to `passed`
only if every scenario ended `passed`, else `failed`": the record's outcome is
assigned. -/
def CurrentContext_SetExecutionStatus (r : Result) (cm : ContextManager) : ContextManager :=
  { programContext := (setCurrentIn r cm.programContext cm.frames).1
    frames := (setCurrentIn r cm.programContext cm.frames).2 }

/-- Modelled from the spec: `ContextManager::StepContext` is not among the sources. §6
"`InnermostStep()` → step execution record". This is the getter
`StepContext().ExecutionStatus()`. -/
def StepContext_ExecutionStatus (cm : ContextManager) : Result :=
  stepStatusIn cm.frames

/-- Modelled from the spec: the setter `StepContext().ExecutionStatus(result)` is not among
the sources. The step's record takes the outcome; and since the source itself never
writes a scenario's record, the rule of §3 "a composite scope is `passed` iff every
attempted child is `passed`; otherwise it is `failed`" (§7: a failing step "marks its
scope and all ancestors as `failed` (via aggregation)") is what the context stack does
when a step's outcome is set to a non-`passed` value: the enclosing scenario's record
becomes `failed`. The records of the scopes further out are not written here: in this
model they change only where the source assigns them (line 266). What the outcome of a
rule does to the record of its feature is therefore not settled by this model. -/
def StepContext_SetExecutionStatus (r : Result) (cm : ContextManager) : ContextManager :=
  { programContext := (setStepIn r cm.programContext cm.frames).1
    frames := (setStepIn r cm.programContext cm.frames).2 }

/-- The context stack `cm` with one more record on top: a step record of outcome `s`. -/
def withStep (s : Result) (cm : ContextManager) : ContextManager :=
  { cm with frames := { kind := ScopeKind.step, ExecutionStatus := s } :: cm.frames }

end ContextManager

/-! ## State and results -/

/-- The state the engine reads and writes: the context stack, and gtest's ambient state as
the two shims of `WrapExecuteStep` use it (`none` when no collector is registered, when
a stream is not being captured). -/
structure World where
  contextManager : ContextManager := {}
  errors : Option (List TestPartResult) := none
  capturedStdout : Option String := none
  capturedStderr : Option String := none
  deriving DecidableEq, Repr

/-- Effect of running a user body on gtest's ambient state: its test part results reach the
registered collector (`OnTestPartResult`, line 85), its output reaches the capture
buffers; both are lost when nothing is registered. -/
def World.perform (b : Body) (w : World) : World :=
  { w with
    errors := w.errors.map (fun es => es ++ b.failures)
    capturedStdout := w.capturedStdout.map (fun s => s ++ b.out)
    capturedStderr := w.capturedStderr.map (fun s => s ++ b.err) }

/-- The call `contextManager.StartScope(node)` for a node of the given kind; the lock it
returns is released by `World.EndScope`. -/
def World.StartScope (kind : ScopeKind) (w : World) : World :=
  { w with contextManager := w.contextManager.StartScope kind }

/-- Destruction of the `ScopedContextLock` at the end of the block that declared it. -/
def World.EndScope (w : World) : World :=
  { w with contextManager := w.contextManager.EndScope }

/-- Outcome of running a piece of the engine: the value returned, the state left behind and
the events caused, oldest first. -/
structure Ran (α : Type) where
  value : α
  world : World
  events : List Event

/-- Modelled from the spec: `Rtrim.hpp` is not among the sources. §4.5 "trimming trailing
whitespace". -/
def Rtrim (str : String) : String :=
  String.mk (str.data.reverse.dropWhile Char.isWhitespace).reverse

/-- The hook registry singleton: `HookRegistry::Instance().Query(hook, tags)`. -/
abbrev HookRegistry := HookType → Tags → List HookMatch

/-- The two implementations of the `RunPolicy` interface. -/
inductive RunPolicy where
  | RunTestPolicy
  | DryRunPolicy
  deriving DecidableEq, Repr

/-! ## Execution policies (lines 25-57) -/

/-- Lines 25-28: the matched body is built and executed; what it throws propagates. -/
def RunTestPolicy.ExecuteStep (stepInfo : StepInfo) (stepMatch : StepMatch) (w : World) :
    Ran (Option Raised) :=
  { value := stepMatch.body.thrown
    world := w.perform stepMatch.body
    events := [Event.StepBody stepInfo stepMatch] }

/-- The loop of lines 34-35 inside the try block of lines 32-44: the hooks are executed in
order; the first that throws ends the loop and the result is `false` (lines 37-44);
`true` when the loop runs to its end (line 46). -/
def RunTestPolicy.ExecuteHook.loop : List HookMatch → World → Ran Bool
  | [], w => { value := true, world := w, events := [] }
  | m :: ms, w =>
    match m.body.thrown with
    | some _ => { value := false, world := w.perform m.body, events := [Event.HookBody m] }
    | none =>
      let rest := RunTestPolicy.ExecuteHook.loop ms (w.perform m.body)
      { value := rest.value, world := rest.world, events := Event.HookBody m :: rest.events }

/-- Lines 30-47. -/
def RunTestPolicy.ExecuteHook (registry : HookRegistry) (hook : HookType) (tags : Tags)
    (w : World) : Ran Bool :=
  let r := RunTestPolicy.ExecuteHook.loop (registry hook tags) w
  { value := r.value, world := r.world, events := Event.HookQuery hook tags :: r.events }

/-- Lines 49-52: "dry run doesn't execute". -/
def DryRunPolicy.ExecuteStep (_stepInfo : StepInfo) (_stepMatch : StepMatch) (w : World) :
    Ran (Option Raised) :=
  { value := none, world := w, events := [] }

/-- Lines 54-57. -/
def DryRunPolicy.ExecuteHook (_hook : HookType) (_tags : Tags) (w : World) : Ran Bool :=
  { value := true, world := w, events := [] }

/-- The virtual call `runPolicy.ExecuteStep(contextManager, stepInfo, stepMatch)`. -/
def RunPolicy.ExecuteStep (runPolicy : RunPolicy) (stepInfo : StepInfo) (stepMatch : StepMatch)
    (w : World) : Ran (Option Raised) :=
  let r := match runPolicy with
    | RunPolicy.RunTestPolicy => RunTestPolicy.ExecuteStep stepInfo stepMatch w
    | RunPolicy.DryRunPolicy => DryRunPolicy.ExecuteStep stepInfo stepMatch w
  { r with events := Event.PolicyExecuteStep stepInfo stepMatch :: r.events }

/-- The virtual call `runPolicy.ExecuteHook(contextManager, hook, tags)`. -/
def RunPolicy.ExecuteHook (registry : HookRegistry) (runPolicy : RunPolicy) (hook : HookType)
    (tags : Tags) (w : World) : Ran Bool :=
  let r := match runPolicy with
    | RunPolicy.RunTestPolicy => RunTestPolicy.ExecuteHook registry hook tags w
    | RunPolicy.DryRunPolicy => DryRunPolicy.ExecuteHook hook tags w
  { r with events := Event.PolicyExecuteHook hook tags :: r.events }

/-! ## The runner (lines 59-313) -/

namespace TestRunner

/-- Lines 176-179. -/
def StepResult (result : Result) (w : World) : World :=
  { w with contextManager := w.contextManager.StepContext_SetExecutionStatus result }

/-- Lines 158-161: the overload for `std::monostate` throws `StepNotFoundException`. -/
def ExecuteStep_monostate (w : World) : Ran (Option Raised) :=
  { value := some Raised.StepNotFoundException, world := w, events := [] }

/-- Lines 163-166: the overload for `std::vector<StepMatch>` throws
`AmbiguousStepException`. -/
def ExecuteStep_vector (w : World) : Ran (Option Raised) :=
  { value := some Raised.AmbiguousStepException, world := w, events := [] }

/-- Lines 168-174: the overload for `StepMatch`. The `afterStep` guard is declared first
(line 170) and its destructor (lines 141-144) runs when the block is left, whether
line 173 returned or threw; the guard discards the hook result. -/
def ExecuteStep_StepMatch (registry : HookRegistry) (runPolicy : RunPolicy)
    (scenario : ScenarioInfo) (stepInfo : StepInfo) (stepMatch : StepMatch) (w : World) :
    Ran (Option Raised) :=
  let before := runPolicy.ExecuteHook registry HookType.beforeStep scenario.Tags w
  let body : Ran (Option Raised) :=
    if before.value then runPolicy.ExecuteStep stepInfo stepMatch before.world
    else { value := none, world := before.world, events := [] }
  let afterStepHook := runPolicy.ExecuteHook registry HookType.afterStep scenario.Tags body.world
  { value := body.value
    world := afterStepHook.world
    events := before.events ++ body.events ++ afterStepHook.events }

/-- Lines 185-189: `std::visit` selects the overload by the alternative held. -/
def ExecuteStep_visit (registry : HookRegistry) (runPolicy : RunPolicy)
    (scenario : ScenarioInfo) (stepInfo : StepInfo) (w : World) : Ran (Option Raised) :=
  match stepInfo.StepMatch with
  | StepMatchVariant.monostate => ExecuteStep_monostate w
  | StepMatchVariant.single stepMatch =>
    ExecuteStep_StepMatch registry runPolicy scenario stepInfo stepMatch w
  | StepMatchVariant.multiple _ => ExecuteStep_vector w

/-- Lines 181-211: the step dispatcher; each catch clause records an outcome. -/
def ExecuteStep (registry : HookRegistry) (runPolicy : RunPolicy) (scenario : ScenarioInfo)
    (stepInfo : StepInfo) (w : World) : Ran Unit :=
  let tried := ExecuteStep_visit registry runPolicy scenario stepInfo w
  match tried.value with
  | none => { value := (), world := tried.world, events := tried.events }
  | some Raised.PendingException =>
    { value := (), world := StepResult Result.pending tried.world, events := tried.events }
  | some Raised.StepNotFoundException =>
    { value := (), world := StepResult Result.undefined tried.world, events := tried.events }
  | some Raised.AmbiguousStepException =>
    { value := (), world := StepResult Result.ambiguous tried.world, events := tried.events }
  | some Raised.stdException =>
    { value := (), world := StepResult Result.failed tried.world, events := tried.events }
  | some Raised.other =>
    { value := (), world := StepResult Result.failed tried.world, events := tried.events }

/-- Lines 107-120, for one stream: the captured text is reported when it is not empty, after
`Rtrim`. -/
def traceCaptured (captured : Option String) : List Event :=
  match captured with
  | none => []
  | some str => if str = "" then [] else [Event.Trace (Rtrim str)]

/-- Lines 71-75: one `Failure` per collected test part result, in order. -/
def reportFailures (errors : Option (List TestPartResult)) : List Event :=
  match errors with
  | none => []
  | some es => es.map (fun error => Event.Failure error.message error.file_name error.line_number)

/-- Line 88-91, `HasFailures`. -/
def HasFailures (w : World) : Bool :=
  match w.errors with
  | none => false
  | some es => !es.isEmpty

/-- Lines 216-217: the collector is constructed with nothing collected, the capture of the
two streams is started (lines 103-104). -/
def startShims (w : World) : World :=
  { w with errors := some [], capturedStdout := some "", capturedStderr := some "" }

/-- Lines 214-223. The collector is constructed, then the capture (lines 100-105); after
line 222 the capture is destroyed first (lines 107-120), then the collector (lines
71-75). -/
def WrapExecuteStep (registry : HookRegistry) (runPolicy : RunPolicy) (scenario : ScenarioInfo)
    (step : StepInfo) (w : World) : Ran Unit :=
  let started : World := startShims w
  let executed := ExecuteStep registry runPolicy scenario step started
  let settled : World :=
    if HasFailures executed.world then StepResult Result.failed executed.world
    else executed.world
  { value := ()
    world := { settled with errors := none, capturedStdout := none, capturedStderr := none }
    events := [Event.CollectorStart, Event.CaptureStart] ++ executed.events
      ++ [Event.CaptureStop] ++ traceCaptured settled.capturedStdout
      ++ traceCaptured settled.capturedStderr
      ++ [Event.CollectorStop] ++ reportFailures settled.errors }

/-- Lines 225-239. -/
def ManageExecuteStep (registry : HookRegistry) (runPolicy : RunPolicy)
    (scenario : ScenarioInfo) (step : StepInfo) (w : World) : Ran Unit :=
  let entered : World := w.StartScope ScopeKind.step
  let inside : Ran Unit :=
    if entered.contextManager.CurrentContext_ExecutionStatus ≠ Result.passed then
      { value := (), world := entered, events := [Event.StepSkipped step] }
    else
      let wrapped := WrapExecuteStep registry runPolicy scenario step entered
      { value := ()
        world := wrapped.world
        events := [Event.StepStart step] ++ wrapped.events
          ++ [Event.StepEnd wrapped.world.contextManager.StepContext_ExecutionStatus step] }
  { value := ()
    world := inside.world.EndScope
    events := [Event.StartScope ScopeKind.step] ++ inside.events
      ++ [Event.EndScope ScopeKind.step] }

/-- The loop of lines 243-246 over a list of steps. -/
def ExecuteSteps.loop (registry : HookRegistry) (runPolicy : RunPolicy)
    (scenario : ScenarioInfo) : List StepInfo → World → Ran Unit
  | [], w => { value := (), world := w, events := [] }
  | step :: rest, w =>
    let first := ManageExecuteStep registry runPolicy scenario step w
    let others := ExecuteSteps.loop registry runPolicy scenario rest first.world
    { value := (), world := others.world, events := first.events ++ others.events }

/-- Lines 241-247. -/
def ExecuteSteps (registry : HookRegistry) (runPolicy : RunPolicy) (scenario : ScenarioInfo)
    (w : World) : Ran Unit :=
  ExecuteSteps.loop registry runPolicy scenario scenario.Children w

/-- The body of the loop of lines 252-265 for one scenario; the value returned is the
operand of `&=` at line 264. -/
def RunScenarios.body (registry : HookRegistry) (runPolicy : RunPolicy)
    (scenario : ScenarioInfo) (w : World) : Ran Bool :=
  let entered : World := w.StartScope ScopeKind.scenario
  let before := runPolicy.ExecuteHook registry HookType.before scenario.Tags entered
  let steps : Ran Unit :=
    if before.value then ExecuteSteps registry runPolicy scenario before.world
    else { value := (), world := before.world, events := [] }
  let after := runPolicy.ExecuteHook registry HookType.after scenario.Tags steps.world
  let status := after.world.contextManager.CurrentContext_ExecutionStatus
  { value := decide (status = Result.passed)
    world := after.world.EndScope
    events := [Event.StartScope ScopeKind.scenario, Event.ScenarioStart scenario]
      ++ before.events ++ steps.events ++ after.events
      ++ [Event.ScenarioEnd status scenario, Event.EndScope ScopeKind.scenario] }

/-- The loop of lines 252-265; the Boolean is `allScenariosPassed`. -/
def RunScenarios.loop (registry : HookRegistry) (runPolicy : RunPolicy) :
    List ScenarioInfo → Bool → World → Ran Bool
  | [], allScenariosPassed, w => { value := allScenariosPassed, world := w, events := [] }
  | scenario :: rest, allScenariosPassed, w =>
    let first := RunScenarios.body registry runPolicy scenario w
    let others := RunScenarios.loop registry runPolicy rest (allScenariosPassed && first.value)
      first.world
    { value := others.value, world := others.world, events := first.events ++ others.events }

/-- Lines 249-267. -/
def RunScenarios (registry : HookRegistry) (runPolicy : RunPolicy)
    (scenarios : List ScenarioInfo) (w : World) : Ran Unit :=
  let looped := RunScenarios.loop registry runPolicy scenarios true w
  { value := ()
    world := { looped.world with
      contextManager := looped.world.contextManager.CurrentContext_SetExecutionStatus
        (if looped.value then Result.passed else Result.failed) }
    events := looped.events }

/-- The body of the loop of lines 271-280 for one rule. -/
def RunRules.body (registry : HookRegistry) (runPolicy : RunPolicy) (rule : RuleInfo)
    (w : World) : Ran Unit :=
  let entered : World := w.StartScope ScopeKind.rule
  let scenarios := RunScenarios registry runPolicy rule.Scenarios entered
  { value := ()
    world := scenarios.world.EndScope
    events := [Event.StartScope ScopeKind.rule, Event.RuleStart rule] ++ scenarios.events
      ++ [Event.RuleEnd scenarios.world.contextManager.CurrentContext_ExecutionStatus rule,
          Event.EndScope ScopeKind.rule] }

/-- Lines 269-281. -/
def RunRules (registry : HookRegistry) (runPolicy : RunPolicy) :
    List RuleInfo → World → Ran Unit
  | [], w => { value := (), world := w, events := [] }
  | rule :: rest, w =>
    let first := RunRules.body registry runPolicy rule w
    let others := RunRules registry runPolicy rest first.world
    { value := (), world := others.world, events := first.events ++ others.events }

/-- Lines 283-301. -/
def RunFeature (registry : HookRegistry) (runPolicy : RunPolicy) (feature : FeatureInfo)
    (w : World) : Ran Unit :=
  if feature.Rules.isEmpty && feature.Scenarios.isEmpty then
    { value := (), world := w, events := [] }
  else
    let entered : World := w.StartScope ScopeKind.feature
    let before := runPolicy.ExecuteHook registry HookType.beforeFeature feature.Tags entered
    let rules : Ran Unit :=
      if before.value then RunRules registry runPolicy feature.Rules before.world
      else { value := (), world := before.world, events := [] }
    let scenarios : Ran Unit :=
      if before.value then RunScenarios registry runPolicy feature.Scenarios rules.world
      else { value := (), world := rules.world, events := [] }
    let after := runPolicy.ExecuteHook registry HookType.afterFeature feature.Tags scenarios.world
    { value := ()
      world := after.world.EndScope
      events := [Event.StartScope ScopeKind.feature, Event.FeatureStart feature]
        ++ before.events ++ rules.events ++ scenarios.events ++ after.events
        ++ [Event.FeatureEnd after.world.contextManager.CurrentContext_ExecutionStatus feature,
            Event.EndScope ScopeKind.feature] }

/-- The loop of lines 306-307. -/
def Run.loop (registry : HookRegistry) (runPolicy : RunPolicy) :
    List FeatureInfo → World → Ran Unit
  | [], w => { value := (), world := w, events := [] }
  | feature :: rest, w =>
    let first := RunFeature registry runPolicy feature w
    let others := Run.loop registry runPolicy rest first.world
    { value := (), world := others.world, events := first.events ++ others.events }

/-- Lines 303-312. -/
def Run (registry : HookRegistry) (runPolicy : RunPolicy) (feature : List FeatureInfo)
    (w : World) : Ran Unit :=
  let beforeAll := runPolicy.ExecuteHook registry HookType.beforeAll [] w
  let features : Ran Unit :=
    if beforeAll.value then Run.loop registry runPolicy feature beforeAll.world
    else { value := (), world := beforeAll.world, events := [] }
  let afterAll := runPolicy.ExecuteHook registry HookType.afterAll [] features.world
  { value := ()
    world := afterAll.world
    events := beforeAll.events ++ features.events ++ afterAll.events ++ [Event.Summary] }

end TestRunner

end cucumber_cpp.engine

/-! ## Vocabulary for the statements -/

namespace cucumber_cpp.engine

/-- The events a call of `runPolicy.ExecuteHook` for the lifecycle point `hook` can cause. -/
def Event.fromHook (hook : HookType) : Event → Bool
  | Event.PolicyExecuteHook h _ => decide (h = hook)
  | Event.HookQuery h _ => decide (h = hook)
  | Event.HookBody _ => true
  | _ => false

/-- The events that can occur inside `WrapExecuteStep`: what the shims, the hooks of the
step and the step body cause. -/
def Event.wrapLevel : Event → Bool
  | Event.Failure _ _ _ => true
  | Event.Trace _ => true
  | Event.PolicyExecuteHook h _ => decide (h = HookType.beforeStep) || decide (h = HookType.afterStep)
  | Event.HookQuery h _ => decide (h = HookType.beforeStep) || decide (h = HookType.afterStep)
  | Event.HookBody _ => true
  | Event.PolicyExecuteStep _ _ => true
  | Event.StepBody _ _ => true
  | Event.CollectorStart => true
  | Event.CollectorStop => true
  | Event.CaptureStart => true
  | Event.CaptureStop => true
  | _ => false

/-- The events that can occur while one step is managed. -/
def Event.stepLevel : Event → Bool
  | Event.StepStart _ => true
  | Event.StepEnd _ _ => true
  | Event.StepSkipped _ => true
  | Event.Failure _ _ _ => true
  | Event.Trace _ => true
  | Event.PolicyExecuteHook h _ => decide (h = HookType.beforeStep) || decide (h = HookType.afterStep)
  | Event.HookQuery h _ => decide (h = HookType.beforeStep) || decide (h = HookType.afterStep)
  | Event.HookBody _ => true
  | Event.PolicyExecuteStep _ _ => true
  | Event.StepBody _ _ => true
  | Event.CollectorStart => true
  | Event.CollectorStop => true
  | Event.CaptureStart => true
  | Event.CaptureStop => true
  | Event.StartScope k => decide (k = ScopeKind.step)
  | Event.EndScope k => decide (k = ScopeKind.step)
  | _ => false

/-- The events that can occur while the scenarios of a list are run. -/
def Event.scenarioLevel : Event → Bool
  | Event.ScenarioStart _ => true
  | Event.ScenarioEnd _ _ => true
  | Event.PolicyExecuteHook h _ =>
    decide (h = HookType.before) || decide (h = HookType.after)
      || decide (h = HookType.beforeStep) || decide (h = HookType.afterStep)
  | Event.HookQuery h _ =>
    decide (h = HookType.before) || decide (h = HookType.after)
      || decide (h = HookType.beforeStep) || decide (h = HookType.afterStep)
  | Event.StartScope k => decide (k = ScopeKind.scenario) || decide (k = ScopeKind.step)
  | Event.EndScope k => decide (k = ScopeKind.scenario) || decide (k = ScopeKind.step)
  | e => e.stepLevel

/-- The events that can occur while the rules of a list are run. -/
def Event.ruleLevel : Event → Bool
  | Event.RuleStart _ => true
  | Event.RuleEnd _ _ => true
  | Event.StartScope k =>
    decide (k = ScopeKind.rule) || decide (k = ScopeKind.scenario) || decide (k = ScopeKind.step)
  | Event.EndScope k =>
    decide (k = ScopeKind.rule) || decide (k = ScopeKind.scenario) || decide (k = ScopeKind.step)
  | e => e.scenarioLevel

/-- The events that can occur while the features of a list are run: everything but the
`beforeAll` and `afterAll` hook calls and `Summary`. -/
def Event.featureLevel : Event → Bool
  | Event.Summary => false
  | Event.PolicyExecuteHook h _ => !(decide (h = HookType.beforeAll) || decide (h = HookType.afterAll))
  | Event.HookQuery h _ => !(decide (h = HookType.beforeAll) || decide (h = HookType.afterAll))
  | _ => true

/-- Whether an event is the call of the policy's `ExecuteStep` or the run of a step body. -/
def Event.isBodyCall : Event → Bool
  | Event.PolicyExecuteStep _ _ => true
  | Event.StepBody _ _ => true
  | _ => false

/-- Whether an event is the call `runPolicy.ExecuteHook(_, hook, _)`. -/
def Event.isHookCall (hook : HookType) : Event → Bool
  | Event.PolicyExecuteHook h _ => decide (h = hook)
  | _ => false

/-- Number of calls `runPolicy.ExecuteHook(_, hook, _)` in an event list. -/
def hookCalls (hook : HookType) (es : List Event) : Nat :=
  es.countP (Event.isHookCall hook)

/-- Whether an event is a `ScenarioStart` report. -/
def Event.isScenarioStart : Event → Bool
  | Event.ScenarioStart _ => true
  | _ => false

/-- Whether an event is a `FeatureStart` report. -/
def Event.isFeatureStart : Event → Bool
  | Event.FeatureStart _ => true
  | _ => false

/-- Whether an event is a hook call on the policy, a registry query or a hook body. -/
def Event.isHookEvent : Event → Bool
  | Event.PolicyExecuteHook _ _ => true
  | Event.HookQuery _ _ => true
  | Event.HookBody _ => true
  | _ => false

/-- Whether an event is caused by the engine itself rather than by a run policy: the reports,
the shims and the scopes. -/
def Event.fromEngine : Event → Bool
  | Event.PolicyExecuteHook _ _ => false
  | Event.PolicyExecuteStep _ _ => false
  | Event.HookQuery _ _ => false
  | Event.HookBody _ => false
  | Event.StepBody _ _ => false
  | _ => true

/-- Whether an event is something the live policy does to run user code: a query of the hook
registry, the run of a hook body, the run of a step body. -/
def Event.isExecution : Event → Bool
  | Event.HookQuery _ _ => true
  | Event.HookBody _ => true
  | Event.StepBody _ _ => true
  | _ => false

/-- A property of events that holds of every event the engine causes itself and of every
event a call on the given policy causes. -/
def Covers (registry : HookRegistry) (runPolicy : RunPolicy) (P : Event → Prop) : Prop :=
  (∀ e, e.fromEngine = true → P e)
  ∧ (∀ hook tags w, ∀ e ∈ (runPolicy.ExecuteHook registry hook tags w).events, P e)
  ∧ (∀ stepInfo stepMatch w, ∀ e ∈ (runPolicy.ExecuteStep stepInfo stepMatch w).events, P e)

/-- A step is reported: started and ended, or skipped. -/
def StepReported (es : List Event) (step : StepInfo) : Prop :=
  (Event.StepStart step ∈ es ∧ ∃ r, Event.StepEnd r step ∈ es) ∨ Event.StepSkipped step ∈ es

/-- A scenario is reported: started, ended, and each of its steps is reported. -/
def ScenarioReported (es : List Event) (scenario : ScenarioInfo) : Prop :=
  Event.ScenarioStart scenario ∈ es ∧ (∃ r, Event.ScenarioEnd r scenario ∈ es)
    ∧ ∀ step ∈ scenario.Children, StepReported es step

/-- A rule is reported: started, ended, and each of its scenarios is reported. -/
def RuleReported (es : List Event) (rule : RuleInfo) : Prop :=
  Event.RuleStart rule ∈ es ∧ (∃ r, Event.RuleEnd r rule ∈ es)
    ∧ ∀ scenario ∈ rule.Scenarios, ScenarioReported es scenario

/-- A feature is reported: started, ended, and each of its rules and scenarios is
reported. -/
def FeatureReported (es : List Event) (feature : FeatureInfo) : Prop :=
  Event.FeatureStart feature ∈ es ∧ (∃ r, Event.FeatureEnd r feature ∈ es)
    ∧ (∀ rule ∈ feature.Rules, RuleReported es rule)
    ∧ ∀ scenario ∈ feature.Scenarios, ScenarioReported es scenario

/-- An event list without the hook calls, registry queries and hook bodies. -/
def withoutHooks (es : List Event) : List Event :=
  es.filter (fun e => !e.isHookEvent)

/-- The `ScenarioEnd` reports of an event list, in order: outcome and scenario. -/
def scenarioEnds : List Event → List (Result × ScenarioInfo)
  | [] => []
  | Event.ScenarioEnd r scenario :: es => (r, scenario) :: scenarioEnds es
  | _ :: es => scenarioEnds es

/-- The error-to-outcome table of spec §4.4, in the spec's words: the "pending" marker gives
`pending`, no matching definition gives `undefined`, multiple matching definitions give
`ambiguous`, any other error gives `failed`. -/
def specOutcomeOfRaised : Raised → Result
  | Raised.PendingException => Result.pending
  | Raised.StepNotFoundException => Result.undefined
  | Raised.AmbiguousStepException => Result.ambiguous
  | _ => Result.failed

/-- What is reported for a step that is not attempted. -/
def skippedEvents (step : StepInfo) : List Event :=
  [Event.StartScope ScopeKind.step, Event.StepSkipped step, Event.EndScope ScopeKind.step]

namespace TestRunner

/-- The state in which `WrapExecuteStep` is entered for a step managed from `w`. -/
def stepEntered (w : World) : World :=
  w.StartScope ScopeKind.step

/-- The outcome `StepEnd` carries for a step attempted from `w` (line 237). -/
def stepOutcome (registry : HookRegistry) (runPolicy : RunPolicy) (scenario : ScenarioInfo)
    (step : StepInfo) (w : World) : Result :=
  (WrapExecuteStep registry runPolicy scenario step
    (stepEntered w)).world.contextManager.StepContext_ExecutionStatus

end TestRunner

end cucumber_cpp.engine

/-! ## Sample inputs -/

namespace cucumber_cpp.engine.Sample

/-- A registry without hooks. -/
def noHooks : HookRegistry := fun _ _ => []

/-- A step whose single matching definition runs to completion. -/
def step1 : StepInfo := { text := "step 1", StepMatch := StepMatchVariant.single { id := 1 } }

/-- A step whose single matching definition throws a `std::exception`. -/
def step2 : StepInfo :=
  { text := "step 2"
    StepMatch := StepMatchVariant.single
      { id := 2, body := { thrown := some Raised.stdException } } }

/-- Another step whose single matching definition runs to completion. -/
def step3 : StepInfo := { text := "step 3", StepMatch := StepMatchVariant.single { id := 3 } }

/-- A step without matching definition. -/
def stepUndefined : StepInfo := { text := "no definition", StepMatch := StepMatchVariant.monostate }

/-- A step with two matching definitions. -/
def stepAmbiguous : StepInfo :=
  { text := "two definitions", StepMatch := StepMatchVariant.multiple [{ id := 4 }, { id := 5 }] }

/-- The scenario of the example of §8: the second of three steps raises. -/
def scenarioA : ScenarioInfo := { title := "A", Children := [step1, step2, step3] }

/-- A scenario with one passing step. -/
def scenarioB : ScenarioInfo := { title := "B", Children := [step1] }

end cucumber_cpp.engine.Sample

namespace cucumber_cpp.engine.Sample

/-- A registry whose only hook is registered at the lifecycle point `hook` (for every tag
set) and throws a `std::exception`. -/
def throwingHooks (hook : HookType) : HookRegistry :=
  fun h _ => if h = hook then [{ id := 9, body := { thrown := some Raised.stdException } }] else []

/-- A feature whose only scenario has one passing step. -/
def featureB : FeatureInfo := { title := "F", Scenarios := [scenarioB] }

end cucumber_cpp.engine.Sample

namespace cucumber_cpp.engine.Sample

/-- A scenario whose only step has no matching definition. -/
def scenarioUndefined : ScenarioInfo := { title := "U", Children := [stepUndefined] }

/-- A rule holding `scenarioUndefined`. -/
def ruleU : RuleInfo := { title := "R", Scenarios := [scenarioUndefined] }

/-- A feature with the rule `ruleU` and no scenario of its own. -/
def featureRuleOnly : FeatureInfo := { title := "G", Rules := [ruleU] }

/-- A feature with the rule `ruleU` and one passing scenario of its own. -/
def featureRuleAndB : FeatureInfo := { title := "H", Rules := [ruleU], Scenarios := [scenarioB] }

end cucumber_cpp.engine.Sample

/-! ## More vocabulary -/

namespace cucumber_cpp.engine

/-- Whether an event is a call on `report::ReportHandlerV2`. -/
def Event.isReport : Event → Bool
  | Event.FeatureStart _ => true
  | Event.FeatureEnd _ _ => true
  | Event.RuleStart _ => true
  | Event.RuleEnd _ _ => true
  | Event.ScenarioStart _ => true
  | Event.ScenarioEnd _ _ => true
  | Event.StepStart _ => true
  | Event.StepEnd _ _ => true
  | Event.StepSkipped _ => true
  | Event.Failure _ _ _ => true
  | Event.Trace _ => true
  | Event.Summary => true
  | _ => false

/-- The calls on the report handler in an event list, in order. -/
def reportEvents (es : List Event) : List Event :=
  es.filter Event.isReport

/-- The features reported with `FeatureStart` in an event list, in order. -/
def featureStarts : List Event → List FeatureInfo
  | [] => []
  | Event.FeatureStart feature :: es => feature :: featureStarts es
  | _ :: es => featureStarts es

/-- Whether an event is the `Summary` report. -/
def Event.isSummary : Event → Bool
  | Event.Summary => true
  | _ => false

end cucumber_cpp.engine

namespace cucumber_cpp.engine

/-- Whether an event is a call on the run policy: `ExecuteHook` or `ExecuteStep`. -/
def Event.isPolicyCall : Event → Bool
  | Event.PolicyExecuteHook _ _ => true
  | Event.PolicyExecuteStep _ _ => true
  | _ => false

/-- The calls on the run policy in an event list, in order. -/
def policyCalls (es : List Event) : List Event :=
  es.filter Event.isPolicyCall

end cucumber_cpp.engine

namespace cucumber_cpp.engine

/-- Whether an event is a `Failure` report. -/
def Event.isFailure : Event → Bool
  | Event.Failure _ _ _ => true
  | _ => false

/-- Whether an event is a `Trace` report. -/
def Event.isTrace : Event → Bool
  | Event.Trace _ => true
  | _ => false

namespace TestRunner

/-- The state in which the two shims of `WrapExecuteStep` are destroyed (after line 222) for a
step attempted from `w`, but for the outcome that line 222 may set: the state the
dispatcher returns in. -/
def stepExecuted (registry : HookRegistry) (runPolicy : RunPolicy) (scenario : ScenarioInfo)
    (step : StepInfo) (w : World) : World :=
  (ExecuteStep registry runPolicy scenario step (startShims (stepEntered w))).world

/-- The test part results the collector of `WrapExecuteStep` holds when the dispatcher
returns, for a step attempted from `w`: the member `errors` of lines 85-95. -/
def collected (registry : HookRegistry) (runPolicy : RunPolicy) (scenario : ScenarioInfo)
    (step : StepInfo) (w : World) : List TestPartResult :=
  (stepExecuted registry runPolicy scenario step w).errors.getD []

end TestRunner

end cucumber_cpp.engine

namespace cucumber_cpp.engine

/-- Every registered hook runs to completion and reports no test part result. -/
def hooksSucceed (registry : HookRegistry) : Prop :=
  ∀ hook tags, ∀ m ∈ registry hook tags, m.body.thrown = none ∧ m.body.failures = []

namespace Sample

/-- A step whose single matching definition raises nothing and reports two failed
assertions. -/
def stepSoft : StepInfo :=
  { text := "soft"
    StepMatch := StepMatchVariant.single
      { id := 6
        body := { failures := [{ message := "first", file_name := "a.cpp", line_number := 3 },
                               { message := "second", file_name := "a.cpp", line_number := 7 }] } } }

/-- A scenario holding `stepSoft`. -/
def scenarioSoft : ScenarioInfo := { title := "S", Children := [stepSoft] }

end Sample

end cucumber_cpp.engine

namespace cucumber_cpp.engine

namespace TestRunner

/-- The text captured from the standard output when the capture shim is destroyed (line
109), for a step attempted from `w`. -/
def capturedOut (registry : HookRegistry) (runPolicy : RunPolicy) (scenario : ScenarioInfo)
    (step : StepInfo) (w : World) : String :=
  (stepExecuted registry runPolicy scenario step w).capturedStdout.getD ""

/-- The text captured from the standard error when the capture shim is destroyed (line 115),
for a step attempted from `w`. -/
def capturedErr (registry : HookRegistry) (runPolicy : RunPolicy) (scenario : ScenarioInfo)
    (step : StepInfo) (w : World) : String :=
  (stepExecuted registry runPolicy scenario step w).capturedStderr.getD ""

end TestRunner

namespace Sample

/-- A step whose single matching definition writes only blanks and a newline to the standard
output. -/
def stepBlank : StepInfo :=
  { text := "blank", StepMatch := StepMatchVariant.single { id := 8, body := { out := "  \n" } } }

/-- A scenario holding `stepBlank`. -/
def scenarioBlank : ScenarioInfo := { title := "W", Children := [stepBlank] }

end Sample

end cucumber_cpp.engine

namespace cucumber_cpp.engine

/-- Whether an event is one of the four kinds of report the example of §8 lists:
`ScenarioStart`, `StepEnd`, `StepSkipped`, `ScenarioEnd`. -/
def Event.isOutline : Event → Bool
  | Event.ScenarioStart _ => true
  | Event.StepEnd _ _ => true
  | Event.StepSkipped _ => true
  | Event.ScenarioEnd _ _ => true
  | _ => false

/-- The reports of kinds `ScenarioStart`, `StepEnd`, `StepSkipped` and `ScenarioEnd` in an
event list, in order. -/
def outline (es : List Event) : List Event :=
  es.filter Event.isOutline

namespace Sample

/-- The feature of the example of §8: scenario A, whose second of three steps raises, then
scenario B. -/
def featureAB : FeatureInfo := { title := "AB", Scenarios := [scenarioA, scenarioB] }

end Sample

end cucumber_cpp.engine

namespace cucumber_cpp.engine

/-- Whether, in a list of reports, every `ScenarioStart` of a scenario that has steps is
followed at once by the `StepStart` of the first of them. -/
def firstStepsAttempted : List Event → Bool
  | [] => true
  | Event.ScenarioStart scenario :: es =>
    (match scenario.Children with
      | [] => true
      | first :: _ => decide (es.head? = some (Event.StepStart first)))
    && firstStepsAttempted es
  | _ :: es => firstStepsAttempted es

/-- The scenario is reported as started and the step as attempted right after it: the reports
`ScenarioStart scenario`, `StepStart step` occur next to each other, in this order. -/
def AttemptedFirst (es : List Event) (scenario : ScenarioInfo) (step : StepInfo) : Prop :=
  ∃ pre post, reportEvents es
    = pre ++ Event.ScenarioStart scenario :: Event.StepStart step :: post

/-- The calls of the policy's `ExecuteHook` for the lifecycle points `beforeAll`,
`beforeFeature` and `before` all return `true`. -/
def beforeHooksSucceed (registry : HookRegistry) (runPolicy : RunPolicy) : Prop :=
  ∀ hook, hook = HookType.beforeAll ∨ hook = HookType.beforeFeature ∨ hook = HookType.before →
    ∀ tags w, (runPolicy.ExecuteHook registry hook tags w).value = true

end cucumber_cpp.engine

namespace cucumber_cpp.engine

/-- The reports of the event list `es` pass the check `firstStepsAttempted` whatever follows
them: it is a self-contained piece of a report list that passes the check. -/
def SettledStarts (es : List Event) : Prop :=
  ∀ ys, firstStepsAttempted (reportEvents es ++ ys) = firstStepsAttempted ys

end cucumber_cpp.engine

namespace cucumber_cpp.engine

/-- Whether every single-match of the step has a body that completes without raising, without
reporting a failed assertion and without writing to the two streams. -/
def StepInfo.benign (step : StepInfo) : Bool :=
  match step.StepMatch with
  | StepMatchVariant.single stepMatch =>
    decide (stepMatch.body.thrown = none ∧ stepMatch.body.failures = []
      ∧ stepMatch.body.out = "" ∧ stepMatch.body.err = "")
  | _ => true

/-- Whether every step of the scenario is benign. -/
def ScenarioInfo.benign (scenario : ScenarioInfo) : Bool :=
  scenario.Children.all StepInfo.benign

/-- Whether every scenario of the rule is benign. -/
def RuleInfo.benign (rule : RuleInfo) : Bool :=
  rule.Scenarios.all ScenarioInfo.benign

/-- Whether every rule and every scenario of the feature is benign. -/
def FeatureInfo.benign (feature : FeatureInfo) : Bool :=
  feature.Rules.all RuleInfo.benign && feature.Scenarios.all ScenarioInfo.benign

/-- Two outcomes of a piece of the engine that cannot be told apart by the value returned, the
state left behind and the calls made on the report handler. -/
def SameReports {α : Type} (a b : Ran α) : Prop :=
  a.value = b.value ∧ a.world = b.world ∧ reportEvents a.events = reportEvents b.events

end cucumber_cpp.engine

namespace cucumber_cpp.engine

/-- A node that has been reported started and not yet reported ended. -/
inductive OpenNode where
  | feature (feature : FeatureInfo)
  | rule (rule : RuleInfo)
  | scenario (scenario : ScenarioInfo)
  | step (step : StepInfo)
  deriving DecidableEq, Repr

/-- Whether the open node is a feature. -/
def OpenNode.isFeature : OpenNode → Bool
  | OpenNode.feature _ => true
  | _ => false

/-- Whether the open node can hold scenarios: a feature or a rule. -/
def OpenNode.isContainer : OpenNode → Bool
  | OpenNode.feature _ => true
  | OpenNode.rule _ => true
  | _ => false

/-- Whether the open node is a scenario. -/
def OpenNode.isScenario : OpenNode → Bool
  | OpenNode.scenario _ => true
  | _ => false

/-- Whether the open node is a step. -/
def OpenNode.isStep : OpenNode → Bool
  | OpenNode.step _ => true
  | _ => false

/-- What a reader of the event list knows at some point of it: the nodes reported started and
not yet ended, and the scopes entered and not yet left, innermost first in both. -/
structure Nesting where
  nodes : List OpenNode := []
  scopes : List ScopeKind := []
  deriving DecidableEq, Repr

/-- Whether the innermost open node satisfies `p`; `false` when no node is open. -/
def Nesting.inside (n : Nesting) (p : OpenNode → Bool) : Bool :=
  match n.nodes with
  | [] => false
  | top :: _ => p top

/-- The nesting with one more open node. -/
def Nesting.enter (n : Nesting) (node : OpenNode) : Nesting :=
  { n with nodes := node :: n.nodes }

/-- The nesting without its innermost open node. -/
def Nesting.leave (n : Nesting) : Nesting :=
  { n with nodes := n.nodes.tail }

/-- Reading one event of a properly nested list: `none` when the event is out of place.
A feature starts only when nothing is open, a rule only right inside a feature, a scenario
only right inside a feature or a rule, a step only right inside a scenario; an end report
closes the innermost open node and must name that same node; a step is reported skipped
only right inside a scenario; `Failure` and `Trace` occur only right inside a step, hence
inside a scenario; `Summary` has no place in the list; a scope that is left is the
innermost one entered; the calls on the policies, the registry, the bodies and the shims
are not constrained. -/
def Nesting.step (n : Nesting) : Event → Option Nesting
  | Event.FeatureStart feature =>
    if n.nodes = [] then some (n.enter (OpenNode.feature feature)) else none
  | Event.FeatureEnd _ feature =>
    if n.nodes.head? = some (OpenNode.feature feature) then some n.leave else none
  | Event.RuleStart rule =>
    if n.inside OpenNode.isFeature then some (n.enter (OpenNode.rule rule)) else none
  | Event.RuleEnd _ rule =>
    if n.nodes.head? = some (OpenNode.rule rule) then some n.leave else none
  | Event.ScenarioStart scenario =>
    if n.inside OpenNode.isContainer then some (n.enter (OpenNode.scenario scenario)) else none
  | Event.ScenarioEnd _ scenario =>
    if n.nodes.head? = some (OpenNode.scenario scenario) then some n.leave else none
  | Event.StepStart step =>
    if n.inside OpenNode.isScenario then some (n.enter (OpenNode.step step)) else none
  | Event.StepEnd _ step =>
    if n.nodes.head? = some (OpenNode.step step) then some n.leave else none
  | Event.StepSkipped _ => if n.inside OpenNode.isScenario then some n else none
  | Event.Failure _ _ _ => if n.inside OpenNode.isStep then some n else none
  | Event.Trace _ => if n.inside OpenNode.isStep then some n else none
  | Event.Summary => none
  | Event.StartScope kind => some { n with scopes := kind :: n.scopes }
  | Event.EndScope kind =>
    if n.scopes.head? = some kind then some { n with scopes := n.scopes.tail } else none
  | _ => some n

/-- Reading an event list from the nesting `n`: the nesting at its end, `none` when some event
is out of place. -/
def Nesting.run : Nesting → List Event → Option Nesting
  | n, [] => some n
  | n, e :: es => (n.step e).bind (fun n' => n'.run es)

/-- Whether an event is the entry or the exit of a scope. -/
def Event.isScope : Event → Bool
  | Event.StartScope _ => true
  | Event.EndScope _ => true
  | _ => false

end cucumber_cpp.engine

/-! ## Facts about the context stack -/

namespace cucumber_cpp.engine

theorem currentStatusIn_setCurrentIn (r program : Result) (fs : List Frame) :
    currentStatusIn (setCurrentIn r program fs).1 (setCurrentIn r program fs).2 = r := by
  induction fs with
  | nil => simp [setCurrentIn, currentStatusIn]
  | cons f fs ih =>
    by_cases h : f.kind = ScopeKind.step
    · simp [setCurrentIn, currentStatusIn, h, ih]
    · simp [setCurrentIn, currentStatusIn, h]

theorem setCurrentIn_setCurrentIn (r r' program : Result) (fs : List Frame) :
    setCurrentIn r (setCurrentIn r' program fs).1 (setCurrentIn r' program fs).2
      = setCurrentIn r program fs := by
  induction fs with
  | nil => simp [setCurrentIn]
  | cons f fs ih =>
    by_cases h : f.kind = ScopeKind.step
    · simp [setCurrentIn, h, ih]
    · simp [setCurrentIn, h]

namespace ContextManager

theorem StartScope_step (cm : ContextManager) :
    cm.StartScope ScopeKind.step = cm.withStep Result.passed := rfl

@[simp] theorem EndScope_StartScope (kind : ScopeKind) (cm : ContextManager) :
    (cm.StartScope kind).EndScope = cm := by
  cases cm; rfl

@[simp] theorem EndScope_withStep (s : Result) (cm : ContextManager) :
    (cm.withStep s).EndScope = cm := by
  cases cm; rfl

@[simp] theorem Current_withStep (s : Result) (cm : ContextManager) :
    (cm.withStep s).CurrentContext_ExecutionStatus = cm.CurrentContext_ExecutionStatus := by
  simp [withStep, CurrentContext_ExecutionStatus, currentStatusIn]

@[simp] theorem Step_withStep (s : Result) (cm : ContextManager) :
    (cm.withStep s).StepContext_ExecutionStatus = s := by
  simp [withStep, StepContext_ExecutionStatus, stepStatusIn]

theorem SetStep_withStep (r s : Result) (cm : ContextManager) :
    (cm.withStep s).StepContext_SetExecutionStatus r
      = (if r = Result.passed then cm
          else cm.CurrentContext_SetExecutionStatus Result.failed).withStep r := by
  by_cases h : r = Result.passed
  · simp [withStep, StepContext_SetExecutionStatus, setStepIn, h]
  · simp [withStep, StepContext_SetExecutionStatus, CurrentContext_SetExecutionStatus,
      setStepIn, h]

@[simp] theorem Current_Set (r : Result) (cm : ContextManager) :
    (cm.CurrentContext_SetExecutionStatus r).CurrentContext_ExecutionStatus = r := by
  simp [CurrentContext_SetExecutionStatus, CurrentContext_ExecutionStatus,
    currentStatusIn_setCurrentIn]

@[simp] theorem Set_Set (r r' : Result) (cm : ContextManager) :
    (cm.CurrentContext_SetExecutionStatus r').CurrentContext_SetExecutionStatus r
      = cm.CurrentContext_SetExecutionStatus r := by
  simp [CurrentContext_SetExecutionStatus, setCurrentIn_setCurrentIn]

/-- A freshly entered feature, rule or scenario scope is `passed`. -/
theorem Current_StartScope (kind : ScopeKind) (h : kind ≠ ScopeKind.step) (cm : ContextManager) :
    (cm.StartScope kind).CurrentContext_ExecutionStatus = Result.passed := by
  simp [StartScope, CurrentContext_ExecutionStatus, currentStatusIn, h]

/-- Assigning the current record of a freshly entered feature, rule or scenario scope
touches nothing below it. -/
theorem EndScope_Set_StartScope (kind : ScopeKind) (h : kind ≠ ScopeKind.step) (r : Result)
    (cm : ContextManager) :
    ((cm.StartScope kind).CurrentContext_SetExecutionStatus r).EndScope = cm := by
  cases cm
  simp [StartScope, CurrentContext_SetExecutionStatus, EndScope, setCurrentIn, h]

end ContextManager

end cucumber_cpp.engine

/-! ## The policies leave the context stack alone -/

namespace cucumber_cpp.engine

@[simp] theorem World_StartScope_contextManager (kind : ScopeKind) (w : World) :
    (w.StartScope kind).contextManager = w.contextManager.StartScope kind := rfl

@[simp] theorem World_EndScope_contextManager (w : World) :
    w.EndScope.contextManager = w.contextManager.EndScope := rfl

@[simp] theorem World_EndScope_StartScope (kind : ScopeKind) (w : World) :
    (w.StartScope kind).EndScope = w := by
  cases w
  simp [World.StartScope, World.EndScope]

@[simp] theorem World_perform_contextManager (b : Body) (w : World) :
    (w.perform b).contextManager = w.contextManager := rfl

theorem RunTestPolicy_ExecuteHook_loop_contextManager (ms : List HookMatch) (w : World) :
    (RunTestPolicy.ExecuteHook.loop ms w).world.contextManager = w.contextManager := by
  induction ms generalizing w with
  | nil => rfl
  | cons m ms ih =>
    unfold RunTestPolicy.ExecuteHook.loop
    split
    · rfl
    · simp [ih]

@[simp] theorem RunPolicy_ExecuteHook_contextManager (registry : HookRegistry)
    (runPolicy : RunPolicy) (hook : HookType) (tags : Tags) (w : World) :
    (runPolicy.ExecuteHook registry hook tags w).world.contextManager = w.contextManager := by
  cases runPolicy
  · simp [RunPolicy.ExecuteHook, RunTestPolicy.ExecuteHook,
      RunTestPolicy_ExecuteHook_loop_contextManager]
  · simp [RunPolicy.ExecuteHook, DryRunPolicy.ExecuteHook]

@[simp] theorem RunPolicy_ExecuteStep_contextManager (runPolicy : RunPolicy)
    (stepInfo : StepInfo) (stepMatch : StepMatch) (w : World) :
    (runPolicy.ExecuteStep stepInfo stepMatch w).world.contextManager = w.contextManager := by
  cases runPolicy <;> simp [RunPolicy.ExecuteStep, RunTestPolicy.ExecuteStep,
    DryRunPolicy.ExecuteStep]

namespace TestRunner

@[simp] theorem StepResult_contextManager (r : Result) (w : World) :
    (StepResult r w).contextManager = w.contextManager.StepContext_SetExecutionStatus r := rfl

@[simp] theorem ExecuteStep_visit_contextManager (registry : HookRegistry)
    (runPolicy : RunPolicy) (scenario : ScenarioInfo) (stepInfo : StepInfo) (w : World) :
    (ExecuteStep_visit registry runPolicy scenario stepInfo w).world.contextManager
      = w.contextManager := by
  unfold ExecuteStep_visit
  split
  · rfl
  · simp only [ExecuteStep_StepMatch]
    split <;> simp
  · rfl

/-- The outcome each catch clause of lines 191-210 records. -/
theorem ExecuteStep_contextManager (registry : HookRegistry) (runPolicy : RunPolicy)
    (scenario : ScenarioInfo) (stepInfo : StepInfo) (w : World) :
    (ExecuteStep registry runPolicy scenario stepInfo w).world.contextManager
      = match (ExecuteStep_visit registry runPolicy scenario stepInfo w).value with
        | none => w.contextManager
        | some Raised.PendingException =>
          w.contextManager.StepContext_SetExecutionStatus Result.pending
        | some Raised.StepNotFoundException =>
          w.contextManager.StepContext_SetExecutionStatus Result.undefined
        | some Raised.AmbiguousStepException =>
          w.contextManager.StepContext_SetExecutionStatus Result.ambiguous
        | some Raised.stdException =>
          w.contextManager.StepContext_SetExecutionStatus Result.failed
        | some Raised.other =>
          w.contextManager.StepContext_SetExecutionStatus Result.failed := by
  unfold ExecuteStep
  generalize hv : ExecuteStep_visit registry runPolicy scenario stepInfo w = tried
  have hcm : tried.world.contextManager = w.contextManager := by
    rw [← hv]; simp
  rcases tried with ⟨value, world, events⟩
  rcases value with _ | c
  · simpa using hcm
  · cases c <;> simp_all

theorem settled_contextManager (registry : HookRegistry) (runPolicy : RunPolicy)
    (scenario : ScenarioInfo) (step : StepInfo) (started : World) (cm : ContextManager)
    (hcm0 : started.contextManager = cm.withStep Result.passed) :
    ∃ r, (if HasFailures (ExecuteStep registry runPolicy scenario step started).world
          then StepResult Result.failed (ExecuteStep registry runPolicy scenario step started).world
          else (ExecuteStep registry runPolicy scenario step started).world).contextManager
      = (if r = Result.passed then cm
          else cm.CurrentContext_SetExecutionStatus Result.failed).withStep r := by
  have hex := ExecuteStep_contextManager registry runPolicy scenario step started
  generalize ExecuteStep registry runPolicy scenario step started = executed at hex ⊢
  generalize (ExecuteStep_visit registry runPolicy scenario step started).value = v at hex
  rw [hcm0] at hex
  by_cases hf : HasFailures executed.world = true
  · refine ⟨Result.failed, ?_⟩
    rcases v with _ | c
    · simp [hf, hex, ContextManager.SetStep_withStep]
    · cases c <;> simp [hf, hex, ContextManager.SetStep_withStep]
  · rcases v with _ | c
    · exact ⟨Result.passed, by simp [hf, hex]⟩
    · cases c
      · exact ⟨Result.pending, by simp [hf, hex, ContextManager.SetStep_withStep]⟩
      · exact ⟨Result.undefined, by simp [hf, hex, ContextManager.SetStep_withStep]⟩
      · exact ⟨Result.ambiguous, by simp [hf, hex, ContextManager.SetStep_withStep]⟩
      · exact ⟨Result.failed, by simp [hf, hex, ContextManager.SetStep_withStep]⟩
      · exact ⟨Result.failed, by simp [hf, hex, ContextManager.SetStep_withStep]⟩

/-- The context stack after the wrapped step: the step record carries the outcome, and the
stack below it is untouched when that outcome is `passed`, has its current record set to
`failed` otherwise. -/
theorem WrapExecuteStep_contextManager (registry : HookRegistry) (runPolicy : RunPolicy)
    (scenario : ScenarioInfo) (step : StepInfo) (w : World) (cm : ContextManager)
    (h : w.contextManager = cm.withStep Result.passed) :
    ∃ r, (WrapExecuteStep registry runPolicy scenario step w).world.contextManager
      = (if r = Result.passed then cm
          else cm.CurrentContext_SetExecutionStatus Result.failed).withStep r := by
  obtain ⟨r, hr⟩ := settled_contextManager registry runPolicy scenario step
    (startShims w) cm h
  exact ⟨r, by simpa [WrapExecuteStep] using hr⟩

end TestRunner

end cucumber_cpp.engine

/-! ## One step, a list of steps -/

namespace cucumber_cpp.engine.TestRunner

/-- Line 229-230: with a non-`passed` current record the step is reported skipped and
nothing else happens. -/
theorem ManageExecuteStep_skipped (registry : HookRegistry) (runPolicy : RunPolicy)
    (scenario : ScenarioInfo) (step : StepInfo) (w : World)
    (h : w.contextManager.CurrentContext_ExecutionStatus ≠ Result.passed) :
    ManageExecuteStep registry runPolicy scenario step w
      = { value := (), world := w, events := skippedEvents step } := by
  have h' : (w.contextManager.StartScope ScopeKind.step).CurrentContext_ExecutionStatus
      ≠ Result.passed := by
    rw [ContextManager.StartScope_step]; simpa using h
  simp [ManageExecuteStep, h', skippedEvents]

/-- Lines 233-237: with a `passed` current record the step is attempted. -/
theorem ManageExecuteStep_attempted (registry : HookRegistry) (runPolicy : RunPolicy)
    (scenario : ScenarioInfo) (step : StepInfo) (w : World)
    (h : w.contextManager.CurrentContext_ExecutionStatus = Result.passed) :
    (ManageExecuteStep registry runPolicy scenario step w).events
        = [Event.StartScope ScopeKind.step, Event.StepStart step]
          ++ (WrapExecuteStep registry runPolicy scenario step (stepEntered w)).events
          ++ [Event.StepEnd (stepOutcome registry runPolicy scenario step w) step,
              Event.EndScope ScopeKind.step]
      ∧ (ManageExecuteStep registry runPolicy scenario step w).world
        = { contextManager :=
              if stepOutcome registry runPolicy scenario step w = Result.passed
              then w.contextManager
              else w.contextManager.CurrentContext_SetExecutionStatus Result.failed
            errors := none, capturedStdout := none, capturedStderr := none } := by
  have h' : (w.contextManager.StartScope ScopeKind.step).CurrentContext_ExecutionStatus
      = Result.passed := by
    rw [ContextManager.StartScope_step]; simpa using h
  obtain ⟨r, hr⟩ := WrapExecuteStep_contextManager registry runPolicy scenario step
    (stepEntered w) w.contextManager (by simp [stepEntered, ContextManager.StartScope_step])
  have hout : stepOutcome registry runPolicy scenario step w = r := by
    simp [stepOutcome, hr]
  constructor
  · simp [ManageExecuteStep, h', stepOutcome, stepEntered]
  · simp only [ManageExecuteStep, World_StartScope_contextManager, h', hout]
    simp only [ne_eq, not_true_eq_false, if_false]
    have hw : (WrapExecuteStep registry runPolicy scenario step (stepEntered w)).world
        = { contextManager := (WrapExecuteStep registry runPolicy scenario step
              (stepEntered w)).world.contextManager
            errors := none, capturedStdout := none, capturedStderr := none } := by
      simp [WrapExecuteStep]
    simp only [stepEntered] at hw hr
    rw [hw, hr]
    simp [World.EndScope]

end cucumber_cpp.engine.TestRunner

/-! ## Which events each part can cause -/

namespace cucumber_cpp.engine

theorem RunTestPolicy_ExecuteHook_loop_events (ms : List HookMatch) (w : World) :
    ∀ e ∈ (RunTestPolicy.ExecuteHook.loop ms w).events, ∃ m, e = Event.HookBody m := by
  induction ms generalizing w with
  | nil => simp [RunTestPolicy.ExecuteHook.loop]
  | cons m ms ih =>
    unfold RunTestPolicy.ExecuteHook.loop
    split
    · simp
    · intro e he
      simp only [List.mem_cons] at he
      rcases he with rfl | he
      · exact ⟨m, rfl⟩
      · exact ih _ e he

theorem RunPolicy_ExecuteHook_events (registry : HookRegistry) (runPolicy : RunPolicy)
    (hook : HookType) (tags : Tags) (w : World) :
    ∀ e ∈ (runPolicy.ExecuteHook registry hook tags w).events, e.fromHook hook = true := by
  intro e he
  cases runPolicy
  · simp only [RunPolicy.ExecuteHook, RunTestPolicy.ExecuteHook, List.mem_cons] at he
    rcases he with rfl | rfl | he
    · simp [Event.fromHook]
    · simp [Event.fromHook]
    · obtain ⟨m, rfl⟩ := RunTestPolicy_ExecuteHook_loop_events _ _ e he
      rfl
  · simp only [RunPolicy.ExecuteHook, DryRunPolicy.ExecuteHook, List.mem_cons,
      List.mem_nil_iff, or_false] at he
    subst he
    simp [Event.fromHook]

theorem Event_wrapLevel_of_fromHook_beforeStep {e : Event}
    (h : e.fromHook HookType.beforeStep = true) : e.wrapLevel = true := by
  cases e <;> simp_all [Event.fromHook, Event.wrapLevel]

theorem Event_wrapLevel_of_fromHook_afterStep {e : Event}
    (h : e.fromHook HookType.afterStep = true) : e.wrapLevel = true := by
  cases e <;> simp_all [Event.fromHook, Event.wrapLevel]

theorem RunPolicy_ExecuteStep_events (runPolicy : RunPolicy) (stepInfo : StepInfo)
    (stepMatch : StepMatch) (w : World) :
    ∀ e ∈ (runPolicy.ExecuteStep stepInfo stepMatch w).events, e.wrapLevel = true := by
  intro e he
  cases runPolicy <;>
    simp [RunPolicy.ExecuteStep, RunTestPolicy.ExecuteStep, DryRunPolicy.ExecuteStep] at he <;>
    rcases he with rfl | rfl <;> rfl

theorem traceCaptured_wrapLevel (captured : Option String) :
    ∀ e ∈ TestRunner.traceCaptured captured, e.wrapLevel = true := by
  intro e he
  unfold TestRunner.traceCaptured at he
  split at he
  · simp at he
  · split at he
    · simp at he
    · simp at he; subst he; rfl

theorem reportFailures_wrapLevel (errors : Option (List TestPartResult)) :
    ∀ e ∈ TestRunner.reportFailures errors, e.wrapLevel = true := by
  intro e he
  unfold TestRunner.reportFailures at he
  split at he
  · simp at he
  · simp at he
    obtain ⟨a, _, rfl⟩ := he
    rfl

namespace TestRunner

theorem ExecuteStep_visit_wrapLevel (registry : HookRegistry) (runPolicy : RunPolicy)
    (scenario : ScenarioInfo) (stepInfo : StepInfo) (w : World) :
    ∀ e ∈ (ExecuteStep_visit registry runPolicy scenario stepInfo w).events,
      e.wrapLevel = true := by
  intro e he
  unfold ExecuteStep_visit at he
  split at he
  · simp [ExecuteStep_monostate] at he
  · simp only [ExecuteStep_StepMatch, List.mem_append] at he
    rcases he with (he | he) | he
    · exact Event_wrapLevel_of_fromHook_beforeStep (RunPolicy_ExecuteHook_events _ _ _ _ _ e he)
    · split at he
      · exact RunPolicy_ExecuteStep_events _ _ _ _ e he
      · simp at he
    · exact Event_wrapLevel_of_fromHook_afterStep (RunPolicy_ExecuteHook_events _ _ _ _ _ e he)
  · simp [ExecuteStep_vector] at he

theorem ExecuteStep_events (registry : HookRegistry) (runPolicy : RunPolicy)
    (scenario : ScenarioInfo) (stepInfo : StepInfo) (w : World) :
    (ExecuteStep registry runPolicy scenario stepInfo w).events
      = (ExecuteStep_visit registry runPolicy scenario stepInfo w).events := by
  simp only [ExecuteStep]
  split <;> rfl

theorem Event_stepLevel_of_wrapLevel {e : Event} (h : e.wrapLevel = true) :
    e.stepLevel = true := by
  cases e <;> simp_all [Event.wrapLevel, Event.stepLevel]

theorem WrapExecuteStep_wrapLevel (registry : HookRegistry) (runPolicy : RunPolicy)
    (scenario : ScenarioInfo) (step : StepInfo) (w : World) :
    ∀ e ∈ (WrapExecuteStep registry runPolicy scenario step w).events, e.wrapLevel = true := by
  intro e he
  simp only [WrapExecuteStep, List.mem_append, List.mem_cons, List.mem_singleton,
    List.mem_nil_iff, or_false, ExecuteStep_events] at he
  rcases he with ((((((rfl | rfl) | he) | rfl) | he) | he) | rfl) | he
  · rfl
  · rfl
  · exact ExecuteStep_visit_wrapLevel _ _ _ _ _ e he
  · rfl
  · exact traceCaptured_wrapLevel _ e he
  · exact traceCaptured_wrapLevel _ e he
  · rfl
  · exact reportFailures_wrapLevel _ e he

theorem ManageExecuteStep_stepLevel (registry : HookRegistry) (runPolicy : RunPolicy)
    (scenario : ScenarioInfo) (step : StepInfo) (w : World) :
    ∀ e ∈ (ManageExecuteStep registry runPolicy scenario step w).events,
      e.stepLevel = true := by
  intro e he
  by_cases h : w.contextManager.CurrentContext_ExecutionStatus = Result.passed
  · rw [(ManageExecuteStep_attempted registry runPolicy scenario step w h).1] at he
    simp only [List.mem_append, List.mem_cons, List.mem_singleton, List.mem_nil_iff,
      or_false] at he
    rcases he with ((rfl | rfl) | he) | rfl | rfl
    · rfl
    · rfl
    · exact Event_stepLevel_of_wrapLevel (WrapExecuteStep_wrapLevel _ _ _ _ _ e he)
    · rfl
    · rfl
  · rw [ManageExecuteStep_skipped registry runPolicy scenario step w h] at he
    simp only [skippedEvents, List.mem_cons, List.mem_singleton, List.mem_nil_iff,
      or_false] at he
    rcases he with rfl | rfl | rfl <;> rfl

theorem ExecuteSteps_loop_stepLevel (registry : HookRegistry) (runPolicy : RunPolicy)
    (scenario : ScenarioInfo) (steps : List StepInfo) (w : World) :
    ∀ e ∈ (ExecuteSteps.loop registry runPolicy scenario steps w).events,
      e.stepLevel = true := by
  induction steps generalizing w with
  | nil => simp [ExecuteSteps.loop]
  | cons step rest ih =>
    intro e he
    simp only [ExecuteSteps.loop, List.mem_append] at he
    rcases he with he | he
    · exact ManageExecuteStep_stepLevel _ _ _ _ _ e he
    · exact ih _ e he

/-- A list of steps leaves the context stack as it found it, or with the current record
set to `failed`. -/
theorem ExecuteSteps_loop_contextManager (registry : HookRegistry) (runPolicy : RunPolicy)
    (scenario : ScenarioInfo) (steps : List StepInfo) (w : World) :
    (ExecuteSteps.loop registry runPolicy scenario steps w).world.contextManager
        = w.contextManager
      ∨ (ExecuteSteps.loop registry runPolicy scenario steps w).world.contextManager
        = w.contextManager.CurrentContext_SetExecutionStatus Result.failed := by
  induction steps generalizing w with
  | nil => left; rfl
  | cons step rest ih =>
    simp only [ExecuteSteps.loop]
    have hfirst : (ManageExecuteStep registry runPolicy scenario step w).world.contextManager
          = w.contextManager
        ∨ (ManageExecuteStep registry runPolicy scenario step w).world.contextManager
          = w.contextManager.CurrentContext_SetExecutionStatus Result.failed := by
      by_cases h : w.contextManager.CurrentContext_ExecutionStatus = Result.passed
      · rw [(ManageExecuteStep_attempted registry runPolicy scenario step w h).2]
        by_cases hr : stepOutcome registry runPolicy scenario step w = Result.passed
        · left; simp [hr]
        · right; simp [hr]
      · rw [ManageExecuteStep_skipped registry runPolicy scenario step w h]
        left; rfl
    rcases ih (ManageExecuteStep registry runPolicy scenario step w).world with h2 | h2 <;>
      rcases hfirst with h1 | h1 <;> rw [h2, h1] <;> simp

/-- Once the current record is not `passed`, every step of a list is reported skipped and
the state is left as it was. -/
theorem ExecuteSteps_loop_skipped (registry : HookRegistry) (runPolicy : RunPolicy)
    (scenario : ScenarioInfo) (steps : List StepInfo) (w : World)
    (h : w.contextManager.CurrentContext_ExecutionStatus ≠ Result.passed) :
    ExecuteSteps.loop registry runPolicy scenario steps w
      = { value := (), world := w, events := steps.flatMap skippedEvents } := by
  induction steps with
  | nil => rfl
  | cons step rest ih =>
    simp only [ExecuteSteps.loop, ManageExecuteStep_skipped registry runPolicy scenario step w h,
      ih, List.flatMap_cons]

theorem ExecuteSteps_loop_append (registry : HookRegistry) (runPolicy : RunPolicy)
    (scenario : ScenarioInfo) (xs ys : List StepInfo) (w : World) :
    (ExecuteSteps.loop registry runPolicy scenario (xs ++ ys) w).events
        = (ExecuteSteps.loop registry runPolicy scenario xs w).events
          ++ (ExecuteSteps.loop registry runPolicy scenario ys
              (ExecuteSteps.loop registry runPolicy scenario xs w).world).events
      ∧ (ExecuteSteps.loop registry runPolicy scenario (xs ++ ys) w).world
        = (ExecuteSteps.loop registry runPolicy scenario ys
            (ExecuteSteps.loop registry runPolicy scenario xs w).world).world := by
  induction xs generalizing w with
  | nil => simp [ExecuteSteps.loop]
  | cons x xs ih =>
    have h := ih (ManageExecuteStep registry runPolicy scenario x w).world
    constructor
    · show (ManageExecuteStep registry runPolicy scenario x w).events
          ++ (ExecuteSteps.loop registry runPolicy scenario (xs ++ ys) _).events = _
      rw [h.1]
      simp [ExecuteSteps.loop]
    · exact h.2

end TestRunner

/-! ## `scenarioEnds` -/

theorem scenarioEnds_append (xs ys : List Event) :
    scenarioEnds (xs ++ ys) = scenarioEnds xs ++ scenarioEnds ys := by
  induction xs with
  | nil => rfl
  | cons e es ih => cases e <;> simp [scenarioEnds, ih]

theorem scenarioEnds_eq_nil (es : List Event)
    (h : ∀ e ∈ es, ∀ r scenario, e ≠ Event.ScenarioEnd r scenario) : scenarioEnds es = [] := by
  induction es with
  | nil => rfl
  | cons e es ih =>
    have he := h e (List.mem_cons_self _ _)
    have ih' := ih (fun e' he' => h e' (List.mem_cons_of_mem _ he'))
    cases e <;> simp_all [scenarioEnds]

theorem scenarioEnds_of_stepLevel (es : List Event) (h : ∀ e ∈ es, e.stepLevel = true) :
    scenarioEnds es = [] := by
  apply scenarioEnds_eq_nil
  intro e he r scenario heq
  have := h e he
  subst heq
  simp [Event.stepLevel] at this

theorem scenarioEnds_of_fromHook (hook : HookType) (es : List Event)
    (h : ∀ e ∈ es, e.fromHook hook = true) : scenarioEnds es = [] := by
  apply scenarioEnds_eq_nil
  intro e he r scenario heq
  have := h e he
  subst heq
  simp [Event.fromHook] at this

theorem mem_scenarioEnds (es : List Event) (r : Result) (scenario : ScenarioInfo) :
    (r, scenario) ∈ scenarioEnds es ↔ Event.ScenarioEnd r scenario ∈ es := by
  induction es with
  | nil => simp [scenarioEnds]
  | cons e es ih => cases e <;> simp [scenarioEnds, ih]

end cucumber_cpp.engine

/-! ## Scenarios -/

namespace cucumber_cpp.engine.TestRunner

theorem ExecuteSteps_stepLevel (registry : HookRegistry) (runPolicy : RunPolicy)
    (scenario : ScenarioInfo) (w : World) :
    ∀ e ∈ (ExecuteSteps registry runPolicy scenario w).events, e.stepLevel = true :=
  ExecuteSteps_loop_stepLevel registry runPolicy scenario scenario.Children w

/-- The scenario scope is popped with everything below it as it was. -/
theorem RunScenarios_body_contextManager (registry : HookRegistry) (runPolicy : RunPolicy)
    (scenario : ScenarioInfo) (w : World) :
    (RunScenarios.body registry runPolicy scenario w).world.contextManager
      = w.contextManager := by
  simp only [RunScenarios.body, RunPolicy_ExecuteHook_contextManager]
  simp only [World_EndScope_contextManager, RunPolicy_ExecuteHook_contextManager]
  split
  · rcases ExecuteSteps_loop_contextManager registry runPolicy scenario scenario.Children
      (runPolicy.ExecuteHook registry HookType.before scenario.Tags
        (w.StartScope ScopeKind.scenario)).world
      with h | h
    · simp only [ExecuteSteps, h, RunPolicy_ExecuteHook_contextManager]
      simp
    · simp only [ExecuteSteps, h, RunPolicy_ExecuteHook_contextManager]
      exact ContextManager.EndScope_Set_StartScope _ (by decide) _ _
  · simp

theorem RunScenarios_loop_contextManager (registry : HookRegistry) (runPolicy : RunPolicy)
    (scenarios : List ScenarioInfo) (acc : Bool) (w : World) :
    (RunScenarios.loop registry runPolicy scenarios acc w).world.contextManager
      = w.contextManager := by
  induction scenarios generalizing acc w with
  | nil => rfl
  | cons scenario rest ih =>
    simp only [RunScenarios.loop, ih, RunScenarios_body_contextManager]

end cucumber_cpp.engine.TestRunner

/-! ## What a reported step outcome says about the state left behind -/

namespace cucumber_cpp.engine.TestRunner

/-- A step reported with `StepEnd` carrying a non-`passed` outcome, or reported skipped,
leaves the current record non-`passed`. -/
theorem ManageExecuteStep_current_of_report (registry : HookRegistry) (runPolicy : RunPolicy)
    (scenario : ScenarioInfo) (step : StepInfo) (w : World)
    (h : (∃ r, r ≠ Result.passed ∧ Event.StepEnd r step
            ∈ (ManageExecuteStep registry runPolicy scenario step w).events)
          ∨ Event.StepSkipped step
            ∈ (ManageExecuteStep registry runPolicy scenario step w).events) :
    (ManageExecuteStep registry runPolicy scenario step
      w).world.contextManager.CurrentContext_ExecutionStatus ≠ Result.passed := by
  by_cases hc : w.contextManager.CurrentContext_ExecutionStatus = Result.passed
  · obtain ⟨hev, hw⟩ := ManageExecuteStep_attempted registry runPolicy scenario step w hc
    have hwrap := WrapExecuteStep_wrapLevel registry runPolicy scenario step (stepEntered w)
    rw [hev] at h
    rw [hw]
    rcases h with ⟨r, hr, hmem⟩ | hmem
    · simp only [List.mem_append, List.mem_cons, List.mem_singleton, List.mem_nil_iff,
        or_false, reduceCtorEq, false_or, Event.StepEnd.injEq, and_true] at hmem
      rcases hmem with hmem | hmem
      · have := hwrap _ hmem
        simp [Event.wrapLevel] at this
      · subst hmem
        simp [hr]
    · simp only [List.mem_append, List.mem_cons, List.mem_singleton, List.mem_nil_iff,
        or_false, reduceCtorEq, false_or] at hmem
      have := hwrap _ hmem
      simp [Event.wrapLevel] at this
  · rw [ManageExecuteStep_skipped registry runPolicy scenario step w hc]
    exact hc

end cucumber_cpp.engine.TestRunner

/-! ## Steps without a single match -/

namespace cucumber_cpp.engine.TestRunner

/-- What an attempted step causes when the dispatched overload throws at once (lines
158-166) and the catch clause records `r`. -/
theorem ExecuteSteps_loop_of_thrown (registry : HookRegistry) (runPolicy : RunPolicy)
    (scenario : ScenarioInfo) (step : StepInfo) (later : List StepInfo) (w : World)
    (r : Result) (hr : r ≠ Result.passed)
    (hcur : w.contextManager.CurrentContext_ExecutionStatus = Result.passed)
    (hwrap : (WrapExecuteStep registry runPolicy scenario step (stepEntered w)).events
      = [Event.CollectorStart, Event.CaptureStart, Event.CaptureStop, Event.CollectorStop])
    (hout : stepOutcome registry runPolicy scenario step w = r) :
    (ExecuteSteps.loop registry runPolicy scenario (step :: later) w).events
      = [Event.StartScope ScopeKind.step, Event.StepStart step, Event.CollectorStart,
          Event.CaptureStart, Event.CaptureStop, Event.CollectorStop,
          Event.StepEnd r step, Event.EndScope ScopeKind.step]
        ++ later.flatMap skippedEvents := by
  obtain ⟨hev, hw⟩ := ManageExecuteStep_attempted registry runPolicy scenario step w hcur
  have hcur' : (ManageExecuteStep registry runPolicy scenario step
      w).world.contextManager.CurrentContext_ExecutionStatus ≠ Result.passed := by
    rw [hw, hout]; simp [hr]
  simp only [ExecuteSteps.loop, hev, hwrap, hout,
    ExecuteSteps_loop_skipped registry runPolicy scenario later _ hcur']
  simp

theorem WrapExecuteStep_monostate (registry : HookRegistry) (runPolicy : RunPolicy)
    (scenario : ScenarioInfo) (step : StepInfo) (w : World)
    (hm : step.StepMatch = StepMatchVariant.monostate) :
    (WrapExecuteStep registry runPolicy scenario step (stepEntered w)).events
        = [Event.CollectorStart, Event.CaptureStart, Event.CaptureStop, Event.CollectorStop]
      ∧ stepOutcome registry runPolicy scenario step w = Result.undefined := by
  simp [stepOutcome, WrapExecuteStep, ExecuteStep, ExecuteStep_visit, hm, ExecuteStep_monostate,
    HasFailures, traceCaptured, reportFailures, stepEntered, StepResult, startShims,
    World.StartScope,
    ContextManager.StartScope_step, ContextManager.SetStep_withStep]

theorem WrapExecuteStep_vector (registry : HookRegistry) (runPolicy : RunPolicy)
    (scenario : ScenarioInfo) (step : StepInfo) (w : World) (stepMatches : List StepMatch)
    (hm : step.StepMatch = StepMatchVariant.multiple stepMatches) :
    (WrapExecuteStep registry runPolicy scenario step (stepEntered w)).events
        = [Event.CollectorStart, Event.CaptureStart, Event.CaptureStop, Event.CollectorStop]
      ∧ stepOutcome registry runPolicy scenario step w = Result.ambiguous := by
  simp [stepOutcome, WrapExecuteStep, ExecuteStep, ExecuteStep_visit, hm, ExecuteStep_vector,
    HasFailures, traceCaptured, reportFailures, stepEntered, StepResult, startShims,
    World.StartScope,
    ContextManager.StartScope_step, ContextManager.SetStep_withStep]

end cucumber_cpp.engine.TestRunner

/-! ## Events of scenarios, rules and features -/

namespace cucumber_cpp.engine.TestRunner

theorem Event_scenarioLevel_of_stepLevel {e : Event} (h : e.stepLevel = true) :
    e.scenarioLevel = true := by
  cases e <;> simp_all [Event.stepLevel, Event.scenarioLevel] <;> tauto

theorem Event_ruleLevel_of_scenarioLevel {e : Event} (h : e.scenarioLevel = true) :
    e.ruleLevel = true := by
  cases e <;> simp_all [Event.stepLevel, Event.scenarioLevel, Event.ruleLevel] <;> tauto

theorem Event_featureLevel_of_ruleLevel {e : Event} (h : e.ruleLevel = true) :
    e.featureLevel = true := by
  cases e <;> simp_all [Event.stepLevel, Event.scenarioLevel, Event.ruleLevel,
    Event.featureLevel] <;> aesop

theorem Event_scenarioLevel_of_fromHook_before {e : Event}
    (h : e.fromHook HookType.before = true) : e.scenarioLevel = true := by
  cases e <;> simp_all [Event.fromHook, Event.scenarioLevel, Event.stepLevel]

theorem Event_scenarioLevel_of_fromHook_after {e : Event}
    (h : e.fromHook HookType.after = true) : e.scenarioLevel = true := by
  cases e <;> simp_all [Event.fromHook, Event.scenarioLevel, Event.stepLevel]

theorem Event_featureLevel_of_fromHook_beforeFeature {e : Event}
    (h : e.fromHook HookType.beforeFeature = true) : e.featureLevel = true := by
  cases e <;> simp_all [Event.fromHook, Event.featureLevel]

theorem Event_featureLevel_of_fromHook_afterFeature {e : Event}
    (h : e.fromHook HookType.afterFeature = true) : e.featureLevel = true := by
  cases e <;> simp_all [Event.fromHook, Event.featureLevel]

theorem RunScenarios_body_scenarioLevel (registry : HookRegistry) (runPolicy : RunPolicy)
    (scenario : ScenarioInfo) (w : World) :
    ∀ e ∈ (RunScenarios.body registry runPolicy scenario w).events,
      e.scenarioLevel = true := by
  intro e he
  simp only [RunScenarios.body, List.mem_append, List.mem_cons, List.mem_singleton,
    List.mem_nil_iff, or_false] at he
  rcases he with ((((rfl | rfl) | he) | he) | he) | rfl | rfl
  · rfl
  · rfl
  · exact Event_scenarioLevel_of_fromHook_before (RunPolicy_ExecuteHook_events _ _ _ _ _ e he)
  · split at he
    · exact Event_scenarioLevel_of_stepLevel (ExecuteSteps_stepLevel _ _ _ _ e he)
    · simp at he
  · exact Event_scenarioLevel_of_fromHook_after (RunPolicy_ExecuteHook_events _ _ _ _ _ e he)
  · rfl
  · rfl

theorem RunScenarios_loop_scenarioLevel (registry : HookRegistry) (runPolicy : RunPolicy)
    (scenarios : List ScenarioInfo) (acc : Bool) (w : World) :
    ∀ e ∈ (RunScenarios.loop registry runPolicy scenarios acc w).events,
      e.scenarioLevel = true := by
  induction scenarios generalizing acc w with
  | nil => simp [RunScenarios.loop]
  | cons scenario rest ih =>
    intro e he
    simp only [RunScenarios.loop, List.mem_append] at he
    rcases he with he | he
    · exact RunScenarios_body_scenarioLevel _ _ _ _ e he
    · exact ih _ _ e he

theorem RunScenarios_scenarioLevel (registry : HookRegistry) (runPolicy : RunPolicy)
    (scenarios : List ScenarioInfo) (w : World) :
    ∀ e ∈ (RunScenarios registry runPolicy scenarios w).events, e.scenarioLevel = true :=
  RunScenarios_loop_scenarioLevel registry runPolicy scenarios true w

theorem RunRules_ruleLevel (registry : HookRegistry) (runPolicy : RunPolicy)
    (rules : List RuleInfo) (w : World) :
    ∀ e ∈ (RunRules registry runPolicy rules w).events, e.ruleLevel = true := by
  induction rules generalizing w with
  | nil => simp [RunRules]
  | cons rule rest ih =>
    intro e he
    simp only [RunRules, RunRules.body, List.mem_append, List.mem_cons, List.mem_singleton,
      List.mem_nil_iff, or_false] at he
    rcases he with (((rfl | rfl) | he) | rfl | rfl) | he
    · rfl
    · rfl
    · exact Event_ruleLevel_of_scenarioLevel (RunScenarios_scenarioLevel _ _ _ _ e he)
    · rfl
    · rfl
    · exact ih _ e he

theorem RunFeature_featureLevel (registry : HookRegistry) (runPolicy : RunPolicy)
    (feature : FeatureInfo) (w : World) :
    ∀ e ∈ (RunFeature registry runPolicy feature w).events, e.featureLevel = true := by
  intro e he
  unfold RunFeature at he
  split at he
  · simp at he
  · simp only [List.mem_append, List.mem_cons, List.mem_singleton, List.mem_nil_iff,
      or_false] at he
    rcases he with (((((rfl | rfl) | he) | he) | he) | he) | rfl | rfl
    · rfl
    · rfl
    · exact Event_featureLevel_of_fromHook_beforeFeature
        (RunPolicy_ExecuteHook_events _ _ _ _ _ e he)
    · split at he
      · exact Event_featureLevel_of_ruleLevel (RunRules_ruleLevel _ _ _ _ e he)
      · simp at he
    · split at he
      · exact Event_featureLevel_of_ruleLevel (Event_ruleLevel_of_scenarioLevel
          (RunScenarios_scenarioLevel _ _ _ _ e he))
      · simp at he
    · exact Event_featureLevel_of_fromHook_afterFeature
        (RunPolicy_ExecuteHook_events _ _ _ _ _ e he)
    · rfl
    · rfl

theorem Run_loop_featureLevel (registry : HookRegistry) (runPolicy : RunPolicy)
    (features : List FeatureInfo) (w : World) :
    ∀ e ∈ (Run.loop registry runPolicy features w).events, e.featureLevel = true := by
  induction features generalizing w with
  | nil => simp [Run.loop]
  | cons feature rest ih =>
    intro e he
    simp only [Run.loop, List.mem_append] at he
    rcases he with he | he
    · exact RunFeature_featureLevel _ _ _ _ e he
    · exact ih _ e he

end cucumber_cpp.engine.TestRunner

/-! ## Hook results and outcomes -/

namespace cucumber_cpp.engine.TestRunner

theorem withoutHooks_append (xs ys : List Event) :
    withoutHooks (xs ++ ys) = withoutHooks xs ++ withoutHooks ys := by
  simp [withoutHooks]

theorem withoutHooks_ExecuteHook (registry : HookRegistry) (runPolicy : RunPolicy)
    (hook : HookType) (tags : Tags) (w : World) :
    withoutHooks (runPolicy.ExecuteHook registry hook tags w).events = [] := by
  simp only [withoutHooks, List.filter_eq_nil_iff]
  intro e he
  have := RunPolicy_ExecuteHook_events registry runPolicy hook tags w e he
  cases e <;> simp_all [Event.fromHook, Event.isHookEvent]

/-- Lines 258-263 when the `before` hook call reports failure. -/
theorem RunScenarios_body_before_fails (registry : HookRegistry) (runPolicy : RunPolicy)
    (scenario : ScenarioInfo) (w : World)
    (h : ∀ w', (runPolicy.ExecuteHook registry HookType.before scenario.Tags w').value = false) :
    withoutHooks (RunScenarios.body registry runPolicy scenario w).events
      = [Event.StartScope ScopeKind.scenario, Event.ScenarioStart scenario,
          Event.ScenarioEnd Result.passed scenario, Event.EndScope ScopeKind.scenario] := by
  have hc := ContextManager.Current_StartScope ScopeKind.scenario (by decide) w.contextManager
  simp only [RunScenarios.body, h, withoutHooks_append, withoutHooks_ExecuteHook,
    RunPolicy_ExecuteHook_contextManager, World_StartScope_contextManager, hc,
    Bool.false_eq_true, if_false]
  simp [withoutHooks, Event.isHookEvent]

/-- Lines 292-300 when the `beforeFeature` hook call reports failure. -/
theorem RunFeature_before_fails (registry : HookRegistry) (runPolicy : RunPolicy)
    (feature : FeatureInfo) (w : World)
    (hne : (feature.Rules.isEmpty && feature.Scenarios.isEmpty) = false)
    (h : ∀ w', (runPolicy.ExecuteHook registry HookType.beforeFeature feature.Tags w').value
      = false) :
    withoutHooks (RunFeature registry runPolicy feature w).events
      = [Event.StartScope ScopeKind.feature, Event.FeatureStart feature,
          Event.FeatureEnd Result.passed feature, Event.EndScope ScopeKind.feature] := by
  have hc := ContextManager.Current_StartScope ScopeKind.feature (by decide) w.contextManager
  simp only [RunFeature, hne, h, withoutHooks_append, withoutHooks_ExecuteHook,
    RunPolicy_ExecuteHook_contextManager, World_StartScope_contextManager, hc,
    Bool.false_eq_true, if_false]
  simp [withoutHooks, Event.isHookEvent]

/-- From a `passed` current record, a list of steps leaves a non-`passed` current record
only if one of them was reported with a non-`passed` `StepEnd`. -/
theorem ExecuteSteps_loop_not_passed (registry : HookRegistry) (runPolicy : RunPolicy)
    (scenario : ScenarioInfo) (steps : List StepInfo) (w : World)
    (hcur : w.contextManager.CurrentContext_ExecutionStatus = Result.passed)
    (hend : (ExecuteSteps.loop registry runPolicy scenario steps
      w).world.contextManager.CurrentContext_ExecutionStatus ≠ Result.passed) :
    ∃ r step, r ≠ Result.passed
      ∧ Event.StepEnd r step ∈ (ExecuteSteps.loop registry runPolicy scenario steps w).events := by
  induction steps generalizing w with
  | nil => exact absurd hcur hend
  | cons step rest ih =>
    obtain ⟨hev, hw⟩ := ManageExecuteStep_attempted registry runPolicy scenario step w hcur
    simp only [ExecuteSteps.loop] at hend ⊢
    by_cases hout : stepOutcome registry runPolicy scenario step w = Result.passed
    · have hcur' : (ManageExecuteStep registry runPolicy scenario step
          w).world.contextManager.CurrentContext_ExecutionStatus = Result.passed := by
        rw [hw]; simp [hout, hcur]
      obtain ⟨r, s, hr, hmem⟩ := ih _ hcur' hend
      exact ⟨r, s, hr, List.mem_append_right _ hmem⟩
    · refine ⟨_, step, hout, List.mem_append_left _ ?_⟩
      rw [hev]
      simp

/-- The outcome `ScenarioEnd` carries is non-`passed` only if a step of the scenario was
reported with a non-`passed` `StepEnd`, whatever the hook calls returned. -/
theorem RunScenarios_body_not_passed (registry : HookRegistry) (runPolicy : RunPolicy)
    (scenario : ScenarioInfo) (w : World) (r : Result) (hr : r ≠ Result.passed)
    (hmem : Event.ScenarioEnd r scenario
      ∈ (RunScenarios.body registry runPolicy scenario w).events) :
    ∃ r' step, r' ≠ Result.passed
      ∧ Event.StepEnd r' step ∈ (RunScenarios.body registry runPolicy scenario w).events := by
  rw [← mem_scenarioEnds] at hmem
  have hentered : (w.StartScope ScopeKind.scenario).contextManager.CurrentContext_ExecutionStatus
      = Result.passed := ContextManager.Current_StartScope ScopeKind.scenario (by decide) _
  simp only [RunScenarios.body, scenarioEnds_append,
    scenarioEnds_of_fromHook HookType.before _ (RunPolicy_ExecuteHook_events _ _ _ _ _),
    scenarioEnds_of_fromHook HookType.after _ (RunPolicy_ExecuteHook_events _ _ _ _ _),
    RunPolicy_ExecuteHook_contextManager] at hmem ⊢
  split at hmem
  · rename_i hok
    rw [scenarioEnds_of_stepLevel _ (ExecuteSteps_stepLevel _ _ _ _)] at hmem
    simp only [scenarioEnds, List.nil_append, List.append_nil, List.mem_singleton,
      Prod.mk.injEq, and_true] at hmem
    have hend : (ExecuteSteps.loop registry runPolicy scenario scenario.Children
        (runPolicy.ExecuteHook registry HookType.before scenario.Tags
          (w.StartScope ScopeKind.scenario)).world).world.contextManager.CurrentContext_ExecutionStatus
        ≠ Result.passed := by
      intro hp
      apply hr
      rw [hmem]
      exact hp
    obtain ⟨r', s, hr', hs⟩ := ExecuteSteps_loop_not_passed registry runPolicy scenario
      scenario.Children _ (by simpa using hentered) hend
    refine ⟨r', s, hr', ?_⟩
    simp only [hok, if_true, ExecuteSteps, List.mem_append]
    exact Or.inl (Or.inl (Or.inr hs))
  · simp only [scenarioEnds, List.nil_append, List.append_nil, List.mem_singleton,
      Prod.mk.injEq, and_true] at hmem
    rw [hmem] at hr
    exact absurd (by simpa using hentered) hr


@[simp] theorem startShims_contextManager (w : World) :
    (startShims w).contextManager = w.contextManager := rfl

@[simp] theorem stepEntered_contextManager (w : World) :
    (stepEntered w).contextManager = w.contextManager.withStep Result.passed := rfl

/-- The `StepMatch` overload when the `beforeStep` hook call reports failure (lines 170-173):
nothing is raised and only hook events occur. -/
theorem ExecuteStep_visit_beforeStep_fails (registry : HookRegistry) (runPolicy : RunPolicy)
    (scenario : ScenarioInfo) (step : StepInfo) (stepMatch : StepMatch) (w : World)
    (hm : step.StepMatch = StepMatchVariant.single stepMatch)
    (h : ∀ w', (runPolicy.ExecuteHook registry HookType.beforeStep scenario.Tags w').value
      = false) :
    (ExecuteStep_visit registry runPolicy scenario step w).value = none
      ∧ ∀ e ∈ (ExecuteStep_visit registry runPolicy scenario step w).events,
          e.isHookEvent = true := by
  simp only [ExecuteStep_visit, hm, ExecuteStep_StepMatch, h, Bool.false_eq_true, if_false,
    List.append_nil, List.mem_append, true_and]
  intro e he
  rcases he with he | he <;>
    · have := RunPolicy_ExecuteHook_events _ _ _ _ _ e he
      cases e <;> simp_all [Event.fromHook, Event.isHookEvent]

theorem traceCaptured_mem (captured : Option String) :
    ∀ e ∈ traceCaptured captured, ∃ text, e = Event.Trace text := by
  intro e he
  unfold traceCaptured at he
  split at he
  · simp at he
  · split at he
    · simp at he
    · exact ⟨_, by simpa using he⟩

theorem reportFailures_mem (errors : Option (List TestPartResult)) :
    ∀ e ∈ reportFailures errors, ∃ message file_name line_number,
      e = Event.Failure message file_name line_number := by
  intro e he
  unfold reportFailures at he
  split at he
  · simp at he
  · simp only [List.mem_map] at he
    obtain ⟨a, _, rfl⟩ := he
    exact ⟨_, _, _, rfl⟩

theorem reportFailures_nonempty (w : World) (h : HasFailures w = true) :
    ∃ message file_name line_number,
      Event.Failure message file_name line_number ∈ reportFailures w.errors := by
  unfold HasFailures at h
  split at h
  · simp at h
  · rename_i es hes
    rw [hes]
    cases es with
    | nil => simp at h
    | cons error rest =>
      exact ⟨error.message, error.file_name, error.line_number, by simp [reportFailures]⟩

/-- An attempted single-match step whose `beforeStep` hook call reports failure: the
policy's `ExecuteStep` is not called, and `StepEnd` carries `passed`, or `failed` when
a test part result was collected. -/
theorem ManageExecuteStep_beforeStep_fails (registry : HookRegistry) (runPolicy : RunPolicy)
    (scenario : ScenarioInfo) (step : StepInfo) (stepMatch : StepMatch) (w : World)
    (hcur : w.contextManager.CurrentContext_ExecutionStatus = Result.passed)
    (hm : step.StepMatch = StepMatchVariant.single stepMatch)
    (h : ∀ w', (runPolicy.ExecuteHook registry HookType.beforeStep scenario.Tags w').value
      = false) :
    (∀ e ∈ (ManageExecuteStep registry runPolicy scenario step w).events,
        ∀ s m, e ≠ Event.PolicyExecuteStep s m ∧ e ≠ Event.StepBody s m)
      ∧ (Event.StepEnd Result.passed step
            ∈ (ManageExecuteStep registry runPolicy scenario step w).events
          ∨ (Event.StepEnd Result.failed step
              ∈ (ManageExecuteStep registry runPolicy scenario step w).events
            ∧ ∃ message file_name line_number, Event.Failure message file_name line_number
              ∈ (ManageExecuteStep registry runPolicy scenario step w).events)) := by
  obtain ⟨hev, -⟩ := ManageExecuteStep_attempted registry runPolicy scenario step w hcur
  obtain ⟨hval, hhooks⟩ := ExecuteStep_visit_beforeStep_fails registry runPolicy scenario step
    stepMatch (startShims (stepEntered w)) hm h
  have hex : ExecuteStep registry runPolicy scenario step (startShims (stepEntered w))
      = { value := ()
          world := (ExecuteStep_visit registry runPolicy scenario step
            (startShims (stepEntered w))).world
          events := (ExecuteStep_visit registry runPolicy scenario step
            (startShims (stepEntered w))).events } := by
    simp only [ExecuteStep, hval]
  constructor
  · intro e he s m
    have hb : e.isBodyCall = false := by
      rw [hev] at he
      simp only [WrapExecuteStep, hex, List.mem_append, List.mem_cons, List.mem_singleton,
        List.mem_nil_iff, or_false] at he
      rcases he with ((rfl | rfl) | (((((((rfl | rfl) | he) | rfl) | he) | he) | rfl) | he))
        | rfl | rfl
      · rfl
      · rfl
      · rfl
      · rfl
      · have := hhooks e he
        cases e <;> simp_all [Event.isHookEvent, Event.isBodyCall]
      · rfl
      · obtain ⟨t, rfl⟩ := traceCaptured_mem _ e he
        rfl
      · obtain ⟨t, rfl⟩ := traceCaptured_mem _ e he
        rfl
      · rfl
      · obtain ⟨a, b, c, rfl⟩ := reportFailures_mem _ e he
        rfl
      · rfl
      · rfl
    constructor <;> (rintro rfl; simp [Event.isBodyCall] at hb)
  · rw [hev]
    by_cases hf : HasFailures (ExecuteStep_visit registry runPolicy scenario step
        (startShims (stepEntered w))).world = true
    · right
      have hout : stepOutcome registry runPolicy scenario step w = Result.failed := by
        simp [stepOutcome, WrapExecuteStep, hex, hf, ContextManager.SetStep_withStep]
      obtain ⟨msg, file, line, hmem⟩ := reportFailures_nonempty _ hf
      refine ⟨by simp [hout], msg, file, line, ?_⟩
      simp only [WrapExecuteStep, hex, hf, if_true, List.mem_append, List.mem_cons]
      left; right; right
      exact hmem
    · left
      have hout : stepOutcome registry runPolicy scenario step w = Result.passed := by
        simp [stepOutcome, WrapExecuteStep, hex, hf]
      simp [hout]

end cucumber_cpp.engine.TestRunner

/-! ## Counting hook calls -/

namespace cucumber_cpp.engine.TestRunner

theorem hookCalls_append (hook : HookType) (xs ys : List Event) :
    hookCalls hook (xs ++ ys) = hookCalls hook xs + hookCalls hook ys := by
  simp [hookCalls]

theorem hookCalls_eq_zero (hook : HookType) (es : List Event)
    (h : ∀ e ∈ es, e.isHookCall hook = false) : hookCalls hook es = 0 := by
  simp only [hookCalls, List.countP_eq_zero]
  intro e he
  simp [h e he]

/-- One call of `runPolicy.ExecuteHook` is one call, for its own lifecycle point. -/
theorem hookCalls_ExecuteHook (registry : HookRegistry) (runPolicy : RunPolicy)
    (hook hook' : HookType) (tags : Tags) (w : World) :
    hookCalls hook (runPolicy.ExecuteHook registry hook' tags w).events
      = if hook' = hook then 1 else 0 := by
  cases runPolicy
  · have hrest : hookCalls hook (RunTestPolicy.ExecuteHook.loop (registry hook' tags) w).events
        = 0 := by
      apply hookCalls_eq_zero
      intro e he
      obtain ⟨m, rfl⟩ := RunTestPolicy_ExecuteHook_loop_events _ _ e he
      rfl
    simp only [hookCalls] at hrest
    simp only [RunPolicy.ExecuteHook, RunTestPolicy.ExecuteHook, hookCalls, List.countP_cons,
      hrest, Event.isHookCall]
    by_cases h : hook' = hook <;> simp [h]
  · simp only [RunPolicy.ExecuteHook, DryRunPolicy.ExecuteHook, hookCalls, List.countP_cons,
      List.countP_nil, Event.isHookCall]
    by_cases h : hook' = hook <;> simp [h]

theorem hookCalls_ExecuteStep (runPolicy : RunPolicy) (hook : HookType) (stepInfo : StepInfo)
    (stepMatch : StepMatch) (w : World) :
    hookCalls hook (runPolicy.ExecuteStep stepInfo stepMatch w).events = 0 := by
  cases runPolicy <;>
    simp [RunPolicy.ExecuteStep, RunTestPolicy.ExecuteStep, DryRunPolicy.ExecuteStep, hookCalls,
      Event.isHookCall]

theorem hookCalls_traceCaptured (hook : HookType) (captured : Option String) :
    hookCalls hook (traceCaptured captured) = 0 := by
  apply hookCalls_eq_zero
  intro e he
  obtain ⟨t, rfl⟩ := traceCaptured_mem _ e he
  rfl

theorem hookCalls_reportFailures (hook : HookType) (errors : Option (List TestPartResult)) :
    hookCalls hook (reportFailures errors) = 0 := by
  apply hookCalls_eq_zero
  intro e he
  obtain ⟨a, b, c, rfl⟩ := reportFailures_mem _ e he
  rfl

/-- Hook calls inside `WrapExecuteStep` are those of the dispatched overload. -/
theorem hookCalls_WrapExecuteStep (registry : HookRegistry) (runPolicy : RunPolicy)
    (hook : HookType) (scenario : ScenarioInfo) (step : StepInfo) (w : World) :
    hookCalls hook (WrapExecuteStep registry runPolicy scenario step w).events
      = hookCalls hook (ExecuteStep_visit registry runPolicy scenario step (startShims w)).events := by
  simp only [WrapExecuteStep, hookCalls_append, ExecuteStep_events, hookCalls_traceCaptured,
    hookCalls_reportFailures]
  simp [hookCalls, Event.isHookCall]

/-- Lines 168-174: one `beforeStep` call and one `afterStep` call, whatever the first returns
and whatever the body throws. -/
theorem hookCalls_ExecuteStep_visit_single (registry : HookRegistry) (runPolicy : RunPolicy)
    (hook : HookType) (scenario : ScenarioInfo) (step : StepInfo) (stepMatch : StepMatch)
    (w : World) (hm : step.StepMatch = StepMatchVariant.single stepMatch) :
    hookCalls hook (ExecuteStep_visit registry runPolicy scenario step w).events
      = (if HookType.beforeStep = hook then 1 else 0)
        + (if HookType.afterStep = hook then 1 else 0) := by
  simp only [ExecuteStep_visit, hm, ExecuteStep_StepMatch, hookCalls_append,
    hookCalls_ExecuteHook]
  by_cases hv : (runPolicy.ExecuteHook registry HookType.beforeStep scenario.Tags w).value = true
  · simp only [hv, if_true, hookCalls_ExecuteStep, Nat.add_zero]
  · simp only [hv, if_false]
    simp [hookCalls]

/-- Lines 158-166: the throwing overloads make no hook call. -/
theorem hookCalls_ExecuteStep_visit_unmatched (registry : HookRegistry) (runPolicy : RunPolicy)
    (hook : HookType) (scenario : ScenarioInfo) (step : StepInfo) (w : World)
    (hm : ∀ stepMatch, step.StepMatch ≠ StepMatchVariant.single stepMatch) :
    hookCalls hook (ExecuteStep_visit registry runPolicy scenario step w).events = 0 := by
  unfold ExecuteStep_visit
  split
  · simp [ExecuteStep_monostate, hookCalls]
  · rename_i m hs
    exact absurd hs (hm m)
  · simp [ExecuteStep_vector, hookCalls]

/-- Hook calls while one attempted step is managed are those of the dispatched overload. -/
theorem hookCalls_ManageExecuteStep_attempted (registry : HookRegistry)
    (runPolicy : RunPolicy) (hook : HookType) (scenario : ScenarioInfo) (step : StepInfo)
    (w : World) (hcur : w.contextManager.CurrentContext_ExecutionStatus = Result.passed) :
    hookCalls hook (ManageExecuteStep registry runPolicy scenario step w).events
      = hookCalls hook (ExecuteStep_visit registry runPolicy scenario step
          (startShims (stepEntered w))).events := by
  rw [(ManageExecuteStep_attempted registry runPolicy scenario step w hcur).1]
  simp only [hookCalls_append, hookCalls_WrapExecuteStep]
  simp [hookCalls, Event.isHookCall]

end cucumber_cpp.engine.TestRunner

/-! ## Counting cleanup hook calls and entered scopes -/

namespace cucumber_cpp.engine.TestRunner

theorem countP_eq_zero_of_level (p level : Event → Bool) (es : List Event)
    (h : ∀ e ∈ es, level e = true) (hp : ∀ e, level e = true → p e = false) :
    es.countP p = 0 := by
  simp only [List.countP_eq_zero]
  intro e he
  simp [hp e (h e he)]

theorem isHookCall_of_scenarioLevel (hook : HookType) (hb : hook ≠ HookType.before)
    (ha : hook ≠ HookType.after) (hbs : hook ≠ HookType.beforeStep)
    (has : hook ≠ HookType.afterStep) (e : Event) (h : e.scenarioLevel = true) :
    e.isHookCall hook = false := by
  cases e with
  | PolicyExecuteHook h' t =>
    cases h' <;> cases hook <;> simp_all [Event.scenarioLevel, Event.isHookCall]
  | _ => simp_all [Event.isHookCall]

theorem isHookCall_of_stepLevel (hook : HookType) (hbs : hook ≠ HookType.beforeStep)
    (has : hook ≠ HookType.afterStep) (e : Event) (h : e.stepLevel = true) :
    e.isHookCall hook = false := by
  cases e with
  | PolicyExecuteHook h' t =>
    cases h' <;> cases hook <;> simp_all [Event.stepLevel, Event.isHookCall]
  | _ => simp_all [Event.isHookCall]

theorem isHookCall_of_ruleLevel (hook : HookType) (hb : hook ≠ HookType.before)
    (ha : hook ≠ HookType.after) (hbs : hook ≠ HookType.beforeStep)
    (has : hook ≠ HookType.afterStep) (e : Event) (h : e.ruleLevel = true) :
    e.isHookCall hook = false := by
  cases e with
  | PolicyExecuteHook h' t =>
    cases h' <;> cases hook <;>
      simp_all [Event.ruleLevel, Event.scenarioLevel, Event.isHookCall]
  | _ => simp_all [Event.isHookCall]

theorem isHookCall_afterAll_of_featureLevel (e : Event) (h : e.featureLevel = true) :
    e.isHookCall HookType.afterAll = false := by
  cases e with
  | PolicyExecuteHook h' t => cases h' <;> simp_all [Event.featureLevel, Event.isHookCall]
  | _ => simp_all [Event.isHookCall]

theorem isScenarioStart_of_stepLevel (e : Event) (h : e.stepLevel = true) :
    e.isScenarioStart = false := by
  cases e <;> simp_all [Event.stepLevel, Event.isScenarioStart]

theorem isScenarioStart_of_fromHook (hook : HookType) (e : Event)
    (h : e.fromHook hook = true) : e.isScenarioStart = false := by
  cases e <;> simp_all [Event.fromHook, Event.isScenarioStart]

theorem isFeatureStart_of_fromHook (hook : HookType) (e : Event)
    (h : e.fromHook hook = true) : e.isFeatureStart = false := by
  cases e <;> simp_all [Event.fromHook, Event.isFeatureStart]

theorem isFeatureStart_of_ruleLevel (e : Event) (h : e.ruleLevel = true) :
    e.isFeatureStart = false := by
  cases e <;> simp_all [Event.ruleLevel, Event.scenarioLevel, Event.stepLevel,
    Event.isFeatureStart]

/-- One scenario: one `after` hook call and one `ScenarioStart`, whatever the `before` hook
call returns. -/
theorem RunScenarios_body_counts (registry : HookRegistry) (runPolicy : RunPolicy)
    (scenario : ScenarioInfo) (w : World) :
    hookCalls HookType.after (RunScenarios.body registry runPolicy scenario w).events = 1
      ∧ (RunScenarios.body registry runPolicy scenario w).events.countP Event.isScenarioStart
        = 1 := by
  have hsteps : ∀ w', hookCalls HookType.after
      (ExecuteSteps registry runPolicy scenario w').events = 0 := fun w' =>
    countP_eq_zero_of_level _ Event.stepLevel _ (ExecuteSteps_stepLevel _ _ _ _)
      (isHookCall_of_stepLevel _ (by decide) (by decide))
  have hsteps' : ∀ w', (ExecuteSteps registry runPolicy scenario w').events.countP
      Event.isScenarioStart = 0 := fun w' =>
    countP_eq_zero_of_level _ Event.stepLevel _ (ExecuteSteps_stepLevel _ _ _ _)
      isScenarioStart_of_stepLevel
  have hhook : ∀ hook w', (runPolicy.ExecuteHook registry hook scenario.Tags w').events.countP
      Event.isScenarioStart = 0 := fun hook w' =>
    countP_eq_zero_of_level _ (Event.fromHook hook) _ (RunPolicy_ExecuteHook_events _ _ _ _ _)
      (isScenarioStart_of_fromHook hook)
  constructor
  · simp only [RunScenarios.body, hookCalls_append, hookCalls_ExecuteHook]
    by_cases hv : (runPolicy.ExecuteHook registry HookType.before scenario.Tags
        (w.StartScope ScopeKind.scenario)).value = true
    · simp only [hv, if_true, hsteps]
      simp [hookCalls, Event.isHookCall]
    · simp only [hv, if_false]
      simp [hookCalls, Event.isHookCall]
  · simp only [RunScenarios.body, List.countP_append, hhook]
    by_cases hv : (runPolicy.ExecuteHook registry HookType.before scenario.Tags
        (w.StartScope ScopeKind.scenario)).value = true
    · simp only [hv, if_true, hsteps']
      simp [Event.isScenarioStart]
    · simp only [hv, if_false]
      simp [Event.isScenarioStart]

theorem RunScenarios_counts (registry : HookRegistry) (runPolicy : RunPolicy)
    (scenarios : List ScenarioInfo) (w : World) :
    hookCalls HookType.after (RunScenarios registry runPolicy scenarios w).events
        = scenarios.length
      ∧ (RunScenarios registry runPolicy scenarios w).events.countP Event.isScenarioStart
        = scenarios.length := by
  have hloop : ∀ (acc : Bool) (w : World),
      hookCalls HookType.after (RunScenarios.loop registry runPolicy scenarios acc w).events
          = scenarios.length
        ∧ (RunScenarios.loop registry runPolicy scenarios acc w).events.countP
            Event.isScenarioStart = scenarios.length := by
    induction scenarios with
    | nil => intro acc w; simp [RunScenarios.loop, hookCalls]
    | cons scenario rest ih =>
      intro acc w
      obtain ⟨h1, h2⟩ := RunScenarios_body_counts registry runPolicy scenario w
      obtain ⟨h3, h4⟩ := ih (acc && (RunScenarios.body registry runPolicy scenario w).value)
        (RunScenarios.body registry runPolicy scenario w).world
      simp only [RunScenarios.loop, hookCalls_append, List.countP_append, h1, h2, h3, h4,
        List.length_cons]
      omega
  exact hloop true w

theorem RunRules_counts (registry : HookRegistry) (runPolicy : RunPolicy)
    (rules : List RuleInfo) (w : World) :
    hookCalls HookType.after (RunRules registry runPolicy rules w).events
      = (RunRules registry runPolicy rules w).events.countP Event.isScenarioStart := by
  induction rules generalizing w with
  | nil => simp [RunRules, hookCalls]
  | cons rule rest ih =>
    obtain ⟨h1, h2⟩ := RunScenarios_counts registry runPolicy rule.Scenarios
      (w.StartScope ScopeKind.rule)
    simp only [RunRules, RunRules.body, hookCalls_append, List.countP_append, h1, h2, ih]
    simp [hookCalls, Event.isHookCall, Event.isScenarioStart]

/-- One feature: as many `after` hook calls as `ScenarioStart` reports; one `afterFeature`
hook call and one `FeatureStart` unless the feature is empty. -/
theorem RunFeature_counts (registry : HookRegistry) (runPolicy : RunPolicy)
    (feature : FeatureInfo) (w : World) :
    hookCalls HookType.after (RunFeature registry runPolicy feature w).events
        = (RunFeature registry runPolicy feature w).events.countP Event.isScenarioStart
      ∧ hookCalls HookType.afterFeature (RunFeature registry runPolicy feature w).events
        = (if feature.Rules.isEmpty && feature.Scenarios.isEmpty then 0 else 1)
      ∧ (RunFeature registry runPolicy feature w).events.countP Event.isFeatureStart
        = (if feature.Rules.isEmpty && feature.Scenarios.isEmpty then 0 else 1) := by
  have hhookS : ∀ hook w', (runPolicy.ExecuteHook registry hook feature.Tags w').events.countP
      Event.isScenarioStart = 0 := fun hook w' =>
    countP_eq_zero_of_level _ (Event.fromHook hook) _ (RunPolicy_ExecuteHook_events _ _ _ _ _)
      (isScenarioStart_of_fromHook hook)
  have hhookF : ∀ hook w', (runPolicy.ExecuteHook registry hook feature.Tags w').events.countP
      Event.isFeatureStart = 0 := fun hook w' =>
    countP_eq_zero_of_level _ (Event.fromHook hook) _ (RunPolicy_ExecuteHook_events _ _ _ _ _)
      (isFeatureStart_of_fromHook hook)
  have hrulesAF : ∀ w', hookCalls HookType.afterFeature
      (RunRules registry runPolicy feature.Rules w').events = 0 := fun w' =>
    countP_eq_zero_of_level _ Event.ruleLevel _ (RunRules_ruleLevel _ _ _ _)
      (isHookCall_of_ruleLevel _ (by decide) (by decide) (by decide) (by decide))
  have hscenAF : ∀ w', hookCalls HookType.afterFeature
      (RunScenarios registry runPolicy feature.Scenarios w').events = 0 := fun w' =>
    countP_eq_zero_of_level _ Event.scenarioLevel _ (RunScenarios_scenarioLevel _ _ _ _)
      (isHookCall_of_scenarioLevel _ (by decide) (by decide) (by decide) (by decide))
  have hrulesF : ∀ w', (RunRules registry runPolicy feature.Rules w').events.countP
      Event.isFeatureStart = 0 := fun w' =>
    countP_eq_zero_of_level _ Event.ruleLevel _ (RunRules_ruleLevel _ _ _ _)
      isFeatureStart_of_ruleLevel
  have hscenF : ∀ w', (RunScenarios registry runPolicy feature.Scenarios w').events.countP
      Event.isFeatureStart = 0 := fun w' =>
    countP_eq_zero_of_level _ Event.ruleLevel _
      (fun e he => Event_ruleLevel_of_scenarioLevel (RunScenarios_scenarioLevel _ _ _ _ e he))
      isFeatureStart_of_ruleLevel
  unfold RunFeature
  by_cases hempty : (feature.Rules.isEmpty && feature.Scenarios.isEmpty) = true
  · simp [hempty, hookCalls]
  · simp only [hempty, Bool.false_eq_true, if_false, hookCalls_append, List.countP_append,
      hookCalls_ExecuteHook, hhookS, hhookF]
    by_cases hv : (runPolicy.ExecuteHook registry HookType.beforeFeature feature.Tags
        (w.StartScope ScopeKind.feature)).value = true
    · simp only [hv, if_true, RunRules_counts, (RunScenarios_counts _ _ _ _).1,
        (RunScenarios_counts _ _ _ _).2, hrulesAF, hscenAF, hrulesF, hscenF]
      simp [hookCalls, Event.isHookCall, Event.isScenarioStart, Event.isFeatureStart]
    · simp only [hv, Bool.false_eq_true, if_false]
      simp [hookCalls, Event.isHookCall, Event.isScenarioStart, Event.isFeatureStart]

theorem Run_loop_counts (registry : HookRegistry) (runPolicy : RunPolicy)
    (features : List FeatureInfo) (w : World) :
    hookCalls HookType.after (Run.loop registry runPolicy features w).events
        = (Run.loop registry runPolicy features w).events.countP Event.isScenarioStart
      ∧ hookCalls HookType.afterFeature (Run.loop registry runPolicy features w).events
        = (Run.loop registry runPolicy features w).events.countP Event.isFeatureStart := by
  induction features generalizing w with
  | nil => simp [Run.loop, hookCalls]
  | cons feature rest ih =>
    obtain ⟨h1, h2, h3⟩ := RunFeature_counts registry runPolicy feature w
    obtain ⟨h4, h5⟩ := ih (RunFeature registry runPolicy feature w).world
    simp only [Run.loop, hookCalls_append, List.countP_append, h1, h2, h3, h4, h5, and_self]

end cucumber_cpp.engine.TestRunner

/-! ## The live hook loop -/

namespace cucumber_cpp.engine.TestRunner

/-- The loop of lines 34-35 runs the hooks up to and including the first that throws, and
returns whether none threw. -/
theorem RunTestPolicy_ExecuteHook_loop_spec (ms : List HookMatch) (w : World) :
    (RunTestPolicy.ExecuteHook.loop ms w).events
        = (ms.takeWhile (fun m => m.body.thrown.isNone)
            ++ (ms.dropWhile (fun m => m.body.thrown.isNone)).take 1).map Event.HookBody
      ∧ ((RunTestPolicy.ExecuteHook.loop ms w).value = true
          ↔ ∀ m ∈ ms, m.body.thrown = none) := by
  induction ms generalizing w with
  | nil => simp [RunTestPolicy.ExecuteHook.loop]
  | cons m rest ih =>
    unfold RunTestPolicy.ExecuteHook.loop
    split
    · rename_i c hc
      simp [hc]
    · rename_i hc
      obtain ⟨h1, h2⟩ := ih (w.perform m.body)
      simp [hc, h1, h2]

end cucumber_cpp.engine.TestRunner

/-! ## Properties of all events of a run -/

namespace cucumber_cpp.engine.TestRunner

theorem ExecuteStep_visit_covered (registry : HookRegistry) (runPolicy : RunPolicy)
    (P : Event → Prop) (hP : Covers registry runPolicy P) (scenario : ScenarioInfo)
    (stepInfo : StepInfo) (w : World) :
    ∀ e ∈ (ExecuteStep_visit registry runPolicy scenario stepInfo w).events, P e := by
  intro e he
  unfold ExecuteStep_visit at he
  split at he
  · simp [ExecuteStep_monostate] at he
  · simp only [ExecuteStep_StepMatch, List.mem_append] at he
    rcases he with (he | he) | he
    · exact hP.2.1 _ _ _ e he
    · split at he
      · exact hP.2.2 _ _ _ e he
      · simp at he
    · exact hP.2.1 _ _ _ e he
  · simp [ExecuteStep_vector] at he

theorem WrapExecuteStep_covered (registry : HookRegistry) (runPolicy : RunPolicy)
    (P : Event → Prop) (hP : Covers registry runPolicy P) (scenario : ScenarioInfo)
    (step : StepInfo) (w : World) :
    ∀ e ∈ (WrapExecuteStep registry runPolicy scenario step w).events, P e := by
  intro e he
  simp only [WrapExecuteStep, List.mem_append, List.mem_cons, List.mem_singleton,
    List.mem_nil_iff, or_false, ExecuteStep_events] at he
  rcases he with ((((((rfl | rfl) | he) | rfl) | he) | he) | rfl) | he
  · exact hP.1 _ rfl
  · exact hP.1 _ rfl
  · exact ExecuteStep_visit_covered registry runPolicy P hP _ _ _ e he
  · exact hP.1 _ rfl
  · obtain ⟨t, rfl⟩ := traceCaptured_mem _ e he
    exact hP.1 _ rfl
  · obtain ⟨t, rfl⟩ := traceCaptured_mem _ e he
    exact hP.1 _ rfl
  · exact hP.1 _ rfl
  · obtain ⟨a, b, c, rfl⟩ := reportFailures_mem _ e he
    exact hP.1 _ rfl

theorem ManageExecuteStep_covered (registry : HookRegistry) (runPolicy : RunPolicy)
    (P : Event → Prop) (hP : Covers registry runPolicy P) (scenario : ScenarioInfo)
    (step : StepInfo) (w : World) :
    ∀ e ∈ (ManageExecuteStep registry runPolicy scenario step w).events, P e := by
  intro e he
  by_cases h : w.contextManager.CurrentContext_ExecutionStatus = Result.passed
  · rw [(ManageExecuteStep_attempted registry runPolicy scenario step w h).1] at he
    simp only [List.mem_append, List.mem_cons, List.mem_singleton, List.mem_nil_iff,
      or_false] at he
    rcases he with ((rfl | rfl) | he) | rfl | rfl
    · exact hP.1 _ rfl
    · exact hP.1 _ rfl
    · exact WrapExecuteStep_covered registry runPolicy P hP _ _ _ e he
    · exact hP.1 _ rfl
    · exact hP.1 _ rfl
  · rw [ManageExecuteStep_skipped registry runPolicy scenario step w h] at he
    simp only [skippedEvents, List.mem_cons, List.mem_singleton, List.mem_nil_iff,
      or_false] at he
    rcases he with rfl | rfl | rfl <;> exact hP.1 _ rfl

theorem ExecuteSteps_loop_covered (registry : HookRegistry) (runPolicy : RunPolicy)
    (P : Event → Prop) (hP : Covers registry runPolicy P) (scenario : ScenarioInfo)
    (steps : List StepInfo) (w : World) :
    ∀ e ∈ (ExecuteSteps.loop registry runPolicy scenario steps w).events, P e := by
  induction steps generalizing w with
  | nil => simp [ExecuteSteps.loop]
  | cons step rest ih =>
    intro e he
    simp only [ExecuteSteps.loop, List.mem_append] at he
    rcases he with he | he
    · exact ManageExecuteStep_covered registry runPolicy P hP _ _ _ e he
    · exact ih _ e he

theorem RunScenarios_body_covered (registry : HookRegistry) (runPolicy : RunPolicy)
    (P : Event → Prop) (hP : Covers registry runPolicy P) (scenario : ScenarioInfo)
    (w : World) :
    ∀ e ∈ (RunScenarios.body registry runPolicy scenario w).events, P e := by
  intro e he
  simp only [RunScenarios.body, List.mem_append, List.mem_cons, List.mem_singleton,
    List.mem_nil_iff, or_false] at he
  rcases he with ((((rfl | rfl) | he) | he) | he) | rfl | rfl
  · exact hP.1 _ rfl
  · exact hP.1 _ rfl
  · exact hP.2.1 _ _ _ e he
  · split at he
    · exact ExecuteSteps_loop_covered registry runPolicy P hP _ _ _ e he
    · simp at he
  · exact hP.2.1 _ _ _ e he
  · exact hP.1 _ rfl
  · exact hP.1 _ rfl

theorem RunScenarios_covered (registry : HookRegistry) (runPolicy : RunPolicy)
    (P : Event → Prop) (hP : Covers registry runPolicy P) (scenarios : List ScenarioInfo)
    (w : World) :
    ∀ e ∈ (RunScenarios registry runPolicy scenarios w).events, P e := by
  have hloop : ∀ (acc : Bool) (w : World),
      ∀ e ∈ (RunScenarios.loop registry runPolicy scenarios acc w).events, P e := by
    induction scenarios with
    | nil => intro acc w; simp [RunScenarios.loop]
    | cons scenario rest ih =>
      intro acc w e he
      simp only [RunScenarios.loop, List.mem_append] at he
      rcases he with he | he
      · exact RunScenarios_body_covered registry runPolicy P hP _ _ e he
      · exact ih _ _ e he
  exact hloop true w

theorem RunRules_covered (registry : HookRegistry) (runPolicy : RunPolicy)
    (P : Event → Prop) (hP : Covers registry runPolicy P) (rules : List RuleInfo) (w : World) :
    ∀ e ∈ (RunRules registry runPolicy rules w).events, P e := by
  induction rules generalizing w with
  | nil => simp [RunRules]
  | cons rule rest ih =>
    intro e he
    simp only [RunRules, RunRules.body, List.mem_append, List.mem_cons, List.mem_singleton,
      List.mem_nil_iff, or_false] at he
    rcases he with (((rfl | rfl) | he) | rfl | rfl) | he
    · exact hP.1 _ rfl
    · exact hP.1 _ rfl
    · exact RunScenarios_covered registry runPolicy P hP _ _ e he
    · exact hP.1 _ rfl
    · exact hP.1 _ rfl
    · exact ih _ e he

theorem RunFeature_covered (registry : HookRegistry) (runPolicy : RunPolicy)
    (P : Event → Prop) (hP : Covers registry runPolicy P) (feature : FeatureInfo) (w : World) :
    ∀ e ∈ (RunFeature registry runPolicy feature w).events, P e := by
  intro e he
  unfold RunFeature at he
  split at he
  · simp at he
  · simp only [List.mem_append, List.mem_cons, List.mem_singleton, List.mem_nil_iff,
      or_false] at he
    rcases he with (((((rfl | rfl) | he) | he) | he) | he) | rfl | rfl
    · exact hP.1 _ rfl
    · exact hP.1 _ rfl
    · exact hP.2.1 _ _ _ e he
    · split at he
      · exact RunRules_covered registry runPolicy P hP _ _ e he
      · simp at he
    · split at he
      · exact RunScenarios_covered registry runPolicy P hP _ _ e he
      · simp at he
    · exact hP.2.1 _ _ _ e he
    · exact hP.1 _ rfl
    · exact hP.1 _ rfl

/-- Every event of a run is caused by the engine itself or by a call on the policy. -/
theorem Run_covered (registry : HookRegistry) (runPolicy : RunPolicy)
    (P : Event → Prop) (hP : Covers registry runPolicy P) (features : List FeatureInfo)
    (w : World) :
    ∀ e ∈ (Run registry runPolicy features w).events, P e := by
  have hloop : ∀ w : World, ∀ e ∈ (Run.loop registry runPolicy features w).events, P e := by
    induction features with
    | nil => intro w; simp [Run.loop]
    | cons feature rest ih =>
      intro w e he
      simp only [Run.loop, List.mem_append] at he
      rcases he with he | he
      · exact RunFeature_covered registry runPolicy P hP _ _ e he
      · exact ih _ e he
  intro e he
  simp only [Run, List.mem_append, List.mem_singleton] at he
  rcases he with ((he | he) | he) | rfl
  · exact hP.2.1 _ _ _ e he
  · split at he
    · exact hloop _ e he
    · simp at he
  · exact hP.2.1 _ _ _ e he
  · exact hP.1 _ rfl

/-- Under the dry-run policy nothing is executed: no registry query, no hook body, no step
body. -/
theorem DryRunPolicy_covers (registry : HookRegistry) :
    Covers registry RunPolicy.DryRunPolicy (fun e => e.isExecution = false) := by
  refine ⟨?_, ?_, ?_⟩
  · intro e he
    cases e <;> simp_all [Event.fromEngine, Event.isExecution]
  · intro hook tags w e he
    simp [RunPolicy.ExecuteHook, DryRunPolicy.ExecuteHook] at he
    subst he
    rfl
  · intro s m w e he
    simp [RunPolicy.ExecuteStep, DryRunPolicy.ExecuteStep] at he
    subst he
    rfl

end cucumber_cpp.engine.TestRunner

/-! ## Everything is reported when the hook calls succeed -/

namespace cucumber_cpp.engine.TestRunner

theorem StepReported_mono {es es' : List Event} (h : ∀ e ∈ es, e ∈ es') {step : StepInfo}
    (hs : StepReported es step) : StepReported es' step := by
  rcases hs with ⟨h1, r, h2⟩ | h3
  · exact Or.inl ⟨h _ h1, r, h _ h2⟩
  · exact Or.inr (h _ h3)

theorem ScenarioReported_mono {es es' : List Event} (h : ∀ e ∈ es, e ∈ es')
    {scenario : ScenarioInfo} (hs : ScenarioReported es scenario) :
    ScenarioReported es' scenario := by
  obtain ⟨h1, ⟨r, h2⟩, h3⟩ := hs
  exact ⟨h _ h1, ⟨r, h _ h2⟩, fun step hstep => StepReported_mono h (h3 step hstep)⟩

theorem RuleReported_mono {es es' : List Event} (h : ∀ e ∈ es, e ∈ es') {rule : RuleInfo}
    (hs : RuleReported es rule) : RuleReported es' rule := by
  obtain ⟨h1, ⟨r, h2⟩, h3⟩ := hs
  exact ⟨h _ h1, ⟨r, h _ h2⟩, fun sc hsc => ScenarioReported_mono h (h3 sc hsc)⟩

theorem FeatureReported_mono {es es' : List Event} (h : ∀ e ∈ es, e ∈ es')
    {feature : FeatureInfo} (hs : FeatureReported es feature) :
    FeatureReported es' feature := by
  obtain ⟨h1, ⟨r, h2⟩, h3, h4⟩ := hs
  exact ⟨h _ h1, ⟨r, h _ h2⟩, fun rule hrule => RuleReported_mono h (h3 rule hrule),
    fun sc hsc => ScenarioReported_mono h (h4 sc hsc)⟩

theorem StepReported_left {es : List Event} (ys : List Event) {step : StepInfo}
    (hs : StepReported es step) : StepReported (es ++ ys) step :=
  StepReported_mono (fun _ he => List.mem_append_left _ he) hs

theorem StepReported_right {es : List Event} (xs : List Event) {step : StepInfo}
    (hs : StepReported es step) : StepReported (xs ++ es) step :=
  StepReported_mono (fun _ he => List.mem_append_right _ he) hs

theorem ScenarioReported_left {es : List Event} (ys : List Event) {scenario : ScenarioInfo}
    (hs : ScenarioReported es scenario) : ScenarioReported (es ++ ys) scenario :=
  ScenarioReported_mono (fun _ he => List.mem_append_left _ he) hs

theorem ScenarioReported_right {es : List Event} (xs : List Event) {scenario : ScenarioInfo}
    (hs : ScenarioReported es scenario) : ScenarioReported (xs ++ es) scenario :=
  ScenarioReported_mono (fun _ he => List.mem_append_right _ he) hs

theorem RuleReported_left {es : List Event} (ys : List Event) {rule : RuleInfo}
    (hs : RuleReported es rule) : RuleReported (es ++ ys) rule :=
  RuleReported_mono (fun _ he => List.mem_append_left _ he) hs

theorem RuleReported_right {es : List Event} (xs : List Event) {rule : RuleInfo}
    (hs : RuleReported es rule) : RuleReported (xs ++ es) rule :=
  RuleReported_mono (fun _ he => List.mem_append_right _ he) hs

theorem FeatureReported_left {es : List Event} (ys : List Event) {feature : FeatureInfo}
    (hs : FeatureReported es feature) : FeatureReported (es ++ ys) feature :=
  FeatureReported_mono (fun _ he => List.mem_append_left _ he) hs

theorem FeatureReported_right {es : List Event} (xs : List Event) {feature : FeatureInfo}
    (hs : FeatureReported es feature) : FeatureReported (xs ++ es) feature :=
  FeatureReported_mono (fun _ he => List.mem_append_right _ he) hs

/-- Lines 225-239: a managed step is reported, one way or the other. -/
theorem ManageExecuteStep_reported (registry : HookRegistry) (runPolicy : RunPolicy)
    (scenario : ScenarioInfo) (step : StepInfo) (w : World) :
    StepReported (ManageExecuteStep registry runPolicy scenario step w).events step := by
  by_cases h : w.contextManager.CurrentContext_ExecutionStatus = Result.passed
  · left
    rw [(ManageExecuteStep_attempted registry runPolicy scenario step w h).1]
    exact ⟨by simp, _, List.mem_append_right _ (List.mem_cons_self _ _)⟩
  · right
    rw [ManageExecuteStep_skipped registry runPolicy scenario step w h]
    simp [skippedEvents]

theorem ExecuteSteps_loop_reported (registry : HookRegistry) (runPolicy : RunPolicy)
    (scenario : ScenarioInfo) (steps : List StepInfo) (w : World) :
    ∀ step ∈ steps,
      StepReported (ExecuteSteps.loop registry runPolicy scenario steps w).events step := by
  induction steps generalizing w with
  | nil => simp
  | cons first rest ih =>
    intro step hstep
    simp only [ExecuteSteps.loop]
    rcases List.mem_cons.1 hstep with rfl | hrest
    · exact StepReported_left _ (ManageExecuteStep_reported registry runPolicy scenario step w)
    · exact StepReported_right _ (ih _ step hrest)

theorem RunScenarios_body_reported (registry : HookRegistry) (runPolicy : RunPolicy)
    (hok : ∀ hook tags w, (runPolicy.ExecuteHook registry hook tags w).value = true)
    (scenario : ScenarioInfo) (w : World) :
    ScenarioReported (RunScenarios.body registry runPolicy scenario w).events scenario := by
  simp only [RunScenarios.body, hok, if_true, ExecuteSteps]
  refine ⟨by simp, ⟨_, List.mem_append_right _ (List.mem_cons_self _ _)⟩,
    fun step hstep => ?_⟩
  apply StepReported_left
  apply StepReported_left
  apply StepReported_right
  exact ExecuteSteps_loop_reported registry runPolicy scenario scenario.Children _ step hstep

theorem RunScenarios_reported (registry : HookRegistry) (runPolicy : RunPolicy)
    (hok : ∀ hook tags w, (runPolicy.ExecuteHook registry hook tags w).value = true)
    (scenarios : List ScenarioInfo) (w : World) :
    ∀ scenario ∈ scenarios,
      ScenarioReported (RunScenarios registry runPolicy scenarios w).events scenario := by
  have hloop : ∀ (acc : Bool) (w : World), ∀ scenario ∈ scenarios,
      ScenarioReported (RunScenarios.loop registry runPolicy scenarios acc w).events
        scenario := by
    induction scenarios with
    | nil => intro acc w; simp
    | cons first rest ih =>
      intro acc w scenario hsc
      simp only [RunScenarios.loop]
      rcases List.mem_cons.1 hsc with rfl | hrest
      · exact ScenarioReported_left _
          (RunScenarios_body_reported registry runPolicy hok scenario w)
      · exact ScenarioReported_right _ (ih _ _ scenario hrest)
  exact hloop true w

theorem RunRules_reported (registry : HookRegistry) (runPolicy : RunPolicy)
    (hok : ∀ hook tags w, (runPolicy.ExecuteHook registry hook tags w).value = true)
    (rules : List RuleInfo) (w : World) :
    ∀ rule ∈ rules, RuleReported (RunRules registry runPolicy rules w).events rule := by
  induction rules generalizing w with
  | nil => simp
  | cons first rest ih =>
    intro rule hrule
    simp only [RunRules]
    rcases List.mem_cons.1 hrule with rfl | hrest
    · apply RuleReported_left
      simp only [RunRules.body]
      refine ⟨by simp, ⟨_, List.mem_append_right _ (List.mem_cons_self _ _)⟩,
        fun sc hsc => ?_⟩
      apply ScenarioReported_left
      apply ScenarioReported_right
      exact RunScenarios_reported registry runPolicy hok rule.Scenarios _ sc hsc
    · exact RuleReported_right _ (ih _ rule hrest)

theorem RunFeature_reported (registry : HookRegistry) (runPolicy : RunPolicy)
    (hok : ∀ hook tags w, (runPolicy.ExecuteHook registry hook tags w).value = true)
    (feature : FeatureInfo) (w : World)
    (hne : (feature.Rules.isEmpty && feature.Scenarios.isEmpty) = false) :
    FeatureReported (RunFeature registry runPolicy feature w).events feature := by
  simp only [RunFeature, hne, Bool.false_eq_true, if_false, hok, if_true]
  refine ⟨by simp, ⟨_, List.mem_append_right _ (List.mem_cons_self _ _)⟩,
    fun rule hrule => ?_, fun sc hsc => ?_⟩
  · apply RuleReported_left
    apply RuleReported_left
    apply RuleReported_left
    apply RuleReported_right
    exact RunRules_reported registry runPolicy hok feature.Rules _ rule hrule
  · apply ScenarioReported_left
    apply ScenarioReported_left
    apply ScenarioReported_right
    exact RunScenarios_reported registry runPolicy hok feature.Scenarios _ sc hsc

/-- When every hook call succeeds, every non-empty feature of the list is reported in
full. -/
theorem Run_reported (registry : HookRegistry) (runPolicy : RunPolicy)
    (hok : ∀ hook tags w, (runPolicy.ExecuteHook registry hook tags w).value = true)
    (features : List FeatureInfo) (w : World) :
    ∀ feature ∈ features, (feature.Rules.isEmpty && feature.Scenarios.isEmpty) = false →
      FeatureReported (Run registry runPolicy features w).events feature := by
  have hloop : ∀ w : World, ∀ feature ∈ features,
      (feature.Rules.isEmpty && feature.Scenarios.isEmpty) = false →
      FeatureReported (Run.loop registry runPolicy features w).events feature := by
    induction features with
    | nil => intro w; simp
    | cons first rest ih =>
      intro w feature hf hne
      simp only [Run.loop]
      rcases List.mem_cons.1 hf with rfl | hrest
      · exact FeatureReported_left _ (RunFeature_reported registry runPolicy hok feature w hne)
      · exact FeatureReported_right _ (ih _ feature hrest hne)
  intro feature hf hne
  simp only [Run, hok, if_true]
  apply FeatureReported_left
  apply FeatureReported_left
  apply FeatureReported_right
  exact hloop _ feature hf hne

end cucumber_cpp.engine.TestRunner

/-! ## The context stack after rules, features and a run -/

namespace cucumber_cpp.engine.TestRunner

theorem RunScenarios_contextManager (registry : HookRegistry) (runPolicy : RunPolicy)
    (scenarios : List ScenarioInfo) (w : World) :
    ∃ r, (RunScenarios registry runPolicy scenarios w).world.contextManager
      = w.contextManager.CurrentContext_SetExecutionStatus r := by
  refine ⟨if (RunScenarios.loop registry runPolicy scenarios true w).value then Result.passed
    else Result.failed, ?_⟩
  simp only [RunScenarios, RunScenarios_loop_contextManager]

theorem RunRules_contextManager (registry : HookRegistry) (runPolicy : RunPolicy)
    (rules : List RuleInfo) (w : World) :
    (RunRules registry runPolicy rules w).world.contextManager = w.contextManager := by
  induction rules generalizing w with
  | nil => rfl
  | cons rule rest ih =>
    obtain ⟨r, hr⟩ := RunScenarios_contextManager registry runPolicy rule.Scenarios
      (w.StartScope ScopeKind.rule)
    simp only [RunRules, ih, RunRules.body, World_EndScope_contextManager, hr,
      World_StartScope_contextManager]
    exact ContextManager.EndScope_Set_StartScope _ (by decide) _ _

theorem RunFeature_contextManager (registry : HookRegistry) (runPolicy : RunPolicy)
    (feature : FeatureInfo) (w : World) :
    (RunFeature registry runPolicy feature w).world.contextManager = w.contextManager := by
  unfold RunFeature
  split
  · rfl
  · simp only [World_EndScope_contextManager, RunPolicy_ExecuteHook_contextManager]
    split
    · obtain ⟨r, hr⟩ := RunScenarios_contextManager registry runPolicy feature.Scenarios
        (RunRules registry runPolicy feature.Rules
          (runPolicy.ExecuteHook registry HookType.beforeFeature feature.Tags
            (w.StartScope ScopeKind.feature)).world).world
      rw [hr, RunRules_contextManager, RunPolicy_ExecuteHook_contextManager,
        World_StartScope_contextManager]
      exact ContextManager.EndScope_Set_StartScope _ (by decide) _ _
    · simp

theorem Run_loop_contextManager (registry : HookRegistry) (runPolicy : RunPolicy)
    (features : List FeatureInfo) (w : World) :
    (Run.loop registry runPolicy features w).world.contextManager = w.contextManager := by
  induction features generalizing w with
  | nil => rfl
  | cons feature rest ih => simp only [Run.loop, ih, RunFeature_contextManager]

theorem Run_contextManager (registry : HookRegistry) (runPolicy : RunPolicy)
    (features : List FeatureInfo) (w : World) :
    (Run registry runPolicy features w).world.contextManager = w.contextManager := by
  simp only [Run, RunPolicy_ExecuteHook_contextManager]
  split
  · simp [Run_loop_contextManager]
  · simp

end cucumber_cpp.engine.TestRunner

/-! ## `featureStarts`, `Summary` and the shape of a hook call -/

namespace cucumber_cpp.engine.TestRunner

theorem featureStarts_append (xs ys : List Event) :
    featureStarts (xs ++ ys) = featureStarts xs ++ featureStarts ys := by
  induction xs with
  | nil => rfl
  | cons e es ih => cases e <;> simp [featureStarts, ih]

theorem featureStarts_eq_nil (es : List Event) (h : ∀ e ∈ es, e.isFeatureStart = false) :
    featureStarts es = [] := by
  induction es with
  | nil => rfl
  | cons e es ih =>
    have he := h e (List.mem_cons_self _ _)
    have ih' := ih (fun e' he' => h e' (List.mem_cons_of_mem _ he'))
    cases e <;> simp_all [featureStarts, Event.isFeatureStart]

theorem featureStarts_ExecuteHook (registry : HookRegistry) (runPolicy : RunPolicy)
    (hook : HookType) (tags : Tags) (w : World) :
    featureStarts (runPolicy.ExecuteHook registry hook tags w).events = [] :=
  featureStarts_eq_nil _ (fun e he =>
    isFeatureStart_of_fromHook hook e (RunPolicy_ExecuteHook_events _ _ _ _ _ e he))

theorem featureStarts_RunFeature (registry : HookRegistry) (runPolicy : RunPolicy)
    (feature : FeatureInfo) (w : World) :
    featureStarts (RunFeature registry runPolicy feature w).events
      = if feature.Rules.isEmpty && feature.Scenarios.isEmpty then [] else [feature] := by
  have hrules : ∀ w', featureStarts (RunRules registry runPolicy feature.Rules w').events
      = [] := fun w' =>
    featureStarts_eq_nil _ (fun e he =>
      isFeatureStart_of_ruleLevel e (RunRules_ruleLevel _ _ _ _ e he))
  have hscen : ∀ w', featureStarts (RunScenarios registry runPolicy feature.Scenarios w').events
      = [] := fun w' =>
    featureStarts_eq_nil _ (fun e he =>
      isFeatureStart_of_ruleLevel e
        (Event_ruleLevel_of_scenarioLevel (RunScenarios_scenarioLevel _ _ _ _ e he)))
  unfold RunFeature
  by_cases hempty : (feature.Rules.isEmpty && feature.Scenarios.isEmpty) = true
  · simp [hempty, featureStarts]
  · simp only [hempty, Bool.false_eq_true, if_false, featureStarts_append,
      featureStarts_ExecuteHook]
    by_cases hv : (runPolicy.ExecuteHook registry HookType.beforeFeature feature.Tags
        (w.StartScope ScopeKind.feature)).value = true
    · simp only [hv, if_true, hrules, hscen]
      simp [featureStarts]
    · simp only [hv, Bool.false_eq_true, if_false]
      simp [featureStarts]

theorem featureStarts_Run_loop (registry : HookRegistry) (runPolicy : RunPolicy)
    (features : List FeatureInfo) (w : World) :
    featureStarts (Run.loop registry runPolicy features w).events
      = features.filter (fun f => !(f.Rules.isEmpty && f.Scenarios.isEmpty)) := by
  induction features generalizing w with
  | nil => rfl
  | cons feature rest ih =>
    simp only [Run.loop, featureStarts_append, featureStarts_RunFeature, ih, List.filter_cons]
    by_cases hempty : (feature.Rules.isEmpty && feature.Scenarios.isEmpty) = true
    · simp [hempty]
    · simp [hempty]

/-- A hook call on the policy is recorded first; what follows is what the policy does to
serve it. -/
theorem RunPolicy_ExecuteHook_head (registry : HookRegistry) (runPolicy : RunPolicy)
    (hook : HookType) (tags : Tags) (w : World) :
    ∃ rest, (runPolicy.ExecuteHook registry hook tags w).events
        = Event.PolicyExecuteHook hook tags :: rest
      ∧ ∀ e ∈ rest, e.isExecution = true := by
  cases runPolicy
  · refine ⟨_, rfl, ?_⟩
    intro e he
    simp only [RunTestPolicy.ExecuteHook, List.mem_cons] at he
    rcases he with rfl | he
    · rfl
    · obtain ⟨m, rfl⟩ := RunTestPolicy_ExecuteHook_loop_events _ _ e he
      rfl
  · exact ⟨[], rfl, by simp⟩

theorem isSummary_of_featureLevel (e : Event) (h : e.featureLevel = true) :
    e.isSummary = false := by
  cases e <;> simp_all [Event.featureLevel, Event.isSummary]

theorem isSummary_of_fromHook (hook : HookType) (e : Event) (h : e.fromHook hook = true) :
    e.isSummary = false := by
  cases e <;> simp_all [Event.fromHook, Event.isSummary]

theorem isReport_of_isExecution (e : Event) (h : e.isExecution = true) :
    e.isReport = false := by
  cases e <;> simp_all [Event.isExecution, Event.isReport]

end cucumber_cpp.engine.TestRunner

/-! ## Calls on the policy -/

namespace cucumber_cpp.engine.TestRunner

theorem policyCalls_append (xs ys : List Event) :
    policyCalls (xs ++ ys) = policyCalls xs ++ policyCalls ys := by
  simp [policyCalls]

theorem policyCalls_ExecuteHook (registry : HookRegistry) (runPolicy : RunPolicy)
    (hook : HookType) (tags : Tags) (w : World) :
    policyCalls (runPolicy.ExecuteHook registry hook tags w).events
      = [Event.PolicyExecuteHook hook tags] := by
  obtain ⟨rest, hrest, hexec⟩ := RunPolicy_ExecuteHook_head registry runPolicy hook tags w
  have hnil : rest.filter Event.isPolicyCall = [] := by
    simp only [List.filter_eq_nil_iff]
    intro e he
    have := hexec e he
    cases e <;> simp_all [Event.isExecution, Event.isPolicyCall]
  rw [hrest]
  simp [policyCalls, Event.isPolicyCall, hnil]

theorem policyCalls_ExecuteStep (runPolicy : RunPolicy) (stepInfo : StepInfo)
    (stepMatch : StepMatch) (w : World) :
    policyCalls (runPolicy.ExecuteStep stepInfo stepMatch w).events
      = [Event.PolicyExecuteStep stepInfo stepMatch] := by
  cases runPolicy <;>
    simp [RunPolicy.ExecuteStep, RunTestPolicy.ExecuteStep, DryRunPolicy.ExecuteStep,
      policyCalls, Event.isPolicyCall]

end cucumber_cpp.engine.TestRunner

/-! ## What the collector holds and what is reported from it -/

namespace cucumber_cpp.engine.TestRunner

theorem RunTestPolicy_ExecuteHook_loop_errors (ms : List HookMatch) (w : World)
    (es : List TestPartResult) (h : w.errors = some es) :
    ∃ es', (RunTestPolicy.ExecuteHook.loop ms w).world.errors = some es' := by
  induction ms generalizing w es with
  | nil => exact ⟨es, h⟩
  | cons m ms ih =>
    unfold RunTestPolicy.ExecuteHook.loop
    split
    · exact ⟨es ++ m.body.failures, by simp [World.perform, h]⟩
    · exact ih (w.perform m.body) (es ++ m.body.failures) (by simp [World.perform, h])

theorem RunPolicy_ExecuteHook_errors (registry : HookRegistry) (runPolicy : RunPolicy)
    (hook : HookType) (tags : Tags) (w : World) (es : List TestPartResult)
    (h : w.errors = some es) :
    ∃ es', (runPolicy.ExecuteHook registry hook tags w).world.errors = some es' := by
  cases runPolicy
  · exact RunTestPolicy_ExecuteHook_loop_errors _ w es h
  · exact ⟨es, h⟩

theorem RunPolicy_ExecuteStep_errors (runPolicy : RunPolicy) (stepInfo : StepInfo)
    (stepMatch : StepMatch) (w : World) (es : List TestPartResult) (h : w.errors = some es) :
    ∃ es', (runPolicy.ExecuteStep stepInfo stepMatch w).world.errors = some es' := by
  cases runPolicy
  · exact ⟨es ++ stepMatch.body.failures, by
      simp [RunPolicy.ExecuteStep, RunTestPolicy.ExecuteStep, World.perform, h]⟩
  · exact ⟨es, h⟩

theorem ExecuteStep_visit_errors (registry : HookRegistry) (runPolicy : RunPolicy)
    (scenario : ScenarioInfo) (step : StepInfo) (w : World) (es : List TestPartResult)
    (h : w.errors = some es) :
    ∃ es', (ExecuteStep_visit registry runPolicy scenario step w).world.errors = some es' := by
  unfold ExecuteStep_visit
  split
  · exact ⟨es, h⟩
  · simp only [ExecuteStep_StepMatch]
    obtain ⟨e1, h1⟩ := RunPolicy_ExecuteHook_errors registry runPolicy HookType.beforeStep
      scenario.Tags w es h
    split
    · obtain ⟨e2, h2⟩ := RunPolicy_ExecuteStep_errors runPolicy step _ _ e1 h1
      exact RunPolicy_ExecuteHook_errors registry runPolicy _ _ _ e2 h2
    · exact RunPolicy_ExecuteHook_errors registry runPolicy _ _ _ e1 h1
  · exact ⟨es, h⟩

theorem ExecuteStep_errors (registry : HookRegistry) (runPolicy : RunPolicy)
    (scenario : ScenarioInfo) (step : StepInfo) (w : World) :
    (ExecuteStep registry runPolicy scenario step w).world.errors
      = (ExecuteStep_visit registry runPolicy scenario step w).world.errors := by
  simp only [ExecuteStep]
  split <;> rfl

/-- While the collector is registered, `errors` is a list: the one `collected` names. -/
theorem stepExecuted_errors (registry : HookRegistry) (runPolicy : RunPolicy)
    (scenario : ScenarioInfo) (step : StepInfo) (w : World) :
    (stepExecuted registry runPolicy scenario step w).errors
      = some (collected registry runPolicy scenario step w) := by
  obtain ⟨es, hes⟩ := ExecuteStep_visit_errors registry runPolicy scenario step
    (startShims (stepEntered w)) [] rfl
  simp [collected, stepExecuted, ExecuteStep_errors, hes]

theorem HasFailures_stepExecuted (registry : HookRegistry) (runPolicy : RunPolicy)
    (scenario : ScenarioInfo) (step : StepInfo) (w : World) :
    HasFailures (stepExecuted registry runPolicy scenario step w)
      = !(collected registry runPolicy scenario step w).isEmpty := by
  simp [HasFailures, stepExecuted_errors]

theorem isReport_of_fromHook (hook : HookType) (e : Event) (h : e.fromHook hook = true) :
    e.isReport = false := by
  cases e <;> simp_all [Event.fromHook, Event.isReport]

/-- The dispatched overload reports nothing. -/
theorem ExecuteStep_visit_isReport (registry : HookRegistry) (runPolicy : RunPolicy)
    (scenario : ScenarioInfo) (stepInfo : StepInfo) (w : World) :
    ∀ e ∈ (ExecuteStep_visit registry runPolicy scenario stepInfo w).events,
      e.isReport = false := by
  intro e he
  unfold ExecuteStep_visit at he
  split at he
  · simp [ExecuteStep_monostate] at he
  · simp only [ExecuteStep_StepMatch, List.mem_append] at he
    rcases he with (he | he) | he
    · exact isReport_of_fromHook _ e (RunPolicy_ExecuteHook_events _ _ _ _ _ e he)
    · split at he
      · cases runPolicy <;>
          simp [RunPolicy.ExecuteStep, RunTestPolicy.ExecuteStep, DryRunPolicy.ExecuteStep]
            at he <;> rcases he with rfl | rfl <;> rfl
      · simp at he
    · exact isReport_of_fromHook _ e (RunPolicy_ExecuteHook_events _ _ _ _ _ e he)
  · simp [ExecuteStep_vector] at he

/-- The events of `WrapExecuteStep` for a step attempted from `w`, with the state the
dispatcher returned in named. -/
theorem WrapExecuteStep_events (registry : HookRegistry) (runPolicy : RunPolicy)
    (scenario : ScenarioInfo) (step : StepInfo) (w : World) :
    (WrapExecuteStep registry runPolicy scenario step (stepEntered w)).events
      = [Event.CollectorStart, Event.CaptureStart]
        ++ (ExecuteStep_visit registry runPolicy scenario step (startShims (stepEntered w))).events
        ++ [Event.CaptureStop]
        ++ traceCaptured (stepExecuted registry runPolicy scenario step w).capturedStdout
        ++ traceCaptured (stepExecuted registry runPolicy scenario step w).capturedStderr
        ++ [Event.CollectorStop]
        ++ (collected registry runPolicy scenario step w).map
            (fun error => Event.Failure error.message error.file_name error.line_number) := by
  have herr := stepExecuted_errors registry runPolicy scenario step w
  simp only [stepExecuted] at herr
  simp only [WrapExecuteStep, ExecuteStep_events, stepExecuted]
  split <;> simp [StepResult, herr, reportFailures]

/-- The outcome `StepEnd` carries: `failed` when the collector holds something, what the
dispatcher recorded otherwise (lines 221-222). -/
theorem stepOutcome_eq (registry : HookRegistry) (runPolicy : RunPolicy)
    (scenario : ScenarioInfo) (step : StepInfo) (w : World) :
    stepOutcome registry runPolicy scenario step w
      = if (collected registry runPolicy scenario step w).isEmpty
        then (stepExecuted registry runPolicy scenario step
          w).contextManager.StepContext_ExecutionStatus
        else Result.failed := by
  have hf := HasFailures_stepExecuted registry runPolicy scenario step w
  obtain ⟨r, hr⟩ : ∃ cm' r, (stepExecuted registry runPolicy scenario step w).contextManager
      = ContextManager.withStep r cm' := by
    have := ExecuteStep_contextManager registry runPolicy scenario step
      (startShims (stepEntered w))
    simp only [stepExecuted]
    rw [this]
    simp only [startShims_contextManager, stepEntered_contextManager]
    rcases (ExecuteStep_visit registry runPolicy scenario step
      (startShims (stepEntered w))).value with _ | c
    · exact ⟨_, _, rfl⟩
    · cases c <;> exact ⟨_, _, ContextManager.SetStep_withStep _ _ _⟩
  obtain ⟨r', hr'⟩ := hr
  simp only [stepExecuted] at hf hr'
  simp only [stepOutcome, WrapExecuteStep, stepExecuted, hf]
  by_cases hc : (collected registry runPolicy scenario step w).isEmpty = true
  · simp [hc]
  · simp [hc, hr', ContextManager.SetStep_withStep]

end cucumber_cpp.engine.TestRunner

/-! ## The live policy with hooks that succeed -/

namespace cucumber_cpp.engine.TestRunner

theorem RunTestPolicy_ExecuteHook_loop_succeed (ms : List HookMatch) (w : World)
    (h : ∀ m ∈ ms, m.body.thrown = none ∧ m.body.failures = []) :
    (RunTestPolicy.ExecuteHook.loop ms w).value = true
      ∧ (RunTestPolicy.ExecuteHook.loop ms w).world.errors = w.errors := by
  induction ms generalizing w with
  | nil => exact ⟨rfl, rfl⟩
  | cons m ms ih =>
    obtain ⟨hthrown, hfail⟩ := h m (List.mem_cons_self _ _)
    obtain ⟨h1, h2⟩ := ih (w.perform m.body) (fun m' hm' => h m' (List.mem_cons_of_mem _ hm'))
    have hperform : (w.perform m.body).errors = w.errors := by
      cases he : w.errors <;> simp [World.perform, he, hfail]
    unfold RunTestPolicy.ExecuteHook.loop
    simp only [hthrown]
    exact ⟨h1, h2.trans hperform⟩

/-- Under the live policy, hooks that succeed make every hook call return `true` and leave
the collector as it was. -/
theorem live_ExecuteHook_succeed (registry : HookRegistry) (hreg : hooksSucceed registry)
    (hook : HookType) (tags : Tags) (w : World) :
    (RunPolicy.ExecuteHook registry RunPolicy.RunTestPolicy hook tags w).value = true
      ∧ (RunPolicy.ExecuteHook registry RunPolicy.RunTestPolicy hook tags w).world.errors
        = w.errors :=
  RunTestPolicy_ExecuteHook_loop_succeed (registry hook tags) w (hreg hook tags)

/-- Under the live policy with hooks that succeed, the `StepMatch` overload raises what the
step body raises and the collector gains the test part results of the step body. -/
theorem live_visit_succeed (registry : HookRegistry) (hreg : hooksSucceed registry)
    (scenario : ScenarioInfo) (step : StepInfo) (stepMatch : StepMatch) (w : World)
    (hm : step.StepMatch = StepMatchVariant.single stepMatch) :
    (ExecuteStep_visit registry RunPolicy.RunTestPolicy scenario step w).value
        = stepMatch.body.thrown
      ∧ (ExecuteStep_visit registry RunPolicy.RunTestPolicy scenario step w).world.errors
        = w.errors.map (fun es => es ++ stepMatch.body.failures) := by
  have hb := live_ExecuteHook_succeed registry hreg HookType.beforeStep scenario.Tags w
  simp only [ExecuteStep_visit, hm, ExecuteStep_StepMatch, hb.1, if_true]
  refine ⟨rfl, ?_⟩
  rw [(live_ExecuteHook_succeed registry hreg HookType.afterStep scenario.Tags _).2]
  simp [RunPolicy.ExecuteStep, RunTestPolicy.ExecuteStep, World.perform, hb.2]

theorem live_collected_succeed (registry : HookRegistry) (hreg : hooksSucceed registry)
    (scenario : ScenarioInfo) (step : StepInfo) (stepMatch : StepMatch) (w : World)
    (hm : step.StepMatch = StepMatchVariant.single stepMatch) :
    collected registry RunPolicy.RunTestPolicy scenario step w = stepMatch.body.failures := by
  simp [collected, stepExecuted, ExecuteStep_errors,
    (live_visit_succeed registry hreg scenario step stepMatch _ hm).2, startShims]

end cucumber_cpp.engine.TestRunner

/-! ## What the capture holds and what is traced from it -/

namespace cucumber_cpp.engine.TestRunner

theorem World_perform_streams (b : Body) (w : World) (o e : String)
    (ho : w.capturedStdout = some o) (he : w.capturedStderr = some e) :
    (w.perform b).capturedStdout = some (o ++ b.out)
      ∧ (w.perform b).capturedStderr = some (e ++ b.err) := by
  simp [World.perform, ho, he]

theorem RunTestPolicy_ExecuteHook_loop_streams (ms : List HookMatch) (w : World)
    (h : ∃ o e, w.capturedStdout = some o ∧ w.capturedStderr = some e) :
    ∃ o e, (RunTestPolicy.ExecuteHook.loop ms w).world.capturedStdout = some o
      ∧ (RunTestPolicy.ExecuteHook.loop ms w).world.capturedStderr = some e := by
  induction ms generalizing w with
  | nil => exact h
  | cons m ms ih =>
    obtain ⟨o, e, ho, he⟩ := h
    have hp := World_perform_streams m.body w o e ho he
    unfold RunTestPolicy.ExecuteHook.loop
    split
    · exact ⟨_, _, hp.1, hp.2⟩
    · exact ih _ ⟨_, _, hp.1, hp.2⟩

theorem RunPolicy_ExecuteHook_streams (registry : HookRegistry) (runPolicy : RunPolicy)
    (hook : HookType) (tags : Tags) (w : World)
    (h : ∃ o e, w.capturedStdout = some o ∧ w.capturedStderr = some e) :
    ∃ o e, (runPolicy.ExecuteHook registry hook tags w).world.capturedStdout = some o
      ∧ (runPolicy.ExecuteHook registry hook tags w).world.capturedStderr = some e := by
  cases runPolicy
  · exact RunTestPolicy_ExecuteHook_loop_streams _ w h
  · exact h

theorem RunPolicy_ExecuteStep_streams (runPolicy : RunPolicy) (stepInfo : StepInfo)
    (stepMatch : StepMatch) (w : World)
    (h : ∃ o e, w.capturedStdout = some o ∧ w.capturedStderr = some e) :
    ∃ o e, (runPolicy.ExecuteStep stepInfo stepMatch w).world.capturedStdout = some o
      ∧ (runPolicy.ExecuteStep stepInfo stepMatch w).world.capturedStderr = some e := by
  cases runPolicy
  · obtain ⟨o, e, ho, he⟩ := h
    have hp := World_perform_streams stepMatch.body w o e ho he
    exact ⟨_, _, hp.1, hp.2⟩
  · exact h

theorem ExecuteStep_visit_streams (registry : HookRegistry) (runPolicy : RunPolicy)
    (scenario : ScenarioInfo) (step : StepInfo) (w : World)
    (h : ∃ o e, w.capturedStdout = some o ∧ w.capturedStderr = some e) :
    ∃ o e, (ExecuteStep_visit registry runPolicy scenario step w).world.capturedStdout = some o
      ∧ (ExecuteStep_visit registry runPolicy scenario step w).world.capturedStderr
        = some e := by
  unfold ExecuteStep_visit
  split
  · exact h
  · simp only [ExecuteStep_StepMatch]
    have h1 := RunPolicy_ExecuteHook_streams registry runPolicy HookType.beforeStep
      scenario.Tags w h
    split
    · exact RunPolicy_ExecuteHook_streams registry runPolicy _ _ _
        (RunPolicy_ExecuteStep_streams runPolicy step _ _ h1)
    · exact RunPolicy_ExecuteHook_streams registry runPolicy _ _ _ h1
  · exact h

theorem ExecuteStep_streams (registry : HookRegistry) (runPolicy : RunPolicy)
    (scenario : ScenarioInfo) (step : StepInfo) (w : World) :
    (ExecuteStep registry runPolicy scenario step w).world.capturedStdout
        = (ExecuteStep_visit registry runPolicy scenario step w).world.capturedStdout
      ∧ (ExecuteStep registry runPolicy scenario step w).world.capturedStderr
        = (ExecuteStep_visit registry runPolicy scenario step w).world.capturedStderr := by
  simp only [ExecuteStep]
  split <;> exact ⟨rfl, rfl⟩

/-- While the capture is active the two buffers are texts: those `capturedOut` and
`capturedErr` name. -/
theorem stepExecuted_streams (registry : HookRegistry) (runPolicy : RunPolicy)
    (scenario : ScenarioInfo) (step : StepInfo) (w : World) :
    (stepExecuted registry runPolicy scenario step w).capturedStdout
        = some (capturedOut registry runPolicy scenario step w)
      ∧ (stepExecuted registry runPolicy scenario step w).capturedStderr
        = some (capturedErr registry runPolicy scenario step w) := by
  obtain ⟨o, e, ho, he⟩ := ExecuteStep_visit_streams registry runPolicy scenario step
    (startShims (stepEntered w)) ⟨"", "", rfl, rfl⟩
  have hs := ExecuteStep_streams registry runPolicy scenario step (startShims (stepEntered w))
  simp [capturedOut, capturedErr, stepExecuted, hs.1, hs.2, ho, he]

/-- `Rtrim` leaves nothing of a text made of whitespace only. -/
theorem Rtrim_of_whitespace (str : String) (h : ∀ c ∈ str.data, c.isWhitespace = true) :
    Rtrim str = "" := by
  have hdrop : str.data.reverse.dropWhile Char.isWhitespace = [] := by
    rw [List.dropWhile_eq_nil_iff]
    intro c hc
    exact h c (List.mem_reverse.1 hc)
  simp [Rtrim, hdrop]

/-- Under the live policy, when no hook is registered for the two step lifecycle points, the
`StepMatch` overload leaves the state the step body leaves. -/
theorem live_visit_noStepHooks (registry : HookRegistry) (scenario : ScenarioInfo)
    (step : StepInfo) (stepMatch : StepMatch) (w : World)
    (hm : step.StepMatch = StepMatchVariant.single stepMatch)
    (hb : registry HookType.beforeStep scenario.Tags = [])
    (ha : registry HookType.afterStep scenario.Tags = []) :
    (ExecuteStep_visit registry RunPolicy.RunTestPolicy scenario step w).world
        = w.perform stepMatch.body
      ∧ (ExecuteStep_visit registry RunPolicy.RunTestPolicy scenario step w).value
        = stepMatch.body.thrown := by
  simp [ExecuteStep_visit, hm, ExecuteStep_StepMatch, RunPolicy.ExecuteHook,
    RunTestPolicy.ExecuteHook, hb, ha, RunTestPolicy.ExecuteHook.loop, RunPolicy.ExecuteStep,
    RunTestPolicy.ExecuteStep]

end cucumber_cpp.engine.TestRunner

/-! ### The outline of a scenario list under the live policy -/

namespace cucumber_cpp.engine.TestRunner

theorem outline_append (xs ys : List Event) : outline (xs ++ ys) = outline xs ++ outline ys := by
  simp [outline]

theorem outline_eq_nil (es : List Event) (h : ∀ e ∈ es, e.isOutline = false) :
    outline es = [] := by
  simp only [outline, List.filter_eq_nil_iff]
  intro e he
  simp [h e he]

theorem outline_ExecuteHook (registry : HookRegistry) (runPolicy : RunPolicy)
    (hook : HookType) (tags : Tags) (w : World) :
    outline (runPolicy.ExecuteHook registry hook tags w).events = [] := by
  apply outline_eq_nil
  intro e he
  have := RunPolicy_ExecuteHook_events registry runPolicy hook tags w e he
  cases e <;> simp_all [Event.fromHook, Event.isOutline]

theorem outline_WrapExecuteStep (registry : HookRegistry) (runPolicy : RunPolicy)
    (scenario : ScenarioInfo) (step : StepInfo) (w : World) :
    outline (WrapExecuteStep registry runPolicy scenario step w).events = [] := by
  apply outline_eq_nil
  intro e he
  have := WrapExecuteStep_wrapLevel registry runPolicy scenario step w e he
  cases e <;> simp_all [Event.wrapLevel, Event.isOutline]

/-- An attempted step shows in the outline as its `StepEnd`. -/
theorem outline_ManageExecuteStep_attempted (registry : HookRegistry) (runPolicy : RunPolicy)
    (scenario : ScenarioInfo) (step : StepInfo) (w : World)
    (h : w.contextManager.CurrentContext_ExecutionStatus = Result.passed) :
    outline (ManageExecuteStep registry runPolicy scenario step w).events
      = [Event.StepEnd (stepOutcome registry runPolicy scenario step w) step] := by
  rw [(ManageExecuteStep_attempted registry runPolicy scenario step w h).1]
  simp only [outline_append, outline_WrapExecuteStep]
  simp [outline, Event.isOutline]

theorem outline_skippedEvents (steps : List StepInfo) :
    outline (steps.flatMap skippedEvents) = steps.map Event.StepSkipped := by
  induction steps with
  | nil => rfl
  | cons s rest ih =>
    rw [List.flatMap_cons, outline_append, ih]
    simp [outline, skippedEvents, Event.isOutline]

/-- Under the live policy with hooks that succeed, a single-match step whose body neither
raises nor reports a failure ends `passed`. -/
theorem live_stepOutcome_passed (registry : HookRegistry) (hreg : hooksSucceed registry)
    (scenario : ScenarioInfo) (step : StepInfo) (stepMatch : StepMatch) (w : World)
    (hm : step.StepMatch = StepMatchVariant.single stepMatch)
    (hthrown : stepMatch.body.thrown = none) (hfail : stepMatch.body.failures = []) :
    stepOutcome registry RunPolicy.RunTestPolicy scenario step w = Result.passed := by
  rw [stepOutcome_eq, live_collected_succeed registry hreg scenario step stepMatch w hm, hfail]
  simp only [List.isEmpty_nil, if_true, stepExecuted]
  rw [ExecuteStep_contextManager,
    (live_visit_succeed registry hreg scenario step stepMatch _ hm).1, hthrown]
  simp [ContextManager.StartScope_step]

/-- Under the live policy with hooks that succeed, a single-match step whose body raises a
`std::exception` or something that is not one ends `failed`. -/
theorem live_stepOutcome_failed (registry : HookRegistry) (hreg : hooksSucceed registry)
    (scenario : ScenarioInfo) (step : StepInfo) (stepMatch : StepMatch) (w : World)
    (hm : step.StepMatch = StepMatchVariant.single stepMatch)
    (hthrown : stepMatch.body.thrown = some Raised.stdException
      ∨ stepMatch.body.thrown = some Raised.other) :
    stepOutcome registry RunPolicy.RunTestPolicy scenario step w = Result.failed := by
  rw [stepOutcome_eq]
  split
  · simp only [stepExecuted]
    rw [ExecuteStep_contextManager,
      (live_visit_succeed registry hreg scenario step stepMatch _ hm).1]
    rcases hthrown with h | h <;> rw [h] <;>
      simp [ContextManager.StartScope_step, ContextManager.SetStep_withStep]
  · rfl

end cucumber_cpp.engine.TestRunner

namespace cucumber_cpp.engine.TestRunner

/-- Steps whose bodies succeed, managed from a state whose current record is `passed`, are all
attempted and end `passed`; the context stack is left as it was. -/
theorem live_ExecuteSteps_loop_passing (registry : HookRegistry) (hreg : hooksSucceed registry)
    (scenario : ScenarioInfo) (steps : List StepInfo) (w : World)
    (hcur : w.contextManager.CurrentContext_ExecutionStatus = Result.passed)
    (hsteps : ∀ s ∈ steps, ∃ m, s.StepMatch = StepMatchVariant.single m
      ∧ m.body.thrown = none ∧ m.body.failures = []) :
    outline (ExecuteSteps.loop registry RunPolicy.RunTestPolicy scenario steps w).events
        = steps.map (Event.StepEnd Result.passed)
      ∧ (ExecuteSteps.loop registry RunPolicy.RunTestPolicy scenario steps
          w).world.contextManager = w.contextManager := by
  induction steps generalizing w with
  | nil => exact ⟨rfl, rfl⟩
  | cons s rest ih =>
    obtain ⟨m, hm, hthrown, hfail⟩ := hsteps s (List.mem_cons_self _ _)
    have hout := live_stepOutcome_passed registry hreg scenario s m w hm hthrown hfail
    have hworld := (ManageExecuteStep_attempted registry RunPolicy.RunTestPolicy scenario s w
      hcur).2
    have hcm : (ManageExecuteStep registry RunPolicy.RunTestPolicy scenario s
        w).world.contextManager = w.contextManager := by
      rw [hworld, hout]; simp
    obtain ⟨hev, hw⟩ := ih (ManageExecuteStep registry RunPolicy.RunTestPolicy scenario s w).world
      (by rw [hcm]; exact hcur) (fun s' hs' => hsteps s' (List.mem_cons_of_mem _ hs'))
    constructor
    · simp only [ExecuteSteps.loop, outline_append, hev,
        outline_ManageExecuteStep_attempted registry _ scenario s w hcur, hout]
      rfl
    · simp only [ExecuteSteps.loop]
      rw [hw, hcm]

/-- A step whose body raises, managed from a state whose current record is `passed`, ends
`failed`, and the steps after it are skipped; the current record is left `failed`. -/
theorem live_ExecuteSteps_loop_failing (registry : HookRegistry) (hreg : hooksSucceed registry)
    (scenario : ScenarioInfo) (step : StepInfo) (stepMatch : StepMatch) (later : List StepInfo)
    (w : World) (hcur : w.contextManager.CurrentContext_ExecutionStatus = Result.passed)
    (hm : step.StepMatch = StepMatchVariant.single stepMatch)
    (hthrown : stepMatch.body.thrown = some Raised.stdException
      ∨ stepMatch.body.thrown = some Raised.other) :
    outline (ExecuteSteps.loop registry RunPolicy.RunTestPolicy scenario (step :: later)
          w).events
        = Event.StepEnd Result.failed step :: later.map Event.StepSkipped
      ∧ (ExecuteSteps.loop registry RunPolicy.RunTestPolicy scenario (step :: later)
          w).world.contextManager
        = w.contextManager.CurrentContext_SetExecutionStatus Result.failed := by
  have hout := live_stepOutcome_failed registry hreg scenario step stepMatch w hm hthrown
  have hworld := (ManageExecuteStep_attempted registry RunPolicy.RunTestPolicy scenario step w
    hcur).2
  have hcm : (ManageExecuteStep registry RunPolicy.RunTestPolicy scenario step
      w).world.contextManager
      = w.contextManager.CurrentContext_SetExecutionStatus Result.failed := by
    rw [hworld, hout]; simp
  have hskip := ExecuteSteps_loop_skipped registry RunPolicy.RunTestPolicy scenario later
    (ManageExecuteStep registry RunPolicy.RunTestPolicy scenario step w).world
    (by rw [hcm]; simp)
  constructor
  · simp only [ExecuteSteps.loop, outline_append, hskip, outline_skippedEvents,
      outline_ManageExecuteStep_attempted registry _ scenario step w hcur, hout]
    rfl
  · simp only [ExecuteSteps.loop, hskip]
    exact hcm

/-- The outline of one scenario: its start, the outline of its steps when the `before` hook
call succeeds, its end. -/
theorem outline_RunScenarios_body (registry : HookRegistry) (runPolicy : RunPolicy)
    (scenario : ScenarioInfo) (w : World) :
    ∃ tail, outline (RunScenarios.body registry runPolicy scenario w).events
      = Event.ScenarioStart scenario :: tail := by
  refine ⟨outline ((RunScenarios.body registry runPolicy scenario w).events.drop 2), ?_⟩
  simp [RunScenarios.body, outline, Event.isOutline]

/-- The outline of a scenario of which a step raises after steps that succeed. -/
theorem live_RunScenarios_body_failing (registry : HookRegistry) (hreg : hooksSucceed registry)
    (scenario : ScenarioInfo) (pre post : List StepInfo) (step : StepInfo)
    (stepMatch : StepMatch) (w : World)
    (hchildren : scenario.Children = pre ++ step :: post)
    (hpre : ∀ s ∈ pre, ∃ m, s.StepMatch = StepMatchVariant.single m
      ∧ m.body.thrown = none ∧ m.body.failures = [])
    (hm : step.StepMatch = StepMatchVariant.single stepMatch)
    (hthrown : stepMatch.body.thrown = some Raised.stdException
      ∨ stepMatch.body.thrown = some Raised.other) :
    outline (RunScenarios.body registry RunPolicy.RunTestPolicy scenario w).events
      = [Event.ScenarioStart scenario] ++ pre.map (Event.StepEnd Result.passed)
        ++ [Event.StepEnd Result.failed step] ++ post.map Event.StepSkipped
        ++ [Event.ScenarioEnd Result.failed scenario] := by
  have hbefore := (live_ExecuteHook_succeed registry hreg HookType.before scenario.Tags
    (w.StartScope ScopeKind.scenario)).1
  have hcur : ((RunPolicy.ExecuteHook registry RunPolicy.RunTestPolicy HookType.before
      scenario.Tags (w.StartScope
        ScopeKind.scenario)).world.contextManager).CurrentContext_ExecutionStatus
      = Result.passed := by
    simp [ContextManager.Current_StartScope]
  obtain ⟨hev1, hw1⟩ := live_ExecuteSteps_loop_passing registry hreg scenario pre _ hcur hpre
  obtain ⟨hev2, hw2⟩ := live_ExecuteSteps_loop_failing registry hreg scenario step stepMatch
    post (ExecuteSteps.loop registry RunPolicy.RunTestPolicy scenario pre
      (RunPolicy.ExecuteHook registry RunPolicy.RunTestPolicy HookType.before
        scenario.Tags (w.StartScope ScopeKind.scenario)).world).world
    (by rw [hw1]; exact hcur) hm hthrown
  obtain ⟨happ, hwapp⟩ := ExecuteSteps_loop_append registry RunPolicy.RunTestPolicy scenario pre
    (step :: post) (RunPolicy.ExecuteHook registry RunPolicy.RunTestPolicy HookType.before
      scenario.Tags (w.StartScope ScopeKind.scenario)).world
  simp only [RunScenarios.body, hbefore, if_true, ExecuteSteps, hchildren, outline_append,
    outline_ExecuteHook, happ, hev1, hev2, RunPolicy_ExecuteHook_contextManager, hwapp, hw2,
    ContextManager.Current_Set]
  simp [outline, Event.isOutline]

end cucumber_cpp.engine.TestRunner

/-! ### The first step of a scenario -/

namespace cucumber_cpp.engine.TestRunner

theorem reportEvents_append (xs ys : List Event) :
    reportEvents (xs ++ ys) = reportEvents xs ++ reportEvents ys := by
  simp [reportEvents]

theorem reportEvents_eq_nil (es : List Event) (h : ∀ e ∈ es, e.isReport = false) :
    reportEvents es = [] := by
  simp only [reportEvents, List.filter_eq_nil_iff]
  intro e he
  simp [h e he]

theorem reportEvents_ExecuteHook (registry : HookRegistry) (runPolicy : RunPolicy)
    (hook : HookType) (tags : Tags) (w : World) :
    reportEvents (runPolicy.ExecuteHook registry hook tags w).events = [] :=
  reportEvents_eq_nil _ (fun e he =>
    isReport_of_fromHook hook e (RunPolicy_ExecuteHook_events registry runPolicy hook tags w e he))

theorem mem_reportEvents {e : Event} {es : List Event} (h : e ∈ reportEvents es) : e ∈ es :=
  (List.mem_filter.1 h).1

/-- The reports of an attempted step begin with its `StepStart`. -/
theorem reportEvents_ManageExecuteStep_attempted (registry : HookRegistry)
    (runPolicy : RunPolicy) (scenario : ScenarioInfo) (step : StepInfo) (w : World)
    (h : w.contextManager.CurrentContext_ExecutionStatus = Result.passed) :
    reportEvents (ManageExecuteStep registry runPolicy scenario step w).events
      = Event.StepStart step
        :: (reportEvents (WrapExecuteStep registry runPolicy scenario step (stepEntered w)).events
          ++ [Event.StepEnd (stepOutcome registry runPolicy scenario step w) step]) := by
  rw [(ManageExecuteStep_attempted registry runPolicy scenario step w h).1]
  simp [reportEvents, Event.isReport]

/-- The reports of one scenario whose `before` hook call succeeds: `ScenarioStart`, the reports
of its steps, `ScenarioEnd`. -/
theorem reportEvents_RunScenarios_body (registry : HookRegistry) (runPolicy : RunPolicy)
    (scenario : ScenarioInfo) (w : World)
    (hbefore : (runPolicy.ExecuteHook registry HookType.before scenario.Tags
      (w.StartScope ScopeKind.scenario)).value = true) :
    ∃ r, reportEvents (RunScenarios.body registry runPolicy scenario w).events
      = Event.ScenarioStart scenario
        :: (reportEvents (ExecuteSteps.loop registry runPolicy scenario scenario.Children
            (runPolicy.ExecuteHook registry HookType.before scenario.Tags
              (w.StartScope ScopeKind.scenario)).world).events
          ++ [Event.ScenarioEnd r scenario]) := by
  refine ⟨(runPolicy.ExecuteHook registry HookType.after scenario.Tags
    (ExecuteSteps.loop registry runPolicy scenario scenario.Children
      (runPolicy.ExecuteHook registry HookType.before scenario.Tags
        (w.StartScope
          ScopeKind.scenario)).world).world).world.contextManager.CurrentContext_ExecutionStatus,
    ?_⟩
  simp only [RunScenarios.body, hbefore, if_true, ExecuteSteps, reportEvents_append,
    reportEvents_ExecuteHook]
  simp [reportEvents, Event.isReport]

end cucumber_cpp.engine.TestRunner

namespace cucumber_cpp.engine.TestRunner

theorem firstStepsAttempted_skip (xs ys : List Event)
    (h : ∀ e ∈ xs, e.isScenarioStart = false) :
    firstStepsAttempted (xs ++ ys) = firstStepsAttempted ys := by
  induction xs with
  | nil => rfl
  | cons e rest ih =>
    have hrest := ih (fun e' he' => h e' (List.mem_cons_of_mem _ he'))
    have he := h e (List.mem_cons_self _ _)
    cases e <;> simp_all [firstStepsAttempted, Event.isScenarioStart]

theorem SettledStarts_nil : SettledStarts [] := fun _ => rfl

theorem SettledStarts_append {xs ys : List Event} (hx : SettledStarts xs)
    (hy : SettledStarts ys) : SettledStarts (xs ++ ys) := by
  intro zs
  rw [reportEvents_append, List.append_assoc, hx, hy]

theorem SettledStarts_of_noStart (es : List Event) (h : ∀ e ∈ es, e.isScenarioStart = false) :
    SettledStarts es := by
  intro ys
  exact firstStepsAttempted_skip _ _ (fun e he => h e (mem_reportEvents he))

theorem SettledStarts_ExecuteHook (registry : HookRegistry) (runPolicy : RunPolicy)
    (hook : HookType) (tags : Tags) (w : World) :
    SettledStarts (runPolicy.ExecuteHook registry hook tags w).events :=
  SettledStarts_of_noStart _ (fun e he =>
    isScenarioStart_of_fromHook hook e
      (RunPolicy_ExecuteHook_events registry runPolicy hook tags w e he))

/-- One scenario whose `before` hook call succeeds: its `ScenarioStart` is followed by the
`StepStart` of its first step, if it has one. -/
theorem SettledStarts_RunScenarios_body (registry : HookRegistry) (runPolicy : RunPolicy)
    (scenario : ScenarioInfo) (w : World)
    (hbefore : (runPolicy.ExecuteHook registry HookType.before scenario.Tags
      (w.StartScope ScopeKind.scenario)).value = true) :
    SettledStarts (RunScenarios.body registry runPolicy scenario w).events := by
  obtain ⟨r, hR⟩ := reportEvents_RunScenarios_body registry runPolicy scenario w hbefore
  have hcur : ((runPolicy.ExecuteHook registry HookType.before scenario.Tags
      (w.StartScope ScopeKind.scenario)).world.contextManager).CurrentContext_ExecutionStatus
      = Result.passed := by
    simp [ContextManager.Current_StartScope]
  have hno : ∀ e ∈ reportEvents (ExecuteSteps.loop registry runPolicy scenario scenario.Children
      (runPolicy.ExecuteHook registry HookType.before scenario.Tags
        (w.StartScope ScopeKind.scenario)).world).events, e.isScenarioStart = false :=
    fun e he => isScenarioStart_of_stepLevel e
      (ExecuteSteps_loop_stepLevel registry runPolicy scenario _ _ e (mem_reportEvents he))
  have hstart : ∀ es, firstStepsAttempted (Event.ScenarioStart scenario :: es)
      = ((match scenario.Children with
          | [] => true
          | first :: _ => decide (es.head? = some (Event.StepStart first)))
        && firstStepsAttempted es) := fun _ => rfl
  intro ys
  rw [hR, List.cons_append, hstart, List.append_assoc, firstStepsAttempted_skip _ _ hno]
  simp only [List.singleton_append, firstStepsAttempted]
  cases hc : scenario.Children with
  | nil => simp
  | cons first rest =>
    simp only [ExecuteSteps.loop, reportEvents_append,
      reportEvents_ManageExecuteStep_attempted registry runPolicy scenario first _ hcur]
    simp

theorem SettledStarts_RunScenarios_loop (registry : HookRegistry) (runPolicy : RunPolicy)
    (hbefore : ∀ tags w, (runPolicy.ExecuteHook registry HookType.before tags w).value = true)
    (scenarios : List ScenarioInfo) (acc : Bool) (w : World) :
    SettledStarts (RunScenarios.loop registry runPolicy scenarios acc w).events := by
  induction scenarios generalizing acc w with
  | nil => exact SettledStarts_nil
  | cons scenario rest ih =>
    exact SettledStarts_append
      (SettledStarts_RunScenarios_body registry runPolicy scenario w (hbefore _ _)) (ih _ _)

theorem SettledStarts_RunScenarios (registry : HookRegistry) (runPolicy : RunPolicy)
    (hbefore : ∀ tags w, (runPolicy.ExecuteHook registry HookType.before tags w).value = true)
    (scenarios : List ScenarioInfo) (w : World) :
    SettledStarts (RunScenarios registry runPolicy scenarios w).events :=
  SettledStarts_RunScenarios_loop registry runPolicy hbefore scenarios true w

theorem SettledStarts_RunRules (registry : HookRegistry) (runPolicy : RunPolicy)
    (hbefore : ∀ tags w, (runPolicy.ExecuteHook registry HookType.before tags w).value = true)
    (rules : List RuleInfo) (w : World) :
    SettledStarts (RunRules registry runPolicy rules w).events := by
  induction rules generalizing w with
  | nil => exact SettledStarts_nil
  | cons rule rest ih =>
    refine SettledStarts_append ?_ (ih _)
    refine SettledStarts_append (SettledStarts_append ?_
      (SettledStarts_RunScenarios registry runPolicy hbefore _ _)) ?_
    · exact SettledStarts_of_noStart _ (by simp [Event.isScenarioStart])
    · exact SettledStarts_of_noStart _ (by simp [Event.isScenarioStart])

theorem SettledStarts_RunFeature (registry : HookRegistry) (runPolicy : RunPolicy)
    (hbefore : ∀ tags w, (runPolicy.ExecuteHook registry HookType.before tags w).value = true)
    (feature : FeatureInfo) (w : World) :
    SettledStarts (RunFeature registry runPolicy feature w).events := by
  unfold RunFeature
  split
  · exact SettledStarts_nil
  · refine SettledStarts_append (SettledStarts_append (SettledStarts_append (SettledStarts_append
      (SettledStarts_append ?_ (SettledStarts_ExecuteHook _ _ _ _ _)) ?_) ?_)
      (SettledStarts_ExecuteHook _ _ _ _ _)) ?_
    · exact SettledStarts_of_noStart _ (by simp [Event.isScenarioStart])
    · split
      · exact SettledStarts_RunRules registry runPolicy hbefore _ _
      · exact SettledStarts_nil
    · split
      · exact SettledStarts_RunScenarios registry runPolicy hbefore _ _
      · exact SettledStarts_nil
    · exact SettledStarts_of_noStart _ (by simp [Event.isScenarioStart])

theorem SettledStarts_Run_loop (registry : HookRegistry) (runPolicy : RunPolicy)
    (hbefore : ∀ tags w, (runPolicy.ExecuteHook registry HookType.before tags w).value = true)
    (features : List FeatureInfo) (w : World) :
    SettledStarts (Run.loop registry runPolicy features w).events := by
  induction features generalizing w with
  | nil => exact SettledStarts_nil
  | cons feature rest ih =>
    exact SettledStarts_append (SettledStarts_RunFeature registry runPolicy hbefore feature w)
      (ih _)

theorem SettledStarts_Run (registry : HookRegistry) (runPolicy : RunPolicy)
    (hbefore : ∀ tags w, (runPolicy.ExecuteHook registry HookType.before tags w).value = true)
    (features : List FeatureInfo) (w : World) :
    SettledStarts (Run registry runPolicy features w).events := by
  unfold Run
  refine SettledStarts_append (SettledStarts_append (SettledStarts_append
    (SettledStarts_ExecuteHook _ _ _ _ _) ?_) (SettledStarts_ExecuteHook _ _ _ _ _)) ?_
  · split
    · exact SettledStarts_Run_loop registry runPolicy hbefore _ _
    · exact SettledStarts_nil
  · exact SettledStarts_of_noStart _ (by simp [Event.isScenarioStart])

end cucumber_cpp.engine.TestRunner

namespace cucumber_cpp.engine.TestRunner

theorem AttemptedFirst_left {xs : List Event} (ys : List Event) {scenario : ScenarioInfo}
    {step : StepInfo} (h : AttemptedFirst xs scenario step) :
    AttemptedFirst (xs ++ ys) scenario step := by
  obtain ⟨pre, post, hxs⟩ := h
  exact ⟨pre, post ++ reportEvents ys, by rw [reportEvents_append, hxs]; simp⟩

theorem AttemptedFirst_right (xs : List Event) {ys : List Event} {scenario : ScenarioInfo}
    {step : StepInfo} (h : AttemptedFirst ys scenario step) :
    AttemptedFirst (xs ++ ys) scenario step := by
  obtain ⟨pre, post, hys⟩ := h
  exact ⟨reportEvents xs ++ pre, post, by rw [reportEvents_append, hys]; simp⟩

/-- A scenario whose `before` hook call succeeds reports the start of its first step right
after its own, from every state. -/
theorem AttemptedFirst_RunScenarios_body (registry : HookRegistry) (runPolicy : RunPolicy)
    (scenario : ScenarioInfo) (w : World) (first : StepInfo) (rest : List StepInfo)
    (hchildren : scenario.Children = first :: rest)
    (hbefore : (runPolicy.ExecuteHook registry HookType.before scenario.Tags
      (w.StartScope ScopeKind.scenario)).value = true) :
    AttemptedFirst (RunScenarios.body registry runPolicy scenario w).events scenario first := by
  obtain ⟨r, hR⟩ := reportEvents_RunScenarios_body registry runPolicy scenario w hbefore
  have hcur : ((runPolicy.ExecuteHook registry HookType.before scenario.Tags
      (w.StartScope ScopeKind.scenario)).world.contextManager).CurrentContext_ExecutionStatus
      = Result.passed := by
    simp [ContextManager.Current_StartScope]
  refine ⟨[], ((reportEvents (RunScenarios.body registry runPolicy scenario w).events).drop 2),
    ?_⟩
  rw [hR, hchildren]
  simp only [ExecuteSteps.loop, reportEvents_append,
    reportEvents_ManageExecuteStep_attempted registry runPolicy scenario first _ hcur]
  simp

theorem AttemptedFirst_RunScenarios_loop (registry : HookRegistry) (runPolicy : RunPolicy)
    (hbefore : ∀ tags w, (runPolicy.ExecuteHook registry HookType.before tags w).value = true)
    (scenarios : List ScenarioInfo) (acc : Bool) (w : World) (scenario : ScenarioInfo)
    (hmem : scenario ∈ scenarios) (first : StepInfo) (rest : List StepInfo)
    (hchildren : scenario.Children = first :: rest) :
    AttemptedFirst (RunScenarios.loop registry runPolicy scenarios acc w).events scenario
      first := by
  induction scenarios generalizing acc w with
  | nil => cases hmem
  | cons s others ih =>
    simp only [RunScenarios.loop]
    rcases List.mem_cons.1 hmem with rfl | hmem'
    · exact AttemptedFirst_left _
        (AttemptedFirst_RunScenarios_body registry runPolicy scenario w first rest hchildren
          (hbefore _ _))
    · exact AttemptedFirst_right _ (ih _ _ hmem')

theorem AttemptedFirst_RunRules (registry : HookRegistry) (runPolicy : RunPolicy)
    (hbefore : ∀ tags w, (runPolicy.ExecuteHook registry HookType.before tags w).value = true)
    (rules : List RuleInfo) (w : World) (rule : RuleInfo) (hrule : rule ∈ rules)
    (scenario : ScenarioInfo) (hmem : scenario ∈ rule.Scenarios) (first : StepInfo)
    (rest : List StepInfo) (hchildren : scenario.Children = first :: rest) :
    AttemptedFirst (RunRules registry runPolicy rules w).events scenario first := by
  induction rules generalizing w with
  | nil => cases hrule
  | cons r others ih =>
    simp only [RunRules]
    rcases List.mem_cons.1 hrule with rfl | hrule'
    · apply AttemptedFirst_left
      simp only [RunRules.body, RunScenarios]
      apply AttemptedFirst_left
      apply AttemptedFirst_right
      exact AttemptedFirst_RunScenarios_loop registry runPolicy hbefore _ _ _ scenario hmem
        first rest hchildren
    · exact AttemptedFirst_right _ (ih _ hrule')

theorem AttemptedFirst_RunFeature (registry : HookRegistry) (runPolicy : RunPolicy)
    (hok : beforeHooksSucceed registry runPolicy) (feature : FeatureInfo) (w : World)
    (scenario : ScenarioInfo)
    (hmem : scenario ∈ feature.Scenarios ∨ ∃ rule ∈ feature.Rules, scenario ∈ rule.Scenarios)
    (first : StepInfo) (rest : List StepInfo) (hchildren : scenario.Children = first :: rest) :
    AttemptedFirst (RunFeature registry runPolicy feature w).events scenario first := by
  have hbefore := hok HookType.before (Or.inr (Or.inr rfl))
  have hfeature := hok HookType.beforeFeature (Or.inr (Or.inl rfl)) feature.Tags
    (w.StartScope ScopeKind.feature)
  have hne : (feature.Rules.isEmpty && feature.Scenarios.isEmpty) = false := by
    rcases hmem with h | ⟨rule, h, -⟩
    · cases hs : feature.Scenarios with
      | nil => rw [hs] at h; cases h
      | cons a b => simp
    · cases hr : feature.Rules with
      | nil => rw [hr] at h; cases h
      | cons a b => simp
  simp only [RunFeature, hne, Bool.false_eq_true, if_false, hfeature, if_true]
  apply AttemptedFirst_left
  apply AttemptedFirst_left
  rcases hmem with h | ⟨rule, hrule, h⟩
  · apply AttemptedFirst_right
    simp only [RunScenarios]
    exact AttemptedFirst_RunScenarios_loop registry runPolicy hbefore _ _ _ scenario h first
      rest hchildren
  · apply AttemptedFirst_left
    apply AttemptedFirst_right
    exact AttemptedFirst_RunRules registry runPolicy hbefore _ _ rule hrule scenario h first
      rest hchildren

theorem AttemptedFirst_Run_loop (registry : HookRegistry) (runPolicy : RunPolicy)
    (hok : beforeHooksSucceed registry runPolicy) (features : List FeatureInfo) (w : World)
    (feature : FeatureInfo) (hfeature : feature ∈ features) (scenario : ScenarioInfo)
    (hmem : scenario ∈ feature.Scenarios ∨ ∃ rule ∈ feature.Rules, scenario ∈ rule.Scenarios)
    (first : StepInfo) (rest : List StepInfo) (hchildren : scenario.Children = first :: rest) :
    AttemptedFirst (Run.loop registry runPolicy features w).events scenario first := by
  induction features generalizing w with
  | nil => cases hfeature
  | cons f others ih =>
    simp only [Run.loop]
    rcases List.mem_cons.1 hfeature with rfl | hfeature'
    · exact AttemptedFirst_left _
        (AttemptedFirst_RunFeature registry runPolicy hok feature w scenario hmem first rest
          hchildren)
    · exact AttemptedFirst_right _ (ih _ hfeature')

theorem AttemptedFirst_Run (registry : HookRegistry) (runPolicy : RunPolicy)
    (hok : beforeHooksSucceed registry runPolicy) (features : List FeatureInfo) (w : World)
    (feature : FeatureInfo) (hfeature : feature ∈ features) (scenario : ScenarioInfo)
    (hmem : scenario ∈ feature.Scenarios ∨ ∃ rule ∈ feature.Rules, scenario ∈ rule.Scenarios)
    (first : StepInfo) (rest : List StepInfo) (hchildren : scenario.Children = first :: rest) :
    AttemptedFirst (Run registry runPolicy features w).events scenario first := by
  have hall := hok HookType.beforeAll (Or.inl rfl) [] w
  simp only [Run, hall, if_true]
  apply AttemptedFirst_left
  apply AttemptedFirst_left
  apply AttemptedFirst_right
  exact AttemptedFirst_Run_loop registry runPolicy hok features _ feature hfeature scenario hmem
    first rest hchildren

end cucumber_cpp.engine.TestRunner

namespace cucumber_cpp.engine.TestRunner

/-- A step is skipped only after a step of the same list ended with an outcome other than
`passed`, when the list is run from a state whose current record is `passed`. -/
theorem ExecuteSteps_loop_skipped_cause (registry : HookRegistry) (runPolicy : RunPolicy)
    (scenario : ScenarioInfo) (steps : List StepInfo) (w : World)
    (hcur : w.contextManager.CurrentContext_ExecutionStatus = Result.passed)
    (skipped : StepInfo)
    (hmem : Event.StepSkipped skipped
      ∈ (ExecuteSteps.loop registry runPolicy scenario steps w).events) :
    ∃ r step, r ≠ Result.passed
      ∧ Event.StepEnd r step ∈ (ExecuteSteps.loop registry runPolicy scenario steps w).events := by
  induction steps generalizing w with
  | nil => simp [ExecuteSteps.loop] at hmem
  | cons s rest ih =>
    obtain ⟨hev, hworld⟩ := ManageExecuteStep_attempted registry runPolicy scenario s w hcur
    simp only [ExecuteSteps.loop] at hmem ⊢
    by_cases hout : stepOutcome registry runPolicy scenario s w = Result.passed
    · have hcm : (ManageExecuteStep registry runPolicy scenario s w).world.contextManager
          = w.contextManager := by
        rw [hworld, hout]; simp
      rcases List.mem_append.1 hmem with h | h
      · rw [hev] at h
        simp only [List.mem_append, List.mem_cons, List.mem_singleton, List.mem_nil_iff,
          or_false, reduceCtorEq, false_or] at h
        have := WrapExecuteStep_wrapLevel registry runPolicy scenario s _ _ h
        simp [Event.wrapLevel] at this
      · obtain ⟨r, step, hr, hend⟩ := ih _ (by rw [hcm]; exact hcur) h
        exact ⟨r, step, hr, List.mem_append_right _ hend⟩
    · refine ⟨_, s, hout, List.mem_append_left _ ?_⟩
      rw [hev]
      simp

/-- A step of a scenario is skipped only after a step of the same scenario ended with an
outcome other than `passed`: what happened in the scenarios, rules and features before
does not make a step skipped. -/
theorem RunScenarios_body_skipped_cause (registry : HookRegistry) (runPolicy : RunPolicy)
    (scenario : ScenarioInfo) (w : World) (skipped : StepInfo)
    (hmem : Event.StepSkipped skipped
      ∈ (RunScenarios.body registry runPolicy scenario w).events) :
    ∃ r step, r ≠ Result.passed
      ∧ Event.StepEnd r step ∈ (RunScenarios.body registry runPolicy scenario w).events := by
  have hcur : ((runPolicy.ExecuteHook registry HookType.before scenario.Tags
      (w.StartScope ScopeKind.scenario)).world.contextManager).CurrentContext_ExecutionStatus
      = Result.passed := by
    simp [ContextManager.Current_StartScope]
  have hhook : ∀ hook tags w', Event.StepSkipped skipped
      ∉ (runPolicy.ExecuteHook registry hook tags w').events := by
    intro hook tags w' h
    have := RunPolicy_ExecuteHook_events registry runPolicy hook tags w' _ h
    simp [Event.fromHook] at this
  simp only [RunScenarios.body, List.mem_append, List.mem_cons, List.mem_singleton,
    List.mem_nil_iff, or_false, reduceCtorEq, false_or, hhook] at hmem
  by_cases hb : (runPolicy.ExecuteHook registry HookType.before scenario.Tags
      (w.StartScope ScopeKind.scenario)).value = true
  · simp only [hb, if_true, ExecuteSteps] at hmem
    obtain ⟨r, step, hr, hend⟩ := ExecuteSteps_loop_skipped_cause registry runPolicy scenario
      _ _ hcur skipped hmem
    refine ⟨r, step, hr, ?_⟩
    simp only [RunScenarios.body, hb, if_true, ExecuteSteps, List.mem_append]
    exact Or.inl (Or.inl (Or.inr hend))
  · simp [hb] at hmem

end cucumber_cpp.engine.TestRunner

/-! ### The two policies on benign input -/

namespace cucumber_cpp.engine.TestRunner

/-- Without registered hooks a hook call returns `true` and leaves the state alone, under both
policies. -/
theorem noHooks_ExecuteHook (registry : HookRegistry) (hreg : ∀ hook tags, registry hook tags = [])
    (runPolicy : RunPolicy) (hook : HookType) (tags : Tags) (w : World) :
    (runPolicy.ExecuteHook registry hook tags w).value = true
      ∧ (runPolicy.ExecuteHook registry hook tags w).world = w := by
  cases runPolicy <;>
    simp [RunPolicy.ExecuteHook, RunTestPolicy.ExecuteHook, hreg, RunTestPolicy.ExecuteHook.loop,
      DryRunPolicy.ExecuteHook]

theorem World_perform_benign (b : Body) (w : World) (hf : b.failures = []) (ho : b.out = "")
    (he : b.err = "") : w.perform b = w := by
  cases w with
  | mk cm errors out err =>
    simp only [World.perform, hf, ho, he, List.append_nil, String.append_empty]
    cases errors <;> cases out <;> cases err <;> rfl

/-- On a benign step without registered hooks the overloads return the same and leave the same
state under both policies. -/
theorem benign_ExecuteStep_visit (registry : HookRegistry)
    (hreg : ∀ hook tags, registry hook tags = []) (scenario : ScenarioInfo) (step : StepInfo)
    (hstep : step.benign = true) (w : World) :
    (ExecuteStep_visit registry RunPolicy.RunTestPolicy scenario step w).value
        = (ExecuteStep_visit registry RunPolicy.DryRunPolicy scenario step w).value
      ∧ (ExecuteStep_visit registry RunPolicy.RunTestPolicy scenario step w).world
        = (ExecuteStep_visit registry RunPolicy.DryRunPolicy scenario step w).world := by
  unfold StepInfo.benign at hstep
  unfold ExecuteStep_visit
  cases hm : step.StepMatch with
  | monostate => exact ⟨rfl, rfl⟩
  | multiple ms => exact ⟨rfl, rfl⟩
  | single m =>
    rw [hm] at hstep
    simp only [decide_eq_true_eq] at hstep
    obtain ⟨hthrown, hf, ho, he⟩ := hstep
    simp only [ExecuteStep_StepMatch, (noHooks_ExecuteHook registry hreg _ _ _ _).1,
      (noHooks_ExecuteHook registry hreg _ _ _ _).2, if_true]
    simp [RunPolicy.ExecuteStep, RunTestPolicy.ExecuteStep, DryRunPolicy.ExecuteStep, hthrown,
      World_perform_benign _ _ hf ho he]

theorem benign_ExecuteStep (registry : HookRegistry)
    (hreg : ∀ hook tags, registry hook tags = []) (scenario : ScenarioInfo) (step : StepInfo)
    (hstep : step.benign = true) (w : World) :
    (ExecuteStep registry RunPolicy.RunTestPolicy scenario step w).world
      = (ExecuteStep registry RunPolicy.DryRunPolicy scenario step w).world := by
  obtain ⟨hv, hw⟩ := benign_ExecuteStep_visit registry hreg scenario step hstep w
  simp only [ExecuteStep]
  rw [hv]
  cases (ExecuteStep_visit registry RunPolicy.DryRunPolicy scenario step w).value with
  | none => exact hw
  | some r => cases r <;> simp [hw]

end cucumber_cpp.engine.TestRunner

namespace cucumber_cpp.engine.TestRunner

theorem reportEvents_ExecuteStep (registry : HookRegistry) (runPolicy : RunPolicy)
    (scenario : ScenarioInfo) (step : StepInfo) (w : World) :
    reportEvents (ExecuteStep registry runPolicy scenario step w).events = [] := by
  rw [ExecuteStep_events]
  exact reportEvents_eq_nil _ (ExecuteStep_visit_isReport registry runPolicy scenario step w)

theorem SameReports_refl {α : Type} (a : Ran α) : SameReports a a := ⟨rfl, rfl, rfl⟩

theorem benign_WrapExecuteStep (registry : HookRegistry)
    (hreg : ∀ hook tags, registry hook tags = []) (scenario : ScenarioInfo) (step : StepInfo)
    (hstep : step.benign = true) (w : World) :
    SameReports (WrapExecuteStep registry RunPolicy.RunTestPolicy scenario step w)
      (WrapExecuteStep registry RunPolicy.DryRunPolicy scenario step w) := by
  have hexec := benign_ExecuteStep registry hreg scenario step hstep (startShims w)
  refine ⟨rfl, ?_, ?_⟩
  · simp only [WrapExecuteStep, hexec]
  · simp only [WrapExecuteStep, hexec, reportEvents_append, reportEvents_ExecuteStep]

theorem benign_ManageExecuteStep (registry : HookRegistry)
    (hreg : ∀ hook tags, registry hook tags = []) (scenario : ScenarioInfo) (step : StepInfo)
    (hstep : step.benign = true) (w : World) :
    SameReports (ManageExecuteStep registry RunPolicy.RunTestPolicy scenario step w)
      (ManageExecuteStep registry RunPolicy.DryRunPolicy scenario step w) := by
  obtain ⟨-, hw, hev⟩ := benign_WrapExecuteStep registry hreg scenario step hstep
    (w.StartScope ScopeKind.step)
  refine ⟨rfl, ?_, ?_⟩
  · simp only [ManageExecuteStep]
    split
    · rfl
    · simp only [hw]
  · simp only [ManageExecuteStep]
    split
    · rfl
    · simp only [reportEvents_append, hev, hw]

theorem benign_ExecuteSteps_loop (registry : HookRegistry)
    (hreg : ∀ hook tags, registry hook tags = []) (scenario : ScenarioInfo)
    (steps : List StepInfo) (hsteps : steps.all StepInfo.benign = true) (w : World) :
    SameReports (ExecuteSteps.loop registry RunPolicy.RunTestPolicy scenario steps w)
      (ExecuteSteps.loop registry RunPolicy.DryRunPolicy scenario steps w) := by
  induction steps generalizing w with
  | nil => exact SameReports_refl _
  | cons s rest ih =>
    simp only [List.all_cons, Bool.and_eq_true] at hsteps
    obtain ⟨-, hw, hev⟩ := benign_ManageExecuteStep registry hreg scenario s hsteps.1 w
    obtain ⟨-, hw', hev'⟩ := ih hsteps.2
      (ManageExecuteStep registry RunPolicy.DryRunPolicy scenario s w).world
    refine ⟨rfl, ?_, ?_⟩
    · simp only [ExecuteSteps.loop, hw, hw']
    · simp only [ExecuteSteps.loop, reportEvents_append, hev, hw, hev']

theorem benign_RunScenarios_body (registry : HookRegistry)
    (hreg : ∀ hook tags, registry hook tags = []) (scenario : ScenarioInfo)
    (hscenario : scenario.benign = true) (w : World) :
    SameReports (RunScenarios.body registry RunPolicy.RunTestPolicy scenario w)
      (RunScenarios.body registry RunPolicy.DryRunPolicy scenario w) := by
  obtain ⟨-, hw, hev⟩ := benign_ExecuteSteps_loop registry hreg scenario scenario.Children
    hscenario (w.StartScope ScopeKind.scenario)
  have hhook := fun runPolicy hook tags w' =>
    noHooks_ExecuteHook registry hreg runPolicy hook tags w'
  refine ⟨?_, ?_, ?_⟩
  · simp only [RunScenarios.body, (hhook _ _ _ _).1, (hhook _ _ _ _).2, if_true, ExecuteSteps,
      hw]
  · simp only [RunScenarios.body, (hhook _ _ _ _).1, (hhook _ _ _ _).2, if_true, ExecuteSteps,
      hw]
  · simp only [RunScenarios.body, (hhook _ _ _ _).1, (hhook _ _ _ _).2, if_true, ExecuteSteps,
      hw, reportEvents_append, reportEvents_ExecuteHook, hev]

theorem benign_RunScenarios_loop (registry : HookRegistry)
    (hreg : ∀ hook tags, registry hook tags = []) (scenarios : List ScenarioInfo)
    (hscenarios : scenarios.all ScenarioInfo.benign = true) (acc : Bool) (w : World) :
    SameReports (RunScenarios.loop registry RunPolicy.RunTestPolicy scenarios acc w)
      (RunScenarios.loop registry RunPolicy.DryRunPolicy scenarios acc w) := by
  induction scenarios generalizing acc w with
  | nil => exact SameReports_refl _
  | cons s rest ih =>
    simp only [List.all_cons, Bool.and_eq_true] at hscenarios
    obtain ⟨hv, hw, hev⟩ := benign_RunScenarios_body registry hreg s hscenarios.1 w
    obtain ⟨hv', hw', hev'⟩ := ih hscenarios.2
      (acc && (RunScenarios.body registry RunPolicy.DryRunPolicy s w).value)
      (RunScenarios.body registry RunPolicy.DryRunPolicy s w).world
    refine ⟨?_, ?_, ?_⟩
    · simp only [RunScenarios.loop, hv, hw, hv']
    · simp only [RunScenarios.loop, hv, hw, hw']
    · simp only [RunScenarios.loop, reportEvents_append, hev, hv, hw, hev']

theorem benign_RunScenarios (registry : HookRegistry)
    (hreg : ∀ hook tags, registry hook tags = []) (scenarios : List ScenarioInfo)
    (hscenarios : scenarios.all ScenarioInfo.benign = true) (w : World) :
    SameReports (RunScenarios registry RunPolicy.RunTestPolicy scenarios w)
      (RunScenarios registry RunPolicy.DryRunPolicy scenarios w) := by
  obtain ⟨hv, hw, hev⟩ := benign_RunScenarios_loop registry hreg scenarios hscenarios true w
  refine ⟨rfl, ?_, hev⟩
  simp only [RunScenarios, hv, hw]

theorem benign_RunRules (registry : HookRegistry)
    (hreg : ∀ hook tags, registry hook tags = []) (rules : List RuleInfo)
    (hrules : rules.all RuleInfo.benign = true) (w : World) :
    SameReports (RunRules registry RunPolicy.RunTestPolicy rules w)
      (RunRules registry RunPolicy.DryRunPolicy rules w) := by
  induction rules generalizing w with
  | nil => exact SameReports_refl _
  | cons r rest ih =>
    simp only [List.all_cons, Bool.and_eq_true] at hrules
    obtain ⟨-, hw, hev⟩ := benign_RunScenarios registry hreg r.Scenarios hrules.1
      (w.StartScope ScopeKind.rule)
    have hbody : (RunRules.body registry RunPolicy.RunTestPolicy r w).world
        = (RunRules.body registry RunPolicy.DryRunPolicy r w).world := by
      simp only [RunRules.body, hw]
    obtain ⟨-, hw', hev'⟩ := ih hrules.2 (RunRules.body registry RunPolicy.DryRunPolicy r w).world
    refine ⟨rfl, ?_, ?_⟩
    · simp only [RunRules, hbody, hw']
    · simp only [RunRules, reportEvents_append, hbody, hev']
      simp only [RunRules.body, reportEvents_append, hev, hw]

theorem benign_RunFeature (registry : HookRegistry)
    (hreg : ∀ hook tags, registry hook tags = []) (feature : FeatureInfo)
    (hfeature : feature.benign = true) (w : World) :
    SameReports (RunFeature registry RunPolicy.RunTestPolicy feature w)
      (RunFeature registry RunPolicy.DryRunPolicy feature w) := by
  simp only [FeatureInfo.benign, Bool.and_eq_true] at hfeature
  have hhook := fun runPolicy hook tags w' =>
    noHooks_ExecuteHook registry hreg runPolicy hook tags w'
  obtain ⟨-, hw, hev⟩ := benign_RunRules registry hreg feature.Rules hfeature.1
    (w.StartScope ScopeKind.feature)
  obtain ⟨-, hw', hev'⟩ := benign_RunScenarios registry hreg feature.Scenarios hfeature.2
    (RunRules registry RunPolicy.DryRunPolicy feature.Rules
      (w.StartScope ScopeKind.feature)).world
  refine ⟨rfl, ?_, ?_⟩
  · simp only [RunFeature, (hhook _ _ _ _).1, (hhook _ _ _ _).2, if_true, hw, hw']
    split <;> rfl
  · simp only [RunFeature, (hhook _ _ _ _).1, (hhook _ _ _ _).2, if_true, hw, hw']
    split
    · rfl
    · simp only [reportEvents_append, reportEvents_ExecuteHook, hev, hev']

theorem benign_Run_loop (registry : HookRegistry)
    (hreg : ∀ hook tags, registry hook tags = []) (features : List FeatureInfo)
    (hfeatures : features.all FeatureInfo.benign = true) (w : World) :
    SameReports (Run.loop registry RunPolicy.RunTestPolicy features w)
      (Run.loop registry RunPolicy.DryRunPolicy features w) := by
  induction features generalizing w with
  | nil => exact SameReports_refl _
  | cons f rest ih =>
    simp only [List.all_cons, Bool.and_eq_true] at hfeatures
    obtain ⟨-, hw, hev⟩ := benign_RunFeature registry hreg f hfeatures.1 w
    obtain ⟨-, hw', hev'⟩ := ih hfeatures.2 (RunFeature registry RunPolicy.DryRunPolicy f w).world
    refine ⟨rfl, ?_, ?_⟩
    · simp only [Run.loop, hw, hw']
    · simp only [Run.loop, reportEvents_append, hev, hw, hev']

theorem benign_Run (registry : HookRegistry)
    (hreg : ∀ hook tags, registry hook tags = []) (features : List FeatureInfo)
    (hfeatures : features.all FeatureInfo.benign = true) (w : World) :
    SameReports (Run registry RunPolicy.RunTestPolicy features w)
      (Run registry RunPolicy.DryRunPolicy features w) := by
  have hhook := fun runPolicy hook tags w' =>
    noHooks_ExecuteHook registry hreg runPolicy hook tags w'
  obtain ⟨-, hw, hev⟩ := benign_Run_loop registry hreg features hfeatures w
  refine ⟨rfl, ?_, ?_⟩
  · simp only [Run, (hhook _ _ _ _).1, (hhook _ _ _ _).2, if_true, hw]
  · simp only [Run, (hhook _ _ _ _).1, (hhook _ _ _ _).2, if_true, hw, reportEvents_append,
      reportEvents_ExecuteHook, hev]

end cucumber_cpp.engine.TestRunner

/-! ### Nesting of the reports and of the scopes -/

namespace cucumber_cpp.engine.TestRunner

theorem Nesting_run_append (n : Nesting) (xs ys : List Event) :
    n.run (xs ++ ys) = (n.run xs).bind (fun n' => n'.run ys) := by
  induction xs generalizing n with
  | nil => rfl
  | cons e rest ih =>
    simp only [List.cons_append, Nesting.run]
    cases n.step e with
    | none => rfl
    | some n' => exact ih n'

theorem Nesting_run_append_of {n n' : Nesting} {xs : List Event} (ys : List Event)
    (h : n.run xs = some n') : n.run (xs ++ ys) = n'.run ys := by
  rw [Nesting_run_append, h]; rfl

theorem Nesting_run_fixed (n : Nesting) (es : List Event) (h : ∀ e ∈ es, n.step e = some n) :
    n.run es = some n := by
  induction es with
  | nil => rfl
  | cons e rest ih =>
    simp only [Nesting.run, h e (List.mem_cons_self _ _)]
    exact ih (fun e' he' => h e' (List.mem_cons_of_mem _ he'))

theorem Nesting_step_neutral (n : Nesting) (e : Event) (hr : e.isReport = false)
    (hs : e.isScope = false) : n.step e = some n := by
  cases e <;> simp_all [Event.isReport, Event.isScope, Nesting.step]

theorem Nesting_run_ExecuteHook (registry : HookRegistry) (runPolicy : RunPolicy)
    (hook : HookType) (tags : Tags) (w : World) (n : Nesting) :
    n.run (runPolicy.ExecuteHook registry hook tags w).events = some n := by
  apply Nesting_run_fixed
  intro e he
  have := RunPolicy_ExecuteHook_events registry runPolicy hook tags w e he
  cases e <;> simp_all [Event.fromHook, Nesting.step]

/-- Inside a step, what `WrapExecuteStep` causes is in place and opens or closes nothing. -/
theorem Nesting_run_WrapExecuteStep (registry : HookRegistry) (runPolicy : RunPolicy)
    (scenario : ScenarioInfo) (step : StepInfo) (w : World) (n : Nesting)
    (hn : n.inside OpenNode.isStep = true) :
    n.run (WrapExecuteStep registry runPolicy scenario step w).events = some n := by
  apply Nesting_run_fixed
  intro e he
  have := WrapExecuteStep_wrapLevel registry runPolicy scenario step w e he
  cases e <;> simp_all [Event.wrapLevel, Nesting.step]

/-- Right inside a scenario, what managing one step causes is in place and leaves the nesting
as it was. -/
theorem Nesting_run_ManageExecuteStep (registry : HookRegistry) (runPolicy : RunPolicy)
    (scenario : ScenarioInfo) (step : StepInfo) (w : World) (n : Nesting)
    (hn : n.inside OpenNode.isScenario = true) :
    n.run (ManageExecuteStep registry runPolicy scenario step w).events = some n := by
  by_cases hcur : w.contextManager.CurrentContext_ExecutionStatus = Result.passed
  · rw [(ManageExecuteStep_attempted registry runPolicy scenario step w hcur).1]
    have hwrap := Nesting_run_WrapExecuteStep registry runPolicy scenario step (stepEntered w)
      { nodes := OpenNode.step step :: n.nodes, scopes := ScopeKind.step :: n.scopes } rfl
    have hstart : n.run [Event.StartScope ScopeKind.step, Event.StepStart step]
        = some { nodes := OpenNode.step step :: n.nodes,
                 scopes := ScopeKind.step :: n.scopes } := by
      simp [Nesting.run, Nesting.step, Nesting.inside, Nesting.enter] at hn ⊢
      cases hnodes : n.nodes with
      | nil => simp [hnodes] at hn
      | cons top rest => simpa [hnodes] using hn
    rw [Nesting_run_append_of _ (by rw [Nesting_run_append_of _ hstart]; exact hwrap)]
    simp [Nesting.run, Nesting.step, Nesting.leave]
  · rw [ManageExecuteStep_skipped registry runPolicy scenario step w hcur]
    have hin : ∀ scopes, ({ nodes := n.nodes, scopes := scopes } : Nesting).inside
        OpenNode.isScenario = true := fun _ => hn
    simp [skippedEvents, Nesting.run, Nesting.step, hin]

theorem Nesting_run_ExecuteSteps_loop (registry : HookRegistry) (runPolicy : RunPolicy)
    (scenario : ScenarioInfo) (steps : List StepInfo) (w : World) (n : Nesting)
    (hn : n.inside OpenNode.isScenario = true) :
    n.run (ExecuteSteps.loop registry runPolicy scenario steps w).events = some n := by
  induction steps generalizing w with
  | nil => rfl
  | cons s rest ih =>
    simp only [ExecuteSteps.loop]
    rw [Nesting_run_append_of _
      (Nesting_run_ManageExecuteStep registry runPolicy scenario s w n hn)]
    exact ih _

end cucumber_cpp.engine.TestRunner

namespace cucumber_cpp.engine.TestRunner

/-- Entering a scope and reporting the start of its node opens both. -/
theorem Nesting_run_open (n : Nesting) (kind : ScopeKind) (node : OpenNode) (startEvent : Event)
    (rest : List Event)
    (hstart : ∀ scopes, ({ nodes := n.nodes, scopes := scopes } : Nesting).step startEvent
      = some { nodes := node :: n.nodes, scopes := scopes }) :
    n.run ([Event.StartScope kind, startEvent] ++ rest)
      = ({ nodes := node :: n.nodes, scopes := kind :: n.scopes } : Nesting).run rest := by
  have h1 : n.step (Event.StartScope kind)
      = some { nodes := n.nodes, scopes := kind :: n.scopes } := rfl
  simp only [List.cons_append, List.nil_append, Nesting.run, h1, Option.some_bind, hstart]
  rfl

/-- Reporting the end of the innermost node and leaving the innermost scope closes both. -/
theorem Nesting_run_close (n : Nesting) (kind : ScopeKind) (node : OpenNode) (endEvent : Event)
    (hend : ∀ scopes, ({ nodes := node :: n.nodes, scopes := scopes } : Nesting).step endEvent
      = some { nodes := n.nodes, scopes := scopes }) :
    ({ nodes := node :: n.nodes, scopes := kind :: n.scopes } : Nesting).run
      [endEvent, Event.EndScope kind] = some n := by
  have h2 : ({ nodes := n.nodes, scopes := kind :: n.scopes } : Nesting).step
      (Event.EndScope kind) = some n := by
    simp [Nesting.step]
  simp only [Nesting.run, hend, Option.some_bind, h2]

/-- Right inside a feature or a rule, what one scenario causes is in place and leaves the
nesting as it was. -/
theorem Nesting_run_RunScenarios_body (registry : HookRegistry) (runPolicy : RunPolicy)
    (scenario : ScenarioInfo) (w : World) (n : Nesting)
    (hn : n.inside OpenNode.isContainer = true) :
    n.run (RunScenarios.body registry runPolicy scenario w).events = some n := by
  have hsteps : ∀ (b : Bool) (w' : World),
      ({ nodes := OpenNode.scenario scenario :: n.nodes,
         scopes := ScopeKind.scenario :: n.scopes } : Nesting).run
        (if b = true then ExecuteSteps registry runPolicy scenario w'
          else { value := (), world := w', events := [] }).events
      = some { nodes := OpenNode.scenario scenario :: n.nodes,
               scopes := ScopeKind.scenario :: n.scopes } := by
    intro b w'
    cases b
    · rfl
    · exact Nesting_run_ExecuteSteps_loop registry runPolicy scenario _ w' _ rfl
  simp only [RunScenarios.body, List.append_assoc]
  rw [Nesting_run_open n ScopeKind.scenario (OpenNode.scenario scenario) _ _
      (fun scopes => by
        have hin : ({ nodes := n.nodes, scopes := scopes } : Nesting).inside
            OpenNode.isContainer = true := hn
        simp [Nesting.step, hin, Nesting.enter]),
    Nesting_run_append_of _ (Nesting_run_ExecuteHook _ _ _ _ _ _),
    Nesting_run_append_of _ (hsteps _ _),
    Nesting_run_append_of _ (Nesting_run_ExecuteHook _ _ _ _ _ _)]
  exact Nesting_run_close n _ _ _ (fun scopes => by simp [Nesting.step, Nesting.leave])

theorem Nesting_run_RunScenarios_loop (registry : HookRegistry) (runPolicy : RunPolicy)
    (scenarios : List ScenarioInfo) (acc : Bool) (w : World) (n : Nesting)
    (hn : n.inside OpenNode.isContainer = true) :
    n.run (RunScenarios.loop registry runPolicy scenarios acc w).events = some n := by
  induction scenarios generalizing acc w with
  | nil => rfl
  | cons s rest ih =>
    simp only [RunScenarios.loop]
    rw [Nesting_run_append_of _ (Nesting_run_RunScenarios_body registry runPolicy s w n hn)]
    exact ih _ _

theorem Nesting_run_RunScenarios (registry : HookRegistry) (runPolicy : RunPolicy)
    (scenarios : List ScenarioInfo) (w : World) (n : Nesting)
    (hn : n.inside OpenNode.isContainer = true) :
    n.run (RunScenarios registry runPolicy scenarios w).events = some n :=
  Nesting_run_RunScenarios_loop registry runPolicy scenarios true w n hn

/-- Right inside a feature, what the rules of a list cause is in place and leaves the nesting
as it was. -/
theorem Nesting_run_RunRules (registry : HookRegistry) (runPolicy : RunPolicy)
    (rules : List RuleInfo) (w : World) (n : Nesting)
    (hn : n.inside OpenNode.isFeature = true) :
    n.run (RunRules registry runPolicy rules w).events = some n := by
  induction rules generalizing w with
  | nil => rfl
  | cons rule rest ih =>
    have hbody : n.run (RunRules.body registry runPolicy rule w).events = some n := by
      simp only [RunRules.body, List.append_assoc]
      rw [Nesting_run_open n ScopeKind.rule (OpenNode.rule rule) _ _
          (fun scopes => by
            have hin : ({ nodes := n.nodes, scopes := scopes } : Nesting).inside
                OpenNode.isFeature = true := hn
            simp [Nesting.step, hin, Nesting.enter]),
        Nesting_run_append_of _
          (Nesting_run_RunScenarios registry runPolicy _ _
            { nodes := OpenNode.rule rule :: n.nodes, scopes := ScopeKind.rule :: n.scopes }
            rfl)]
      exact Nesting_run_close n _ _ _ (fun scopes => by simp [Nesting.step, Nesting.leave])
    simp only [RunRules]
    rw [Nesting_run_append_of _ hbody]
    exact ih _

/-- When nothing is open, what one feature causes is in place and leaves nothing open. -/
theorem Nesting_run_RunFeature (registry : HookRegistry) (runPolicy : RunPolicy)
    (feature : FeatureInfo) (w : World) (scopes : List ScopeKind) :
    ({ nodes := [], scopes := scopes } : Nesting).run
        (RunFeature registry runPolicy feature w).events
      = some { nodes := [], scopes := scopes } := by
  have hrules : ∀ (b : Bool) (w' : World),
      ({ nodes := [OpenNode.feature feature],
         scopes := ScopeKind.feature :: scopes } : Nesting).run
        (if b = true then RunRules registry runPolicy feature.Rules w'
          else { value := (), world := w', events := [] }).events
      = some { nodes := [OpenNode.feature feature], scopes := ScopeKind.feature :: scopes } := by
    intro b w'
    cases b
    · rfl
    · exact Nesting_run_RunRules registry runPolicy _ w' _ rfl
  have hscenarios : ∀ (b : Bool) (w' w'' : World),
      ({ nodes := [OpenNode.feature feature],
         scopes := ScopeKind.feature :: scopes } : Nesting).run
        (if b = true then RunScenarios registry runPolicy feature.Scenarios w'
          else { value := (), world := w'', events := [] }).events
      = some { nodes := [OpenNode.feature feature], scopes := ScopeKind.feature :: scopes } := by
    intro b w' w''
    cases b
    · rfl
    · exact Nesting_run_RunScenarios registry runPolicy _ w' _ rfl
  unfold RunFeature
  split
  · rfl
  · simp only [List.append_assoc]
    rw [Nesting_run_open { nodes := [], scopes := scopes } ScopeKind.feature
          (OpenNode.feature feature) _ _
          (fun scopes' => by simp [Nesting.step, Nesting.enter]),
      Nesting_run_append_of _ (Nesting_run_ExecuteHook _ _ _ _ _ _),
      Nesting_run_append_of _ (hrules _ _),
      Nesting_run_append_of _ (hscenarios _ _ _),
      Nesting_run_append_of _ (Nesting_run_ExecuteHook _ _ _ _ _ _)]
    exact Nesting_run_close { nodes := [], scopes := scopes } _ _ _
      (fun scopes' => by simp [Nesting.step, Nesting.leave])

theorem Nesting_run_Run_loop (registry : HookRegistry) (runPolicy : RunPolicy)
    (features : List FeatureInfo) (w : World) (scopes : List ScopeKind) :
    ({ nodes := [], scopes := scopes } : Nesting).run
        (Run.loop registry runPolicy features w).events
      = some { nodes := [], scopes := scopes } := by
  induction features generalizing w with
  | nil => rfl
  | cons f rest ih =>
    simp only [Run.loop]
    rw [Nesting_run_append_of _ (Nesting_run_RunFeature registry runPolicy f w scopes)]
    exact ih _

end cucumber_cpp.engine.TestRunner

namespace cucumber_cpp.engine.TestRunner

open Sample

/-- The reading of `Nesting.run` tells lists apart: a step outside a scenario, an end report
naming another node than the one open, a feature ended while a scenario is open, a
failure outside a step, a scope left that is not the innermost one entered and a
`Summary` are all out of place. -/
theorem Nesting_run_rejects :
    ({} : Nesting).run [Event.StepStart step1] = none
    ∧ ({} : Nesting).run [Event.FeatureStart featureB, Event.FeatureEnd Result.passed featureAB]
      = none
    ∧ ({} : Nesting).run [Event.FeatureStart featureB, Event.ScenarioStart scenarioB,
        Event.FeatureEnd Result.passed featureB] = none
    ∧ ({} : Nesting).run [Event.FeatureStart featureB, Event.ScenarioStart scenarioB,
        Event.Failure "m" "f" 1] = none
    ∧ ({} : Nesting).run [Event.StartScope ScopeKind.feature, Event.EndScope ScopeKind.rule]
      = none
    ∧ ({} : Nesting).run [Event.Summary] = none := by
  decide

end cucumber_cpp.engine.TestRunner

/-! # The claims -/

namespace cucumber_cpp.engine.TestRunner

open Sample

/-- C2. Skip rule: in every scenario, under every policy and from every state, if the step
at index `k` (the one after the steps `pre`) is reported with `StepEnd` carrying an
outcome other than `passed`, or is itself reported skipped, then the events of
`ExecuteSteps` are those of the steps up to `k` followed, for each later step, by
exactly `StartScope`, `StepSkipped`, `EndScope`: no `StepStart` or `StepEnd`, no call
of the dispatcher or of a step body, no hook call and no shim for these steps; and the
state is the one step `k` left. -/
theorem C2_skip_rule (registry : HookRegistry) (runPolicy : RunPolicy)
    (scenario : ScenarioInfo) (pre post : List StepInfo) (step : StepInfo) (w : World)
    (hsteps : scenario.Children = pre ++ step :: post)
    (hk : (∃ r, r ≠ Result.passed ∧ Event.StepEnd r step
              ∈ (ManageExecuteStep registry runPolicy scenario step
                  (ExecuteSteps.loop registry runPolicy scenario pre w).world).events)
          ∨ Event.StepSkipped step
              ∈ (ManageExecuteStep registry runPolicy scenario step
                  (ExecuteSteps.loop registry runPolicy scenario pre w).world).events) :
    (ExecuteSteps registry runPolicy scenario w).events
        = (ExecuteSteps.loop registry runPolicy scenario pre w).events
          ++ (ManageExecuteStep registry runPolicy scenario step
              (ExecuteSteps.loop registry runPolicy scenario pre w).world).events
          ++ post.flatMap
              (fun later => [Event.StartScope ScopeKind.step, Event.StepSkipped later,
                Event.EndScope ScopeKind.step])
    ∧ (ExecuteSteps registry runPolicy scenario w).world
        = (ManageExecuteStep registry runPolicy scenario step
            (ExecuteSteps.loop registry runPolicy scenario pre w).world).world := by
  have hcur := ManageExecuteStep_current_of_report registry runPolicy scenario step _ hk
  have hpost := ExecuteSteps_loop_skipped registry runPolicy scenario post _ hcur
  have happ := ExecuteSteps_loop_append registry runPolicy scenario pre (step :: post) w
  simp only [ExecuteSteps, hsteps, happ.1, happ.2, ExecuteSteps.loop, hpost,
    List.append_assoc, and_true]
  rfl

/-- Witness of C2 on the scenario of the example of §8: the second of three steps raises,
the third is reported skipped. -/
theorem C2_skip_rule_witness :
    (ExecuteSteps noHooks RunPolicy.RunTestPolicy scenarioA {}).events
        = (ExecuteSteps.loop noHooks RunPolicy.RunTestPolicy scenarioA [step1] {}).events
          ++ (ManageExecuteStep noHooks RunPolicy.RunTestPolicy scenarioA step2
              (ExecuteSteps.loop noHooks RunPolicy.RunTestPolicy scenarioA [step1] {}).world).events
          ++ [Event.StartScope ScopeKind.step, Event.StepSkipped step3,
              Event.EndScope ScopeKind.step]
    ∧ (ExecuteSteps noHooks RunPolicy.RunTestPolicy scenarioA {}).world
        = (ManageExecuteStep noHooks RunPolicy.RunTestPolicy scenarioA step2
            (ExecuteSteps.loop noHooks RunPolicy.RunTestPolicy scenarioA [step1] {}).world).world :=
  C2_skip_rule noHooks RunPolicy.RunTestPolicy scenarioA [step1] [step3] step2 {} rfl
    (Or.inl ⟨Result.failed, by decide, by decide⟩)


/-- C3. Error-to-outcome mapping of the step dispatcher: for every step, policy, registry and
state in which the step's record is the innermost record of the context stack (with any
outcome `s`), `ExecuteStep` returns normally (it is a total function without exception
channel) and the outcome of the step's record afterwards is given by the table of spec
§4.4 applied to whatever the dispatched overload raised, whichever stage raised it:
`pending` for the pending marker, `undefined` for no matching definition, `ambiguous`
for multiple matching definitions, `failed` for every other error; when nothing is
raised the outcome is the `s` it was. The stage that raises is fixed by the match: no
match raises "not found", several matches raise "ambiguous". -/
theorem C3_dispatcher_error_to_outcome (registry : HookRegistry) (runPolicy : RunPolicy)
    (scenario : ScenarioInfo) (stepInfo : StepInfo) (w : World) (cm : ContextManager)
    (s : Result) (hstep : w.contextManager = cm.withStep s) :
    (ExecuteStep registry runPolicy scenario stepInfo w).world.contextManager.StepContext_ExecutionStatus
        = (match (ExecuteStep_visit registry runPolicy scenario stepInfo w).value with
          | none => s
          | some raised => specOutcomeOfRaised raised)
    ∧ (stepInfo.StepMatch = StepMatchVariant.monostate →
        (ExecuteStep_visit registry runPolicy scenario stepInfo w).value
          = some Raised.StepNotFoundException)
    ∧ (∀ stepMatches, stepInfo.StepMatch = StepMatchVariant.multiple stepMatches →
        (ExecuteStep_visit registry runPolicy scenario stepInfo w).value
          = some Raised.AmbiguousStepException) := by
  refine ⟨?_, ?_, ?_⟩
  · rw [ExecuteStep_contextManager, hstep]
    rcases (ExecuteStep_visit registry runPolicy scenario stepInfo w).value with _ | c
    · simp
    · cases c <;> simp [ContextManager.SetStep_withStep, specOutcomeOfRaised]
  · intro h
    simp [ExecuteStep_visit, h, ExecuteStep_monostate]
  · intro ms h
    simp [ExecuteStep_visit, h, ExecuteStep_vector]

/-- Witness of C3: a step whose body throws a `std::exception`, dispatched in a freshly
entered step scope under the live policy, ends `failed`. -/
theorem C3_dispatcher_error_to_outcome_witness :
    (ExecuteStep_visit noHooks RunPolicy.RunTestPolicy scenarioA step2 (stepEntered {})).value
        = some Raised.stdException
    ∧ (ExecuteStep noHooks RunPolicy.RunTestPolicy scenarioA step2
        (stepEntered {})).world.contextManager.StepContext_ExecutionStatus = Result.failed :=
  ⟨by decide,
    (C3_dispatcher_error_to_outcome noHooks RunPolicy.RunTestPolicy scenarioA step2
      (stepEntered {}) {} Result.passed rfl).1⟩


/-- C4. For every step that is attempted (the current record is `passed` when it is
managed), under either policy and whatever the hook registry: when the step's match is
`std::monostate` (no match) it is reported `StepEnd` with `undefined`, when it is a
vector of matches (ambiguous) it is reported `StepEnd` with `ambiguous`; in both cases
only the two shims are set up and torn down in between, and every later step of the
scenario is reported skipped and nothing else. -/
theorem C4_unmatched_steps (registry : HookRegistry) (runPolicy : RunPolicy)
    (scenario : ScenarioInfo) (step : StepInfo) (later : List StepInfo) (w : World)
    (hcur : w.contextManager.CurrentContext_ExecutionStatus = Result.passed) :
    (step.StepMatch = StepMatchVariant.monostate →
      (ExecuteSteps.loop registry runPolicy scenario (step :: later) w).events
        = [Event.StartScope ScopeKind.step, Event.StepStart step, Event.CollectorStart,
            Event.CaptureStart, Event.CaptureStop, Event.CollectorStop,
            Event.StepEnd Result.undefined step, Event.EndScope ScopeKind.step]
          ++ later.flatMap
              (fun s => [Event.StartScope ScopeKind.step, Event.StepSkipped s,
                Event.EndScope ScopeKind.step]))
    ∧ (∀ stepMatches, step.StepMatch = StepMatchVariant.multiple stepMatches →
      (ExecuteSteps.loop registry runPolicy scenario (step :: later) w).events
        = [Event.StartScope ScopeKind.step, Event.StepStart step, Event.CollectorStart,
            Event.CaptureStart, Event.CaptureStop, Event.CollectorStop,
            Event.StepEnd Result.ambiguous step, Event.EndScope ScopeKind.step]
          ++ later.flatMap
              (fun s => [Event.StartScope ScopeKind.step, Event.StepSkipped s,
                Event.EndScope ScopeKind.step])) := by
  constructor
  · intro hm
    obtain ⟨hwrap, hout⟩ := WrapExecuteStep_monostate registry runPolicy scenario step w hm
    exact ExecuteSteps_loop_of_thrown registry runPolicy scenario step later w _ (by decide)
      hcur hwrap hout
  · intro ms hm
    obtain ⟨hwrap, hout⟩ := WrapExecuteStep_vector registry runPolicy scenario step w ms hm
    exact ExecuteSteps_loop_of_thrown registry runPolicy scenario step later w _ (by decide)
      hcur hwrap hout

/-- Witness of C4 under the dry-run policy: an undefined step followed by a step with a
definition, and an ambiguous step followed by the same. -/
theorem C4_unmatched_steps_witness :
    (ExecuteSteps.loop noHooks RunPolicy.DryRunPolicy scenarioB [stepUndefined, step1] {}).events
        = [Event.StartScope ScopeKind.step, Event.StepStart stepUndefined, Event.CollectorStart,
            Event.CaptureStart, Event.CaptureStop, Event.CollectorStop,
            Event.StepEnd Result.undefined stepUndefined, Event.EndScope ScopeKind.step,
            Event.StartScope ScopeKind.step, Event.StepSkipped step1,
            Event.EndScope ScopeKind.step]
    ∧ (ExecuteSteps.loop noHooks RunPolicy.DryRunPolicy scenarioB [stepAmbiguous, step1] {}).events
        = [Event.StartScope ScopeKind.step, Event.StepStart stepAmbiguous, Event.CollectorStart,
            Event.CaptureStart, Event.CaptureStop, Event.CollectorStop,
            Event.StepEnd Result.ambiguous stepAmbiguous, Event.EndScope ScopeKind.step,
            Event.StartScope ScopeKind.step, Event.StepSkipped step1,
            Event.EndScope ScopeKind.step] :=
  ⟨(C4_unmatched_steps noHooks RunPolicy.DryRunPolicy scenarioB stepUndefined [step1] {}
      rfl).1 rfl,
    (C4_unmatched_steps noHooks RunPolicy.DryRunPolicy scenarioB stepAmbiguous [step1] {}
      rfl).2 _ rfl⟩


/-- C5, counterexample. Live policy, one feature with one scenario with one passing step, and
a `before` hook that throws: the `before` hook call reports failure (its hook body is
run and no step is managed), yet `ScenarioEnd` carries `passed`, and so does
`FeatureEnd` of the enclosing feature. -/
theorem C5_counterexample :
    (RunPolicy.ExecuteHook (throwingHooks HookType.before) RunPolicy.RunTestPolicy
        HookType.before scenarioB.Tags {}).value = false
    ∧ (Run (throwingHooks HookType.before) RunPolicy.RunTestPolicy [featureB] {}).events
      = [Event.PolicyExecuteHook HookType.beforeAll [], Event.HookQuery HookType.beforeAll [],
          Event.StartScope ScopeKind.feature, Event.FeatureStart featureB,
          Event.PolicyExecuteHook HookType.beforeFeature [],
          Event.HookQuery HookType.beforeFeature [],
          Event.StartScope ScopeKind.scenario, Event.ScenarioStart scenarioB,
          Event.PolicyExecuteHook HookType.before [], Event.HookQuery HookType.before [],
          Event.HookBody { id := 9, body := { thrown := some Raised.stdException } },
          Event.PolicyExecuteHook HookType.after [], Event.HookQuery HookType.after [],
          Event.ScenarioEnd Result.passed scenarioB, Event.EndScope ScopeKind.scenario,
          Event.PolicyExecuteHook HookType.afterFeature [],
          Event.HookQuery HookType.afterFeature [],
          Event.FeatureEnd Result.passed featureB, Event.EndScope ScopeKind.feature,
          Event.PolicyExecuteHook HookType.afterAll [], Event.HookQuery HookType.afterAll [],
          Event.Summary] := by
  decide

/-- C5, amended. A hook call that reports failure sets no outcome; under either policy and
for every registry and state:
(1) when the `before` hook call of a scenario reports failure, no step is managed and
`ScenarioEnd` carries `passed`;
(2) when the `beforeFeature` hook call of a non-empty feature reports failure, no rule and
no scenario is run and `FeatureEnd` carries `passed`;
(3) when the `beforeStep` hook call of an attempted single-match step reports failure, the
policy's `ExecuteStep` is not called, and `StepEnd` carries `passed`, or `failed`
together with a `Failure` report when a test part result was collected during the step;
(4) whatever the hook calls of a scenario return, `ScenarioEnd` carries an outcome
other than `passed` only if one of the scenario's steps was reported with a `StepEnd`
carrying an outcome other than `passed`. -/
theorem C5_hook_failure_sets_no_outcome (registry : HookRegistry) (runPolicy : RunPolicy)
    (w : World) :
    (∀ scenario : ScenarioInfo,
      (∀ w', (runPolicy.ExecuteHook registry HookType.before scenario.Tags w').value = false) →
      withoutHooks (RunScenarios.body registry runPolicy scenario w).events
        = [Event.StartScope ScopeKind.scenario, Event.ScenarioStart scenario,
            Event.ScenarioEnd Result.passed scenario, Event.EndScope ScopeKind.scenario])
    ∧ (∀ feature : FeatureInfo,
      (feature.Rules.isEmpty && feature.Scenarios.isEmpty) = false →
      (∀ w', (runPolicy.ExecuteHook registry HookType.beforeFeature feature.Tags w').value
        = false) →
      withoutHooks (RunFeature registry runPolicy feature w).events
        = [Event.StartScope ScopeKind.feature, Event.FeatureStart feature,
            Event.FeatureEnd Result.passed feature, Event.EndScope ScopeKind.feature])
    ∧ (∀ (scenario : ScenarioInfo) (step : StepInfo) (stepMatch : StepMatch),
      w.contextManager.CurrentContext_ExecutionStatus = Result.passed →
      step.StepMatch = StepMatchVariant.single stepMatch →
      (∀ w', (runPolicy.ExecuteHook registry HookType.beforeStep scenario.Tags w').value
        = false) →
      (∀ e ∈ (ManageExecuteStep registry runPolicy scenario step w).events,
          ∀ s m, e ≠ Event.PolicyExecuteStep s m ∧ e ≠ Event.StepBody s m)
      ∧ (Event.StepEnd Result.passed step
            ∈ (ManageExecuteStep registry runPolicy scenario step w).events
          ∨ (Event.StepEnd Result.failed step
              ∈ (ManageExecuteStep registry runPolicy scenario step w).events
            ∧ ∃ message file_name line_number, Event.Failure message file_name line_number
              ∈ (ManageExecuteStep registry runPolicy scenario step w).events)))
    ∧ (∀ (scenario : ScenarioInfo) (r : Result), r ≠ Result.passed →
      Event.ScenarioEnd r scenario ∈ (RunScenarios.body registry runPolicy scenario w).events →
      ∃ r' step, r' ≠ Result.passed
        ∧ Event.StepEnd r' step ∈ (RunScenarios.body registry runPolicy scenario w).events) :=
  ⟨fun scenario h => RunScenarios_body_before_fails registry runPolicy scenario w h,
    fun feature hne h => RunFeature_before_fails registry runPolicy feature w hne h,
    fun scenario step stepMatch hcur hm h =>
      ManageExecuteStep_beforeStep_fails registry runPolicy scenario step stepMatch w hcur hm h,
    fun scenario r hr hmem => RunScenarios_body_not_passed registry runPolicy scenario w r hr hmem⟩

/-- Witness of the amended C5 under the live policy, with a throwing `before` hook (part 1),
a throwing `beforeFeature` hook (part 2), a throwing `beforeStep` hook (part 3) and the
scenario of §8, whose second step raises (part 4). -/
theorem C5_hook_failure_sets_no_outcome_witness :
    withoutHooks (RunScenarios.body (throwingHooks HookType.before) RunPolicy.RunTestPolicy
        scenarioB {}).events
      = [Event.StartScope ScopeKind.scenario, Event.ScenarioStart scenarioB,
          Event.ScenarioEnd Result.passed scenarioB, Event.EndScope ScopeKind.scenario]
    ∧ withoutHooks (RunFeature (throwingHooks HookType.beforeFeature) RunPolicy.RunTestPolicy
        featureB {}).events
      = [Event.StartScope ScopeKind.feature, Event.FeatureStart featureB,
          Event.FeatureEnd Result.passed featureB, Event.EndScope ScopeKind.feature]
    ∧ (Event.StepEnd Result.passed step1
        ∈ (ManageExecuteStep (throwingHooks HookType.beforeStep) RunPolicy.RunTestPolicy
            scenarioB step1 {}).events
      ∨ (Event.StepEnd Result.failed step1
          ∈ (ManageExecuteStep (throwingHooks HookType.beforeStep) RunPolicy.RunTestPolicy
              scenarioB step1 {}).events
        ∧ ∃ message file_name line_number, Event.Failure message file_name line_number
          ∈ (ManageExecuteStep (throwingHooks HookType.beforeStep) RunPolicy.RunTestPolicy
              scenarioB step1 {}).events))
    ∧ ∃ r' step, r' ≠ Result.passed
        ∧ Event.StepEnd r' step
          ∈ (RunScenarios.body noHooks RunPolicy.RunTestPolicy scenarioA {}).events :=
  ⟨(C5_hook_failure_sets_no_outcome (throwingHooks HookType.before) RunPolicy.RunTestPolicy
      {}).1 scenarioB (fun _ => rfl),
    (C5_hook_failure_sets_no_outcome (throwingHooks HookType.beforeFeature)
      RunPolicy.RunTestPolicy {}).2.1 featureB rfl (fun _ => rfl),
    ((C5_hook_failure_sets_no_outcome (throwingHooks HookType.beforeStep)
      RunPolicy.RunTestPolicy {}).2.2.1 scenarioB step1 { id := 1 } rfl rfl (fun _ => rfl)).2,
    (C5_hook_failure_sets_no_outcome noHooks RunPolicy.RunTestPolicy {}).2.2.2 scenarioA
      Result.failed (by decide) (by decide)⟩


/-- C7, counterexample. Live policy, no hooks: a step without matching definition is
attempted (`StepStart` and `StepEnd` are reported for it) and no `afterStep` hook call,
indeed no hook call at all, is made for it. -/
theorem C7_counterexample :
    (ManageExecuteStep noHooks RunPolicy.RunTestPolicy scenarioUndefined stepUndefined {}).events
      = [Event.StartScope ScopeKind.step, Event.StepStart stepUndefined, Event.CollectorStart,
          Event.CaptureStart, Event.CaptureStop, Event.CollectorStop,
          Event.StepEnd Result.undefined stepUndefined, Event.EndScope ScopeKind.step]
    ∧ hookCalls HookType.afterStep
        (ManageExecuteStep noHooks RunPolicy.RunTestPolicy scenarioUndefined stepUndefined
          {}).events = 0 := by
  decide

/-- C7, amended. For every attempted step (the current record is `passed` when it is
managed), under either policy and for every registry: if the step has a single match,
the `afterStep` hook call is made exactly once (and so is the `beforeStep` hook call),
whatever the `beforeStep` call returns and whatever the step body throws; if the step has
no match or several, no hook call is made for it. -/
theorem C7_afterStep_once_for_single_match (registry : HookRegistry) (runPolicy : RunPolicy)
    (scenario : ScenarioInfo) (step : StepInfo) (w : World)
    (hcur : w.contextManager.CurrentContext_ExecutionStatus = Result.passed) :
    (∀ stepMatch, step.StepMatch = StepMatchVariant.single stepMatch →
      hookCalls HookType.afterStep (ManageExecuteStep registry runPolicy scenario step w).events
          = 1
        ∧ hookCalls HookType.beforeStep
            (ManageExecuteStep registry runPolicy scenario step w).events = 1)
    ∧ ((∀ stepMatch, step.StepMatch ≠ StepMatchVariant.single stepMatch) →
      ∀ hook, hookCalls hook (ManageExecuteStep registry runPolicy scenario step w).events
        = 0) := by
  constructor
  · intro stepMatch hm
    simp [hookCalls_ManageExecuteStep_attempted _ _ _ _ _ _ hcur,
      hookCalls_ExecuteStep_visit_single _ _ _ _ _ stepMatch _ hm]
  · intro hm hook
    rw [hookCalls_ManageExecuteStep_attempted _ _ _ _ _ _ hcur,
      hookCalls_ExecuteStep_visit_unmatched _ _ _ _ _ _ hm]

/-- Witness of the amended C7 under the live policy: a step whose body throws, with a
`beforeStep` hook that throws as well, gets one `afterStep` call; an ambiguous step gets
no hook call. -/
theorem C7_afterStep_once_for_single_match_witness :
    (hookCalls HookType.afterStep
        (ManageExecuteStep (throwingHooks HookType.beforeStep) RunPolicy.RunTestPolicy
          scenarioA step2 {}).events = 1
      ∧ hookCalls HookType.beforeStep
        (ManageExecuteStep (throwingHooks HookType.beforeStep) RunPolicy.RunTestPolicy
          scenarioA step2 {}).events = 1)
    ∧ ∀ hook, hookCalls hook
        (ManageExecuteStep noHooks RunPolicy.RunTestPolicy scenarioB stepAmbiguous {}).events
          = 0 :=
  ⟨(C7_afterStep_once_for_single_match (throwingHooks HookType.beforeStep)
      RunPolicy.RunTestPolicy scenarioA step2 {} rfl).1 _ rfl,
    (C7_afterStep_once_for_single_match noHooks RunPolicy.RunTestPolicy scenarioB stepAmbiguous
      {} rfl).2 (fun _ h => StepMatchVariant.noConfusion h)⟩


/-- C8. Guaranteed cleanup hooks of composite scopes, under every policy, for every registry,
feature list and state, whatever the `before`, `beforeFeature` and `beforeAll` hook
calls return: each scenario that is entered gets exactly one `after` hook call; each
feature gets exactly one `afterFeature` hook call if it is entered (it is not empty) and
none otherwise; `Run` makes exactly one `afterAll` hook call; and over a whole run the
number of `after` hook calls is the number of `ScenarioStart` reports and the number of
`afterFeature` hook calls is the number of `FeatureStart` reports. -/
theorem C8_cleanup_hooks_exactly_once (registry : HookRegistry) (runPolicy : RunPolicy)
    (features : List FeatureInfo) (w : World) :
    (∀ scenario w', hookCalls HookType.after
        (RunScenarios.body registry runPolicy scenario w').events = 1)
    ∧ (∀ feature w', hookCalls HookType.afterFeature
        (RunFeature registry runPolicy feature w').events
          = (if feature.Rules.isEmpty && feature.Scenarios.isEmpty then 0 else 1)
        ∧ (RunFeature registry runPolicy feature w').events.countP Event.isFeatureStart
          = (if feature.Rules.isEmpty && feature.Scenarios.isEmpty then 0 else 1))
    ∧ hookCalls HookType.afterAll (Run registry runPolicy features w).events = 1
    ∧ hookCalls HookType.after (Run registry runPolicy features w).events
        = (Run registry runPolicy features w).events.countP Event.isScenarioStart
    ∧ hookCalls HookType.afterFeature (Run registry runPolicy features w).events
        = (Run registry runPolicy features w).events.countP Event.isFeatureStart := by
  have hhookS : ∀ hook w', (runPolicy.ExecuteHook registry hook [] w').events.countP
      Event.isScenarioStart = 0 := fun hook w' =>
    countP_eq_zero_of_level _ (Event.fromHook hook) _ (RunPolicy_ExecuteHook_events _ _ _ _ _)
      (isScenarioStart_of_fromHook hook)
  have hhookF : ∀ hook w', (runPolicy.ExecuteHook registry hook [] w').events.countP
      Event.isFeatureStart = 0 := fun hook w' =>
    countP_eq_zero_of_level _ (Event.fromHook hook) _ (RunPolicy_ExecuteHook_events _ _ _ _ _)
      (isFeatureStart_of_fromHook hook)
  have hloopAll : ∀ w', hookCalls HookType.afterAll
      (Run.loop registry runPolicy features w').events = 0 := fun w' =>
    countP_eq_zero_of_level _ Event.featureLevel _ (Run_loop_featureLevel _ _ _ _)
      isHookCall_afterAll_of_featureLevel
  refine ⟨fun scenario w' => (RunScenarios_body_counts registry runPolicy scenario w').1,
    fun feature w' => (RunFeature_counts registry runPolicy feature w').2, ?_, ?_, ?_⟩
  · simp only [Run, hookCalls_append, hookCalls_ExecuteHook]
    by_cases hv : (runPolicy.ExecuteHook registry HookType.beforeAll [] w).value = true
    · simp only [hv, if_true, hloopAll]
      simp [hookCalls, Event.isHookCall]
    · simp only [hv, Bool.false_eq_true, if_false]
      simp [hookCalls, Event.isHookCall]
  · simp only [Run, hookCalls_append, List.countP_append, hookCalls_ExecuteHook, hhookS]
    by_cases hv : (runPolicy.ExecuteHook registry HookType.beforeAll [] w).value = true
    · simp only [hv, if_true, (Run_loop_counts _ _ _ _).1]
      simp [hookCalls, Event.isHookCall, Event.isScenarioStart]
    · simp only [hv, Bool.false_eq_true, if_false]
      simp [hookCalls, Event.isHookCall, Event.isScenarioStart]
  · simp only [Run, hookCalls_append, List.countP_append, hookCalls_ExecuteHook, hhookF]
    by_cases hv : (runPolicy.ExecuteHook registry HookType.beforeAll [] w).value = true
    · simp only [hv, if_true, (Run_loop_counts _ _ _ _).2]
      simp [hookCalls, Event.isHookCall, Event.isFeatureStart]
    · simp only [hv, Bool.false_eq_true, if_false]
      simp [hookCalls, Event.isHookCall, Event.isFeatureStart]


/-- C9. Live hook dispatcher: for every registry, lifecycle point, tag set and state,
`RunTestPolicy::ExecuteHook` returns a Boolean (it is total: nothing escapes it); it
queries the registry once and runs the hooks returned, in the returned order, up to and
including the first one that throws, and none after it; it returns `true` if and only if
no returned hook throws (so that every returned hook was run, to completion), hence
`false` as soon as one throws; and it returns `true` for an empty match set. -/
theorem C9_live_ExecuteHook (registry : HookRegistry) (hook : HookType) (tags : Tags)
    (w : World) :
    (RunTestPolicy.ExecuteHook registry hook tags w).events
        = Event.HookQuery hook tags
          :: (((registry hook tags).takeWhile (fun m => m.body.thrown.isNone)
              ++ ((registry hook tags).dropWhile (fun m => m.body.thrown.isNone)).take 1).map
                Event.HookBody)
    ∧ ((RunTestPolicy.ExecuteHook registry hook tags w).value = true
        ↔ ∀ m ∈ registry hook tags, m.body.thrown = none)
    ∧ ((RunTestPolicy.ExecuteHook registry hook tags w).value = false
        ↔ ∃ m ∈ registry hook tags, m.body.thrown ≠ none)
    ∧ (registry hook tags = [] →
        (RunTestPolicy.ExecuteHook registry hook tags w).value = true
        ∧ (RunTestPolicy.ExecuteHook registry hook tags w).events
          = [Event.HookQuery hook tags]) := by
  obtain ⟨h1, h2⟩ := RunTestPolicy_ExecuteHook_loop_spec (registry hook tags) w
  refine ⟨by simp [RunTestPolicy.ExecuteHook, h1], by simpa [RunTestPolicy.ExecuteHook] using h2,
    ?_, ?_⟩
  · have : (RunTestPolicy.ExecuteHook registry hook tags w).value
        = (RunTestPolicy.ExecuteHook.loop (registry hook tags) w).value := rfl
    rw [this, ← Bool.not_eq_true, h2]
    simp
  · intro hnil
    simp [RunTestPolicy.ExecuteHook, hnil, RunTestPolicy.ExecuteHook.loop]

/-- Witness of C9: with three hooks of which the second throws, the first two are run and
the third is not, and the call returns `false`; with no hook it returns `true`. -/
theorem C9_live_ExecuteHook_witness :
    (RunTestPolicy.ExecuteHook
        (fun _ _ => [{ id := 1 }, { id := 2, body := { thrown := some Raised.other } },
          { id := 3 }])
        HookType.before [] {}).events
      = [Event.HookQuery HookType.before [], Event.HookBody { id := 1 },
          Event.HookBody { id := 2, body := { thrown := some Raised.other } }]
    ∧ (RunTestPolicy.ExecuteHook
        (fun _ _ => [{ id := 1 }, { id := 2, body := { thrown := some Raised.other } },
          { id := 3 }])
        HookType.before [] {}).value = false
    ∧ (RunTestPolicy.ExecuteHook noHooks HookType.before [] {}).value = true
    ∧ (RunTestPolicy.ExecuteHook noHooks HookType.before [] {}).events
        = [Event.HookQuery HookType.before []] :=
  ⟨(C9_live_ExecuteHook
      (fun _ _ => [{ id := 1 }, { id := 2, body := { thrown := some Raised.other } },
        { id := 3 }]) HookType.before [] {}).1,
    by decide,
    (C9_live_ExecuteHook noHooks HookType.before [] {}).2.2.2 rfl⟩


/-- C10. Dry run: for every registry, feature list and state, a run under `DryRunPolicy`
queries no hook registry, runs no hook body and runs no step body; and every feature of
the list that is not empty is reported with `FeatureStart` and `FeatureEnd`, each of its
rules with `RuleStart` and `RuleEnd`, each scenario of its rules and each of its own
scenarios with `ScenarioStart` and `ScenarioEnd`, and each step of each of these
scenarios with `StepStart` and `StepEnd`, or with `StepSkipped`. -/
theorem C10_dry_run (registry : HookRegistry) (features : List FeatureInfo) (w : World) :
    (∀ e ∈ (Run registry RunPolicy.DryRunPolicy features w).events,
      ∀ hook tags hookMatch step stepMatch,
        e ≠ Event.HookQuery hook tags ∧ e ≠ Event.HookBody hookMatch
          ∧ e ≠ Event.StepBody step stepMatch)
    ∧ ∀ feature ∈ features, (feature.Rules.isEmpty && feature.Scenarios.isEmpty) = false →
      FeatureReported (Run registry RunPolicy.DryRunPolicy features w).events feature := by
  constructor
  · intro e he hook tags hookMatch step stepMatch
    have h := Run_covered registry RunPolicy.DryRunPolicy _ (DryRunPolicy_covers registry)
      features w e he
    refine ⟨?_, ?_, ?_⟩ <;> (rintro rfl; simp [Event.isExecution] at h)
  · exact Run_reported registry RunPolicy.DryRunPolicy (fun _ _ _ => rfl) features w

/-- Witness of C10: a dry run, with a registry whose hooks all throw, of a feature that has a
rule with an undefined step and a scenario of its own. -/
theorem C10_dry_run_witness :
    FeatureReported
      (Run (fun _ _ => [{ id := 9, body := { thrown := some Raised.stdException } }])
        RunPolicy.DryRunPolicy [featureRuleAndB] {}).events featureRuleAndB :=
  (C10_dry_run (fun _ _ => [{ id := 9, body := { thrown := some Raised.stdException } }])
    [featureRuleAndB] {}).2 featureRuleAndB (List.mem_singleton.2 rfl) rfl

end cucumber_cpp.engine.TestRunner

namespace cucumber_cpp.engine.TestRunner

open Sample

/-- C11. `Run` and the `beforeAll` hook call, for every policy, registry, feature list and
state. When the `beforeAll` hook call reports failure, the events of the run are those
of the `beforeAll` call, those of the `afterAll` call and `Summary`: without the hook
events only `Summary` is left (no feature, rule, scenario or step report, no scope
entered or left, no shim), the `afterAll` call is made once, no hook call other than
`beforeAll` and `afterAll` is made, and the context stack is as before. When the
`beforeAll` hook call reports success, the events are those of the `beforeAll` call,
those of the loop over the features, those of the `afterAll` call and `Summary`, and the
features reported with `FeatureStart` are the non-empty features of the list, in list
order. -/
theorem C11_Run_and_beforeAll (registry : HookRegistry) (runPolicy : RunPolicy)
    (features : List FeatureInfo) (w : World) :
    ((runPolicy.ExecuteHook registry HookType.beforeAll [] w).value = false →
      (Run registry runPolicy features w).events
          = (runPolicy.ExecuteHook registry HookType.beforeAll [] w).events
            ++ (runPolicy.ExecuteHook registry HookType.afterAll []
                (runPolicy.ExecuteHook registry HookType.beforeAll [] w).world).events
            ++ [Event.Summary]
        ∧ withoutHooks (Run registry runPolicy features w).events = [Event.Summary]
        ∧ hookCalls HookType.afterAll (Run registry runPolicy features w).events = 1
        ∧ (∀ hook, hook ≠ HookType.beforeAll → hook ≠ HookType.afterAll →
            hookCalls hook (Run registry runPolicy features w).events = 0)
        ∧ (Run registry runPolicy features w).world.contextManager = w.contextManager)
    ∧ ((runPolicy.ExecuteHook registry HookType.beforeAll [] w).value = true →
      (Run registry runPolicy features w).events
          = (runPolicy.ExecuteHook registry HookType.beforeAll [] w).events
            ++ (Run.loop registry runPolicy features
                (runPolicy.ExecuteHook registry HookType.beforeAll [] w).world).events
            ++ (runPolicy.ExecuteHook registry HookType.afterAll []
                (Run.loop registry runPolicy features
                  (runPolicy.ExecuteHook registry HookType.beforeAll [] w).world).world).events
            ++ [Event.Summary]
        ∧ featureStarts (Run registry runPolicy features w).events
          = features.filter (fun f => !(f.Rules.isEmpty && f.Scenarios.isEmpty))) := by
  constructor
  · intro hfail
    have hev : (Run registry runPolicy features w).events
        = (runPolicy.ExecuteHook registry HookType.beforeAll [] w).events
          ++ (runPolicy.ExecuteHook registry HookType.afterAll []
              (runPolicy.ExecuteHook registry HookType.beforeAll [] w).world).events
          ++ [Event.Summary] := by
      simp [Run, hfail]
    refine ⟨hev, ?_, ?_, ?_, Run_contextManager registry runPolicy features w⟩
    · rw [hev]
      simp only [withoutHooks_append, withoutHooks_ExecuteHook]
      simp [withoutHooks, Event.isHookEvent]
    · rw [hev]
      simp only [hookCalls_append, hookCalls_ExecuteHook]
      simp [hookCalls, Event.isHookCall]
    · intro hook h1 h2
      rw [hev]
      simp only [hookCalls_append, hookCalls_ExecuteHook]
      simp [hookCalls, Event.isHookCall, Ne.symm h1, Ne.symm h2]
  · intro hok
    have hev : (Run registry runPolicy features w).events
        = (runPolicy.ExecuteHook registry HookType.beforeAll [] w).events
          ++ (Run.loop registry runPolicy features
              (runPolicy.ExecuteHook registry HookType.beforeAll [] w).world).events
          ++ (runPolicy.ExecuteHook registry HookType.afterAll []
              (Run.loop registry runPolicy features
                (runPolicy.ExecuteHook registry HookType.beforeAll [] w).world).world).events
          ++ [Event.Summary] := by
      simp [Run, hok]
    refine ⟨hev, ?_⟩
    rw [hev]
    simp only [featureStarts_append, featureStarts_ExecuteHook, featureStarts_Run_loop]
    simp [featureStarts]

/-- Witness of C11 under the live policy: with a throwing `beforeAll` hook nothing of the
feature is run; without hooks the two non-empty features are started in list order and
the empty one is not. -/
theorem C11_Run_and_beforeAll_witness :
    withoutHooks (Run (throwingHooks HookType.beforeAll) RunPolicy.RunTestPolicy [featureB]
        {}).events = [Event.Summary]
    ∧ featureStarts (Run noHooks RunPolicy.RunTestPolicy
        [featureRuleOnly, { title := "empty" }, featureB] {}).events
      = [featureRuleOnly, featureB] :=
  ⟨((C11_Run_and_beforeAll (throwingHooks HookType.beforeAll) RunPolicy.RunTestPolicy
      [featureB] {}).1 rfl).2.1,
    ((C11_Run_and_beforeAll noHooks RunPolicy.RunTestPolicy
      [featureRuleOnly, { title := "empty" }, featureB] {}).2 rfl).2⟩

/-- C12. An empty feature is invisible: for every feature without rules and without
scenarios, under every policy, for every registry and state, `RunFeature` causes no
event at all (no report, no scope entered, no hook call) and returns the state it was
given. -/
theorem C12_empty_feature_invisible (registry : HookRegistry) (runPolicy : RunPolicy)
    (feature : FeatureInfo) (w : World)
    (hrules : feature.Rules = []) (hscenarios : feature.Scenarios = []) :
    (RunFeature registry runPolicy feature w).events = []
    ∧ (RunFeature registry runPolicy feature w).world = w := by
  simp [RunFeature, hrules, hscenarios]

/-- Witness of C12 under the live policy with a `beforeFeature` hook that would throw. -/
theorem C12_empty_feature_invisible_witness :
    (RunFeature (throwingHooks HookType.beforeFeature) RunPolicy.RunTestPolicy
        { title := "empty", Tags := ["t"] } {}).events = []
    ∧ (RunFeature (throwingHooks HookType.beforeFeature) RunPolicy.RunTestPolicy
        { title := "empty", Tags := ["t"] } {}).world = {} :=
  C12_empty_feature_invisible (throwingHooks HookType.beforeFeature) RunPolicy.RunTestPolicy
    { title := "empty", Tags := ["t"] } {} rfl rfl

/-- C16. For every feature list, policy, registry and state, `Run` reports `Summary` exactly
once, as the very last event of the run, and the `afterAll` hook call precedes it, with
nothing but what the policy does to serve that call in between (no report). -/
theorem C16_Summary_once_and_last (registry : HookRegistry) (runPolicy : RunPolicy)
    (features : List FeatureInfo) (w : World) :
    (Run registry runPolicy features w).events.getLast? = some Event.Summary
    ∧ (Run registry runPolicy features w).events.countP Event.isSummary = 1
    ∧ ∃ earlier serving, (Run registry runPolicy features w).events
        = earlier ++ Event.PolicyExecuteHook HookType.afterAll [] :: serving ++ [Event.Summary]
      ∧ (∀ e ∈ earlier, e.isSummary = false)
      ∧ (∀ e ∈ serving, e.isReport = false) := by
  have hhook : ∀ hook w', ∀ e ∈ (runPolicy.ExecuteHook registry hook [] w').events,
      e.isSummary = false := fun hook w' e he =>
    isSummary_of_fromHook hook e (RunPolicy_ExecuteHook_events _ _ _ _ _ e he)
  have hloop : ∀ w', ∀ e ∈ (Run.loop registry runPolicy features w').events,
      e.isSummary = false := fun w' e he =>
    isSummary_of_featureLevel e (Run_loop_featureLevel _ _ _ _ e he)
  obtain ⟨A, F, H, hrun, hA, hF, serving, hH, hexec⟩ :
      ∃ A F H, (Run registry runPolicy features w).events = A ++ F ++ H ++ [Event.Summary]
        ∧ (∀ e ∈ A, e.isSummary = false) ∧ (∀ e ∈ F, e.isSummary = false)
        ∧ ∃ serving, H = Event.PolicyExecuteHook HookType.afterAll [] :: serving
          ∧ ∀ e ∈ serving, e.isExecution = true := by
    refine ⟨_, _, _, rfl, hhook _ _, ?_, RunPolicy_ExecuteHook_head registry runPolicy _ _ _⟩
    intro e he
    split at he
    · exact hloop _ e he
    · simp at he
  have hHs : ∀ e ∈ H, e.isSummary = false := by
    intro e he
    rw [hH] at he
    rcases List.mem_cons.1 he with rfl | he
    · rfl
    · have := hexec e he
      cases e <;> simp_all [Event.isExecution, Event.isSummary]
  refine ⟨by simp [hrun], ?_, A ++ F, serving, ?_, ?_,
    fun e he => isReport_of_isExecution e (hexec e he)⟩
  · rw [hrun]
    simp only [List.countP_append]
    rw [List.countP_eq_zero.2 (fun e he => by simp [hA e he]),
      List.countP_eq_zero.2 (fun e he => by simp [hF e he]),
      List.countP_eq_zero.2 (fun e he => by simp [hHs e he])]
    simp [Event.isSummary]
  · rw [hrun, hH]
  · intro e he
    rcases List.mem_append.1 he with he | he
    · exact hA e he
    · exact hF e he

end cucumber_cpp.engine.TestRunner

namespace cucumber_cpp.engine.TestRunner

open Sample

/-- C18. Single-match step dispatch (lines 168-174), for every step with a single match,
every policy, registry and state. The calls on the policy are, in order: the
`beforeStep` hook call, then the policy's `ExecuteStep` if and only if that hook call
returned `true`, then the `afterStep` hook call, which is made in either case. What the
overload raises is what the policy's `ExecuteStep` raised, nothing when it was not
called; the value returned by the `afterStep` hook call takes no part in it, the hook
calls leave the context stack alone, and so the outcome the dispatcher records for the
step (when the step's record is the innermost one, with outcome `s`) is the one the
table of §4.4 gives for what the step body raised, `s` when nothing was raised. -/
theorem C18_single_match_dispatch (registry : HookRegistry) (runPolicy : RunPolicy)
    (scenario : ScenarioInfo) (step : StepInfo) (stepMatch : StepMatch) (w : World)
    (hm : step.StepMatch = StepMatchVariant.single stepMatch) :
    policyCalls (ExecuteStep_visit registry runPolicy scenario step w).events
        = [Event.PolicyExecuteHook HookType.beforeStep scenario.Tags]
          ++ (if (runPolicy.ExecuteHook registry HookType.beforeStep scenario.Tags w).value
              then [Event.PolicyExecuteStep step stepMatch] else [])
          ++ [Event.PolicyExecuteHook HookType.afterStep scenario.Tags]
    ∧ ((∃ s m, Event.PolicyExecuteStep s m
          ∈ (ExecuteStep_visit registry runPolicy scenario step w).events)
        ↔ (runPolicy.ExecuteHook registry HookType.beforeStep scenario.Tags w).value = true)
    ∧ (ExecuteStep_visit registry runPolicy scenario step w).value
        = (if (runPolicy.ExecuteHook registry HookType.beforeStep scenario.Tags w).value
            then (runPolicy.ExecuteStep step stepMatch
              (runPolicy.ExecuteHook registry HookType.beforeStep scenario.Tags w).world).value
            else none)
    ∧ (ExecuteStep_visit registry runPolicy scenario step w).world.contextManager
        = w.contextManager
    ∧ ∀ (cm : ContextManager) (s : Result), w.contextManager = cm.withStep s →
        (ExecuteStep registry runPolicy scenario step
            w).world.contextManager.StepContext_ExecutionStatus
          = (match (if (runPolicy.ExecuteHook registry HookType.beforeStep scenario.Tags w).value
                then (runPolicy.ExecuteStep step stepMatch
                  (runPolicy.ExecuteHook registry HookType.beforeStep scenario.Tags
                    w).world).value
                else none) with
            | none => s
            | some raised => specOutcomeOfRaised raised) := by
  have hcalls : policyCalls (ExecuteStep_visit registry runPolicy scenario step w).events
      = [Event.PolicyExecuteHook HookType.beforeStep scenario.Tags]
        ++ (if (runPolicy.ExecuteHook registry HookType.beforeStep scenario.Tags w).value
            then [Event.PolicyExecuteStep step stepMatch] else [])
        ++ [Event.PolicyExecuteHook HookType.afterStep scenario.Tags] := by
    simp only [ExecuteStep_visit, hm, ExecuteStep_StepMatch, policyCalls_append,
      policyCalls_ExecuteHook]
    by_cases hv : (runPolicy.ExecuteHook registry HookType.beforeStep scenario.Tags w).value
        = true
    · simp only [hv, if_true, policyCalls_ExecuteStep]
    · simp only [hv, Bool.false_eq_true, if_false]
      rfl
  have hvalue : (ExecuteStep_visit registry runPolicy scenario step w).value
      = (if (runPolicy.ExecuteHook registry HookType.beforeStep scenario.Tags w).value
          then (runPolicy.ExecuteStep step stepMatch
            (runPolicy.ExecuteHook registry HookType.beforeStep scenario.Tags w).world).value
          else none) := by
    simp only [ExecuteStep_visit, hm, ExecuteStep_StepMatch]
    split <;> rfl
  refine ⟨hcalls, ?_, hvalue, ExecuteStep_visit_contextManager _ _ _ _ _, ?_⟩
  · have hmem : ∀ s m, Event.PolicyExecuteStep s m
          ∈ (ExecuteStep_visit registry runPolicy scenario step w).events
        ↔ Event.PolicyExecuteStep s m
          ∈ policyCalls (ExecuteStep_visit registry runPolicy scenario step w).events := by
      intro s m
      simp [policyCalls, Event.isPolicyCall]
    constructor
    · rintro ⟨s, m, hsm⟩
      rw [hmem, hcalls] at hsm
      by_cases hv : (runPolicy.ExecuteHook registry HookType.beforeStep scenario.Tags w).value
          = true
      · exact hv
      · simp [hv] at hsm
    · intro hv
      refine ⟨step, stepMatch, ?_⟩
      rw [hmem, hcalls]
      simp [hv]
  · intro cm s hcm
    rw [ExecuteStep_contextManager, hcm, ← hvalue]
    rcases (ExecuteStep_visit registry runPolicy scenario step w).value with _ | c
    · simp
    · cases c <;> simp [ContextManager.SetStep_withStep, specOutcomeOfRaised]

/-- Witness of C18 under the live policy: with a throwing `beforeStep` hook the body of a
step that would raise is not run and the step's record stays `passed`; without hooks the
body is run between the two hook calls and the record becomes `failed`. -/
theorem C18_single_match_dispatch_witness :
    (policyCalls (ExecuteStep_visit (throwingHooks HookType.beforeStep)
        RunPolicy.RunTestPolicy scenarioA step2 (stepEntered {})).events
      = [Event.PolicyExecuteHook HookType.beforeStep [],
          Event.PolicyExecuteHook HookType.afterStep []]
    ∧ (ExecuteStep (throwingHooks HookType.beforeStep) RunPolicy.RunTestPolicy scenarioA step2
        (stepEntered {})).world.contextManager.StepContext_ExecutionStatus = Result.passed)
    ∧ (policyCalls (ExecuteStep_visit noHooks RunPolicy.RunTestPolicy scenarioA step2
        (stepEntered {})).events
      = [Event.PolicyExecuteHook HookType.beforeStep [],
          Event.PolicyExecuteStep step2
            { id := 2, body := { thrown := some Raised.stdException } },
          Event.PolicyExecuteHook HookType.afterStep []]
    ∧ (ExecuteStep noHooks RunPolicy.RunTestPolicy scenarioA step2
        (stepEntered {})).world.contextManager.StepContext_ExecutionStatus = Result.failed) :=
  ⟨⟨(C18_single_match_dispatch (throwingHooks HookType.beforeStep) RunPolicy.RunTestPolicy
        scenarioA step2 _ (stepEntered {}) rfl).1,
      (C18_single_match_dispatch (throwingHooks HookType.beforeStep) RunPolicy.RunTestPolicy
        scenarioA step2 _ (stepEntered {}) rfl).2.2.2.2 {} Result.passed rfl⟩,
    ⟨(C18_single_match_dispatch noHooks RunPolicy.RunTestPolicy scenarioA step2 _
        (stepEntered {}) rfl).1,
      (C18_single_match_dispatch noHooks RunPolicy.RunTestPolicy scenarioA step2 _
        (stepEntered {}) rfl).2.2.2.2 {} Result.passed rfl⟩⟩

end cucumber_cpp.engine.TestRunner

namespace cucumber_cpp.engine.TestRunner

open Sample

/-- C14. Soft failure, for every attempted step (the current record is `passed` when it is
managed), every policy, registry and state. The `Failure` reports of the step are, in
order, exactly one per test part result the collector holds when the dispatcher returns;
the step is reported with one `StepEnd`; if the collector holds at least one result the
outcome it carries is `failed`, whatever the dispatcher recorded and even if nothing was
raised; if it holds none, no `Failure` is reported and the outcome is the one the
dispatcher recorded. Under the live policy with hooks that succeed, what the collector
holds for a single-match step is what the step body reported. -/
theorem C14_soft_failure (registry : HookRegistry) (runPolicy : RunPolicy)
    (scenario : ScenarioInfo) (step : StepInfo) (w : World)
    (hcur : w.contextManager.CurrentContext_ExecutionStatus = Result.passed) :
    (ManageExecuteStep registry runPolicy scenario step w).events.filter Event.isFailure
        = (collected registry runPolicy scenario step w).map
            (fun error => Event.Failure error.message error.file_name error.line_number)
    ∧ (∀ r, Event.StepEnd r step ∈ (ManageExecuteStep registry runPolicy scenario step w).events
        ↔ r = stepOutcome registry runPolicy scenario step w)
    ∧ (collected registry runPolicy scenario step w ≠ [] →
        stepOutcome registry runPolicy scenario step w = Result.failed)
    ∧ (collected registry runPolicy scenario step w = [] →
        stepOutcome registry runPolicy scenario step w
            = (stepExecuted registry runPolicy scenario step
                w).contextManager.StepContext_ExecutionStatus
          ∧ ∀ e ∈ (ManageExecuteStep registry runPolicy scenario step w).events,
              e.isFailure = false)
    ∧ (runPolicy = RunPolicy.RunTestPolicy → hooksSucceed registry →
        ∀ stepMatch, step.StepMatch = StepMatchVariant.single stepMatch →
          collected registry runPolicy scenario step w = stepMatch.body.failures) := by
  obtain ⟨hev, -⟩ := ManageExecuteStep_attempted registry runPolicy scenario step w hcur
  have hvisit : (ExecuteStep_visit registry runPolicy scenario step
      (startShims (stepEntered w))).events.filter Event.isFailure = [] := by
    simp only [List.filter_eq_nil_iff]
    intro e he
    have := ExecuteStep_visit_isReport registry runPolicy scenario step _ e he
    cases e <;> simp_all [Event.isReport, Event.isFailure]
  have htrace : ∀ captured, (traceCaptured captured).filter Event.isFailure = [] := by
    intro captured
    simp only [List.filter_eq_nil_iff]
    intro e he
    obtain ⟨t, rfl⟩ := traceCaptured_mem _ e he
    simp [Event.isFailure]
  have hfilter : (ManageExecuteStep registry runPolicy scenario step w).events.filter
      Event.isFailure
      = (collected registry runPolicy scenario step w).map
          (fun error => Event.Failure error.message error.file_name error.line_number) := by
    rw [hev, WrapExecuteStep_events]
    simp only [List.filter_append, hvisit, htrace]
    simp [Event.isFailure, List.filter_map, Function.comp_def]
  refine ⟨hfilter, ?_, ?_, ?_, ?_⟩
  · intro r
    rw [hev]
    simp only [List.mem_append, List.mem_cons, List.mem_singleton, List.mem_nil_iff, or_false,
      reduceCtorEq, false_or, Event.StepEnd.injEq, and_true]
    constructor
    · rintro (hmem | rfl)
      · have := WrapExecuteStep_wrapLevel registry runPolicy scenario step _ _ hmem
        simp [Event.wrapLevel] at this
      · rfl
    · rintro rfl
      exact Or.inr rfl
  · intro hne
    rw [stepOutcome_eq]
    cases hc : collected registry runPolicy scenario step w with
    | nil => exact absurd hc hne
    | cons a rest => simp
  · intro hnil
    refine ⟨by rw [stepOutcome_eq]; simp [hnil], ?_⟩
    intro e he
    by_contra hf
    have hmem : e ∈ (ManageExecuteStep registry runPolicy scenario step w).events.filter
        Event.isFailure := List.mem_filter.2 ⟨he, by simpa using hf⟩
    rw [hfilter, hnil] at hmem
    simp at hmem
  · rintro rfl hreg stepMatch hm
    exact live_collected_succeed registry hreg scenario step stepMatch w hm

/-- Witness of C14 under the live policy without hooks: a step body that raises nothing and
reports two failed assertions is reported with the two `Failure`s in order and ends
`failed`. -/
theorem C14_soft_failure_witness :
    (ManageExecuteStep noHooks RunPolicy.RunTestPolicy scenarioSoft stepSoft {}).events.filter
        Event.isFailure
      = [Event.Failure "first" "a.cpp" 3, Event.Failure "second" "a.cpp" 7]
    ∧ (ExecuteStep_visit noHooks RunPolicy.RunTestPolicy scenarioSoft stepSoft
        (startShims (stepEntered {}))).value = none
    ∧ stepOutcome noHooks RunPolicy.RunTestPolicy scenarioSoft stepSoft {} = Result.failed :=
  ⟨(C14_soft_failure noHooks RunPolicy.RunTestPolicy scenarioSoft stepSoft {} rfl).1,
    by decide,
    (C14_soft_failure noHooks RunPolicy.RunTestPolicy scenarioSoft stepSoft {} rfl).2.2.1
      (by decide)⟩

end cucumber_cpp.engine.TestRunner

namespace cucumber_cpp.engine.TestRunner

open Sample

/-- C15, counterexample. Live policy, no hooks: a step body that writes two blanks and a
newline to the standard output. The captured text is not empty, so the test of line 109
passes; `Rtrim` then leaves the empty string, and `Trace` is reported with it: a
`Trace` event is forwarded although the right-trimmed text is empty. -/
theorem C15_counterexample :
    Rtrim "  \n" = ""
    ∧ (ManageExecuteStep noHooks RunPolicy.RunTestPolicy scenarioBlank stepBlank {}).events
      = [Event.StartScope ScopeKind.step, Event.StepStart stepBlank, Event.CollectorStart,
          Event.CaptureStart, Event.PolicyExecuteHook HookType.beforeStep [],
          Event.HookQuery HookType.beforeStep [],
          Event.PolicyExecuteStep stepBlank { id := 8, body := { out := "  \n" } },
          Event.StepBody stepBlank { id := 8, body := { out := "  \n" } },
          Event.PolicyExecuteHook HookType.afterStep [], Event.HookQuery HookType.afterStep [],
          Event.CaptureStop, Event.Trace "", Event.CollectorStop,
          Event.StepEnd Result.passed stepBlank, Event.EndScope ScopeKind.step] := by
  decide

/-- C15, amended. For every attempted step, every policy, registry and state: the `Trace`
reports of the step are at most two, first for the standard output and then for the
standard error; one is forwarded for a stream if and only if the text captured from it
is not empty, before any trimming (lines 109 and 115), and it carries that text with
its trailing whitespace removed; so captured text that is not empty and consists of
whitespace only is reported as a `Trace` of the empty string. Under the live policy,
when no hook is registered for the two step lifecycle points, the captured texts of a
single-match step are what the step body wrote. -/
theorem C15_trace_iff_captured_nonempty (registry : HookRegistry) (runPolicy : RunPolicy)
    (scenario : ScenarioInfo) (step : StepInfo) (w : World)
    (hcur : w.contextManager.CurrentContext_ExecutionStatus = Result.passed) :
    (ManageExecuteStep registry runPolicy scenario step w).events.filter Event.isTrace
        = (if capturedOut registry runPolicy scenario step w = "" then []
            else [Event.Trace (Rtrim (capturedOut registry runPolicy scenario step w))])
          ++ (if capturedErr registry runPolicy scenario step w = "" then []
            else [Event.Trace (Rtrim (capturedErr registry runPolicy scenario step w))])
    ∧ (capturedOut registry runPolicy scenario step w ≠ "" →
        (∀ c ∈ (capturedOut registry runPolicy scenario step w).data, c.isWhitespace = true) →
        Event.Trace "" ∈ (ManageExecuteStep registry runPolicy scenario step w).events)
    ∧ (runPolicy = RunPolicy.RunTestPolicy →
        registry HookType.beforeStep scenario.Tags = [] →
        registry HookType.afterStep scenario.Tags = [] →
        ∀ stepMatch, step.StepMatch = StepMatchVariant.single stepMatch →
          capturedOut registry runPolicy scenario step w = stepMatch.body.out
          ∧ capturedErr registry runPolicy scenario step w = stepMatch.body.err) := by
  obtain ⟨hev, -⟩ := ManageExecuteStep_attempted registry runPolicy scenario step w hcur
  obtain ⟨hout, herr⟩ := stepExecuted_streams registry runPolicy scenario step w
  have hvisit : (ExecuteStep_visit registry runPolicy scenario step
      (startShims (stepEntered w))).events.filter Event.isTrace = [] := by
    simp only [List.filter_eq_nil_iff]
    intro e he
    have := ExecuteStep_visit_isReport registry runPolicy scenario step _ e he
    cases e <;> simp_all [Event.isReport, Event.isTrace]
  have hfail : ((collected registry runPolicy scenario step w).map
      (fun error => Event.Failure error.message error.file_name error.line_number)).filter
      Event.isTrace = [] := by
    simp only [List.filter_eq_nil_iff, List.mem_map]
    rintro e ⟨a, -, rfl⟩
    simp [Event.isTrace]
  have htrace : ∀ str : String, (traceCaptured (some str)).filter Event.isTrace
      = if str = "" then [] else [Event.Trace (Rtrim str)] := by
    intro str
    by_cases hs : str = "" <;> simp [traceCaptured, hs, Event.isTrace]
  have hfilter : (ManageExecuteStep registry runPolicy scenario step w).events.filter
      Event.isTrace
      = (if capturedOut registry runPolicy scenario step w = "" then []
          else [Event.Trace (Rtrim (capturedOut registry runPolicy scenario step w))])
        ++ (if capturedErr registry runPolicy scenario step w = "" then []
          else [Event.Trace (Rtrim (capturedErr registry runPolicy scenario step w))]) := by
    rw [hev, WrapExecuteStep_events, hout, herr]
    simp only [List.filter_append, hvisit, hfail, htrace]
    simp [Event.isTrace]
  refine ⟨hfilter, ?_, ?_⟩
  · intro hne hws
    have hmem : Event.Trace "" ∈ (ManageExecuteStep registry runPolicy scenario step
        w).events.filter Event.isTrace := by
      rw [hfilter, Rtrim_of_whitespace _ hws]
      simp [hne]
    exact (List.mem_filter.1 hmem).1
  · rintro rfl hb ha stepMatch hm
    have hw := (live_visit_noStepHooks registry scenario step stepMatch
      (startShims (stepEntered w)) hm hb ha).1
    have hs := ExecuteStep_streams registry RunPolicy.RunTestPolicy scenario step
      (startShims (stepEntered w))
    refine ⟨?_, ?_⟩
    · unfold capturedOut stepExecuted
      rw [hs.1, hw]
      simp [World.perform, startShims]
    · unfold capturedErr stepExecuted
      rw [hs.2, hw]
      simp [World.perform, startShims]

/-- Witness of the amended C15 under the live policy without hooks, on the step that writes
whitespace only: its one `Trace` report carries the empty string. -/
theorem C15_trace_iff_captured_nonempty_witness :
    capturedOut noHooks RunPolicy.RunTestPolicy scenarioBlank stepBlank {} = "  \n"
    ∧ Event.Trace "" ∈ (ManageExecuteStep noHooks RunPolicy.RunTestPolicy scenarioBlank
        stepBlank {}).events :=
  ⟨((C15_trace_iff_captured_nonempty noHooks RunPolicy.RunTestPolicy scenarioBlank stepBlank {}
      rfl).2.2 rfl rfl rfl _ rfl).1,
    (C15_trace_iff_captured_nonempty noHooks RunPolicy.RunTestPolicy scenarioBlank stepBlank {}
      rfl).2.1 (by decide) (by decide)⟩

end cucumber_cpp.engine.TestRunner

namespace cucumber_cpp.engine.TestRunner

open Sample

/-- C13. Event sequence around a failing step. Under the live policy with hooks that all
succeed, from every state: for every scenario A whose steps are `pre`, then `step`, then
`post`, where every step of `pre` has a single match whose body neither raises nor reports
a failure and `step` has a single match whose body raises a generic error (a
`std::exception` or anything that is not one of the three named exceptions), and which
is followed in the list by a scenario B, the reports of kinds
ScenarioStart/StepEnd/StepSkipped/ScenarioEnd of `RunScenarios` are, in order:
`ScenarioStart A`, `StepEnd passed` for each step of `pre`, `StepEnd failed step`,
`StepSkipped` for each step of `post`, `ScenarioEnd failed A`, `ScenarioStart B`, and
then what B and the scenarios after it cause. -/
theorem C13_sequence_around_failing_step (registry : HookRegistry)
    (hreg : hooksSucceed registry) (A B : ScenarioInfo) (rest : List ScenarioInfo)
    (pre post : List StepInfo) (step : StepInfo) (stepMatch : StepMatch) (w : World)
    (hchildren : A.Children = pre ++ step :: post)
    (hpre : ∀ s ∈ pre, ∃ m, s.StepMatch = StepMatchVariant.single m
      ∧ m.body.thrown = none ∧ m.body.failures = [])
    (hm : step.StepMatch = StepMatchVariant.single stepMatch)
    (hthrown : stepMatch.body.thrown = some Raised.stdException
      ∨ stepMatch.body.thrown = some Raised.other) :
    ∃ tail, outline (RunScenarios registry RunPolicy.RunTestPolicy (A :: B :: rest) w).events
      = [Event.ScenarioStart A] ++ pre.map (Event.StepEnd Result.passed)
        ++ [Event.StepEnd Result.failed step] ++ post.map Event.StepSkipped
        ++ [Event.ScenarioEnd Result.failed A, Event.ScenarioStart B] ++ tail := by
  obtain ⟨tailB, hB⟩ := outline_RunScenarios_body registry RunPolicy.RunTestPolicy B
    (RunScenarios.body registry RunPolicy.RunTestPolicy A w).world
  refine ⟨tailB ++ outline (RunScenarios.loop registry RunPolicy.RunTestPolicy rest
    (true && (RunScenarios.body registry RunPolicy.RunTestPolicy A w).value
      && (RunScenarios.body registry RunPolicy.RunTestPolicy B
        (RunScenarios.body registry RunPolicy.RunTestPolicy A w).world).value)
    (RunScenarios.body registry RunPolicy.RunTestPolicy B
      (RunScenarios.body registry RunPolicy.RunTestPolicy A w).world).world).events, ?_⟩
  simp only [RunScenarios, RunScenarios.loop, outline_append, hB,
    live_RunScenarios_body_failing registry hreg A pre post step stepMatch w hchildren hpre hm
      hthrown]
  simp

/-- Witness of C13 on the instance of the specification, n = 3 and k = 2, without hooks:
scenario A has the steps `step1`, `step2` (which throws a `std::exception`) and `step3`,
and is followed by scenario B; the second conjunct is the whole outline of the run of the
feature holding A and B. -/
theorem C13_sequence_around_failing_step_witness :
    (∃ tail, outline (RunScenarios noHooks RunPolicy.RunTestPolicy [scenarioA, scenarioB]
        {}).events
      = [Event.ScenarioStart scenarioA] ++ [step1].map (Event.StepEnd Result.passed)
        ++ [Event.StepEnd Result.failed step2] ++ [step3].map Event.StepSkipped
        ++ [Event.ScenarioEnd Result.failed scenarioA, Event.ScenarioStart scenarioB] ++ tail)
    ∧ outline (Run noHooks RunPolicy.RunTestPolicy [featureAB] {}).events
      = [Event.ScenarioStart scenarioA, Event.StepEnd Result.passed step1,
          Event.StepEnd Result.failed step2, Event.StepSkipped step3,
          Event.ScenarioEnd Result.failed scenarioA, Event.ScenarioStart scenarioB,
          Event.StepEnd Result.passed step1, Event.ScenarioEnd Result.passed scenarioB] :=
  ⟨C13_sequence_around_failing_step noHooks (fun _ _ _ h => absurd h (List.not_mem_nil _))
      scenarioA scenarioB [] [step1] [step3] step2
      { id := 2, body := { thrown := some Raised.stdException } } {} rfl
      (by
        intro s hs
        rw [List.mem_singleton] at hs
        subst hs
        exact ⟨{ id := 1 }, rfl, rfl, rfl⟩)
      rfl (Or.inl rfl),
    by decide⟩

end cucumber_cpp.engine.TestRunner

namespace cucumber_cpp.engine.TestRunner

open Sample

/-- C17. Sibling independence, for every policy, registry, list of features and state such
that the policy's hook calls for `beforeAll`, `beforeFeature` and `before` return `true`.
In the reports of the run, every `ScenarioStart` of a scenario that has steps is followed
at once by the `StepStart` of its first step (so that step is attempted, not skipped);
every scenario of every feature of the list, directly under the feature or under one of
its rules, is reported so, whatever stands before it in the list; every single scenario
is reported so from every state, and leaves the context stack as it found it; and a
`StepSkipped` among the events of a scenario always comes with a `StepEnd` of an outcome
other than `passed` among the events of that same scenario. -/
theorem C17_sibling_independence (registry : HookRegistry) (runPolicy : RunPolicy)
    (hok : beforeHooksSucceed registry runPolicy) (features : List FeatureInfo) (w : World) :
    firstStepsAttempted (reportEvents (Run registry runPolicy features w).events) = true
    ∧ (∀ feature ∈ features, ∀ scenario,
        (scenario ∈ feature.Scenarios ∨ ∃ rule ∈ feature.Rules, scenario ∈ rule.Scenarios) →
        ∀ first rest, scenario.Children = first :: rest →
          AttemptedFirst (Run registry runPolicy features w).events scenario first)
    ∧ (∀ scenario first rest w', scenario.Children = first :: rest →
        AttemptedFirst (RunScenarios.body registry runPolicy scenario w').events scenario first
        ∧ (RunScenarios.body registry runPolicy scenario w').world.contextManager
          = w'.contextManager)
    ∧ (∀ scenario w' skipped,
        Event.StepSkipped skipped ∈ (RunScenarios.body registry runPolicy scenario w').events →
        ∃ r step, r ≠ Result.passed
          ∧ Event.StepEnd r step
            ∈ (RunScenarios.body registry runPolicy scenario w').events) := by
  have hbefore := hok HookType.before (Or.inr (Or.inr rfl))
  refine ⟨?_, ?_, ?_, ?_⟩
  · have h := SettledStarts_Run registry runPolicy hbefore features w []
    rw [List.append_nil] at h
    rw [h]
    rfl
  · intro feature hfeature scenario hmem first rest hchildren
    exact AttemptedFirst_Run registry runPolicy hok features w feature hfeature scenario hmem
      first rest hchildren
  · intro scenario first rest w' hchildren
    exact ⟨AttemptedFirst_RunScenarios_body registry runPolicy scenario w' first rest hchildren
      (hbefore _ _), RunScenarios_body_contextManager registry runPolicy scenario w'⟩
  · intro scenario w' skipped hmem
    exact RunScenarios_body_skipped_cause registry runPolicy scenario w' skipped hmem

/-- Witness of C17 under the live policy without hooks, on a run of two features: the first
holds scenario A, which fails at its second step, then scenario B; the second holds a rule
whose scenario has an undefined step, then scenario B again. The first step of the rule's
scenario, which comes after a failed scenario, a failed feature and nothing else, is
attempted. -/
theorem C17_sibling_independence_witness :
    beforeHooksSucceed noHooks RunPolicy.RunTestPolicy
    ∧ firstStepsAttempted (reportEvents (Run noHooks RunPolicy.RunTestPolicy
        [featureAB, featureRuleAndB] {}).events) = true
    ∧ AttemptedFirst (Run noHooks RunPolicy.RunTestPolicy [featureAB, featureRuleAndB]
        {}).events scenarioUndefined stepUndefined :=
  ⟨fun _ _ _ _ => rfl,
    (C17_sibling_independence noHooks RunPolicy.RunTestPolicy (fun _ _ _ _ => rfl)
      [featureAB, featureRuleAndB] {}).1,
    (C17_sibling_independence noHooks RunPolicy.RunTestPolicy (fun _ _ _ _ => rfl)
      [featureAB, featureRuleAndB] {}).2.1 featureRuleAndB (by decide) scenarioUndefined
      (Or.inr ⟨ruleU, by decide, by decide⟩) stepUndefined [] rfl⟩

end cucumber_cpp.engine.TestRunner

namespace cucumber_cpp.engine.TestRunner

open Sample

/-- C19. Live and dry run agree on benign input. For every list of features and every state: if
the hook registry returns no hook for any query, and every single-match step of every
scenario of the features (directly under a feature or under a rule) has a body that
completes without raising, without failed assertion and without output, then `Run` under
`RunTestPolicy` and `Run` under `DryRunPolicy` make the same calls on the report handler,
in the same order and with the same outcomes (durations are not modelled), and leave the
same state, context stack included. -/
theorem C19_live_and_dry_agree (registry : HookRegistry)
    (hreg : ∀ hook tags, registry hook tags = []) (features : List FeatureInfo)
    (hfeatures : features.all FeatureInfo.benign = true) (w : World) :
    reportEvents (Run registry RunPolicy.RunTestPolicy features w).events
        = reportEvents (Run registry RunPolicy.DryRunPolicy features w).events
    ∧ (Run registry RunPolicy.RunTestPolicy features w).world
        = (Run registry RunPolicy.DryRunPolicy features w).world :=
  ⟨(benign_Run registry hreg features hfeatures w).2.2,
    (benign_Run registry hreg features hfeatures w).2.1⟩

/-- Witness of C19 on a feature with a rule whose scenario has an undefined step and a scenario
with one passing step: both policies report the same, the `undefined` outcome included. -/
theorem C19_live_and_dry_agree_witness :
    (reportEvents (Run noHooks RunPolicy.RunTestPolicy [featureRuleAndB] {}).events
        = reportEvents (Run noHooks RunPolicy.DryRunPolicy [featureRuleAndB] {}).events
      ∧ (Run noHooks RunPolicy.RunTestPolicy [featureRuleAndB] {}).world
        = (Run noHooks RunPolicy.DryRunPolicy [featureRuleAndB] {}).world)
    ∧ Event.StepEnd Result.undefined stepUndefined
        ∈ reportEvents (Run noHooks RunPolicy.DryRunPolicy [featureRuleAndB] {}).events
    ∧ Event.StepEnd Result.passed step1
        ∈ reportEvents (Run noHooks RunPolicy.DryRunPolicy [featureRuleAndB] {}).events :=
  ⟨C19_live_and_dry_agree noHooks (fun _ _ => rfl) [featureRuleAndB] (by decide) {},
    by decide, by decide⟩

end cucumber_cpp.engine.TestRunner

namespace cucumber_cpp.engine.TestRunner

open Sample

/-- C20. Well-bracketed event trace and balanced context stack, for every policy, registry,
list of features and state. The events of `Run` are a list `body` followed by `Summary`,
and `body` reads as a properly nested list from the empty nesting back to the empty
nesting (`Nesting.run`): every `FeatureStart`, `RuleStart`, `ScenarioStart` and
`StepStart` is closed by the `FeatureEnd`, `RuleEnd`, `ScenarioEnd`, `StepEnd` of the
same node, innermost first; a rule is reported only right inside a feature, a scenario
only right inside a feature or a rule, `StepStart` and `StepSkipped` only right inside a
scenario, `Failure` and `Trace` only inside a step of a scenario; every scope entered
with `StartScope` is left, innermost first, whatever scopes were entered before the run;
and the run leaves the context stack as it found it, so with the depth it had. -/
theorem C20_well_bracketed_and_balanced (registry : HookRegistry) (runPolicy : RunPolicy)
    (features : List FeatureInfo) (w : World) (scopes : List ScopeKind) :
    ∃ body, (Run registry runPolicy features w).events = body ++ [Event.Summary]
      ∧ ({ nodes := [], scopes := scopes } : Nesting).run body
        = some { nodes := [], scopes := scopes }
      ∧ (Run registry runPolicy features w).world.contextManager = w.contextManager
      ∧ (Run registry runPolicy features w).world.contextManager.frames.length
        = w.contextManager.frames.length := by
  have hfeatures : ∀ (b : Bool) (w' : World),
      ({ nodes := [], scopes := scopes } : Nesting).run
        (if b = true then Run.loop registry runPolicy features w'
          else { value := (), world := w', events := [] }).events
      = some { nodes := [], scopes := scopes } := by
    intro b w'
    cases b
    · rfl
    · exact Nesting_run_Run_loop registry runPolicy features w' scopes
  refine ⟨(runPolicy.ExecuteHook registry HookType.beforeAll [] w).events
    ++ ((if (runPolicy.ExecuteHook registry HookType.beforeAll [] w).value = true
          then Run.loop registry runPolicy features
            (runPolicy.ExecuteHook registry HookType.beforeAll [] w).world
          else { value := (), world := (runPolicy.ExecuteHook registry HookType.beforeAll []
            w).world, events := [] }).events
      ++ (runPolicy.ExecuteHook registry HookType.afterAll []
          (if (runPolicy.ExecuteHook registry HookType.beforeAll [] w).value = true
            then Run.loop registry runPolicy features
              (runPolicy.ExecuteHook registry HookType.beforeAll [] w).world
            else { value := (), world := (runPolicy.ExecuteHook registry HookType.beforeAll []
              w).world, events := [] }).world).events), ?_, ?_, ?_, ?_⟩
  · simp only [Run, List.append_assoc]
  · rw [Nesting_run_append_of _ (Nesting_run_ExecuteHook _ _ _ _ _ _),
      Nesting_run_append_of _ (hfeatures _ _)]
    exact Nesting_run_ExecuteHook _ _ _ _ _ _
  · exact Run_contextManager registry runPolicy features w
  · rw [Run_contextManager registry runPolicy features w]

end cucumber_cpp.engine.TestRunner
